import Mathlib

/-!
# mermaidjs-server: render cache, render coordinator, browser singleton, live channel

A shallow embedding of `src/server.js`:

* JavaScript values and option objects (insertion-ordered property lists),
  `JSON.stringify` on the normalized option record, SHA-256 and
  `generateCacheKey`;
* the file system behind `fs-extra` as an explicit state (`FS`), with
  `getCacheFilePaths`, `isCacheValid`, `saveToCache`, `getFromCache`;
* the process state (`World`: file system, clock, browser singleton) with
  `getBrowserInstance`, `renderWithMermaid` and `convertMermaid` as
  state-passing functions, run without interleaving of other requests;
* the browser singleton under interleaving (`Manager`): one step per piece
  of code between two awaits of `getBrowserInstance`, `cleanupBrowser`, the
  idle reaper and the `'disconnected'` handler;
* the WebSocket message handler, the heartbeat with its idle close
  (`WsSession`), and the send throttle of `public/app.js` (`Client`);
* the HTTP handlers of `DELETE /cache/:key` (`deleteCacheKey`) and of the
  conversion routes with their diagnostic headers (`postConvert`);
* the key text over raw JavaScript values (`Raw`): strings as UTF-16 code
  units, numbers as integer-valued doubles.

External collaborators (puppeteer launch, the mermaid render call, sharp,
uuid, the duration of each awaited step) are fields of `Env`.
-/

namespace MermaidServer

/-! ## JavaScript values -/

/-- The JavaScript values that request options can carry here: `undefined`
(also the result of reading an absent property), `null`, booleans, integer
numbers and strings. -/
inductive JsVal where
  | undefined
  | null
  | bool (b : Bool)
  | num (n : Int)
  | str (s : String)
  deriving DecidableEq, Repr

/-- JavaScript truthiness (`ToBoolean`). -/
def JsVal.truthy : JsVal → Bool
  | .undefined => false
  | .null => false
  | .bool b => b
  | .num n => n != 0
  | .str s => s != ""

/-- The JavaScript expression `a || b`. -/
def JsVal.or (a b : JsVal) : JsVal := if a.truthy then a else b

/-- A destructuring default `{ x = d }`: `d` replaces `undefined` only. -/
def JsVal.orDefault (v d : JsVal) : JsVal := if v = .undefined then d else v

/-- A plain object: its own properties in insertion order. -/
abbrev JsObject := List (String × JsVal)

/-- Property read `o.k`; an absent property reads as `undefined`. -/
def JsObject.get (o : JsObject) (k : String) : JsVal :=
  match o.lookup k with
  | some v => v
  | none => .undefined

/-! ## JSON.stringify -/

/-- Lower-case hexadecimal digit of `n < 16`. -/
def hexDigit (n : Nat) : Char :=
  if n < 10 then Char.ofNat (48 + n) else Char.ofNat (87 + n)

/-- The escape `JSON.stringify` writes for one character of a string. -/
def jsonEscapeChar (c : Char) : List Char :=
  let n := c.toNat
  if n = 34 then [Char.ofNat 92, Char.ofNat 34]
  else if n = 92 then [Char.ofNat 92, Char.ofNat 92]
  else if n = 8 then [Char.ofNat 92, Char.ofNat 98]
  else if n = 9 then [Char.ofNat 92, Char.ofNat 116]
  else if n = 10 then [Char.ofNat 92, Char.ofNat 110]
  else if n = 12 then [Char.ofNat 92, Char.ofNat 102]
  else if n = 13 then [Char.ofNat 92, Char.ofNat 114]
  else if n < 32 then
    [Char.ofNat 92, Char.ofNat 117, Char.ofNat 48, Char.ofNat 48, hexDigit (n / 16), hexDigit (n % 16)]
  else [c]

/-- The JSON text of a string: quoted and escaped. -/
def jsonQuote (s : String) : String :=
  String.mk ([Char.ofNat 34] ++ s.data.flatMap jsonEscapeChar ++ [Char.ofNat 34])

/-! ### Numbers as text (`Number::toString`)

A JavaScript number is an IEEE double. An integer below `2 ^ 53` in
magnitude is written with all its decimal digits. A larger integer-valued
double `x` is written with the fewest digits `s` such that `s * 10 ^ p`
rounds to `x`; the digits are followed by `p` zeros when that makes at most
21 digits, and are written in exponent form (`1e+21`, `1.5e+30`) otherwise. -/

/-- The number of binary digits of `v` beyond the first 53 (`fuel` bounds the
halvings; `v` itself is enough). -/
def excessBits : Nat → Nat → Nat
  | 0, _ => 0
  | fuel + 1, v => if v < 9007199254740992 then 0 else excessBits fuel (v / 2) + 1

/-- The double nearest to the natural number `v`, ties going to the even
significand (the Number value for `v`). -/
def roundDouble (v : Nat) : Nat :=
  if v < 9007199254740992 then v
  else
    let sh := excessBits v v
    let q := v / 2 ^ sh
    let r := v % 2 ^ sh
    let half := 2 ^ (sh - 1)
    if r < half then q * 2 ^ sh
    else if half < r then (q + 1) * 2 ^ sh
    else if q % 2 = 0 then q * 2 ^ sh else (q + 1) * 2 ^ sh

/-- The digits `s` and the power of ten `p` that `Number::toString` writes
for the integer-valued double `x`: the largest `p`, from the given bound
downwards, for which a multiple `s * 10 ^ p` next to `x` rounds to `x`; of
two such multiples the one nearer to `x`, and the even `s` when they are
equally near. -/
def shortestDigits (x : Nat) : Nat → Nat × Nat
  | 0 => (x, 0)
  | p + 1 =>
    let lo := x / 10 ^ (p + 1)
    let hi := lo + 1
    let okLo : Bool := lo != 0 && roundDouble (lo * 10 ^ (p + 1)) == x
    let okHi : Bool := roundDouble (hi * 10 ^ (p + 1)) == x
    if okLo && okHi then
      if x - lo * 10 ^ (p + 1) < hi * 10 ^ (p + 1) - x then (lo, p + 1)
      else if hi * 10 ^ (p + 1) - x < x - lo * 10 ^ (p + 1) then (hi, p + 1)
      else if lo % 2 = 0 then (lo, p + 1) else (hi, p + 1)
    else if okLo then (lo, p + 1)
    else if okHi then (hi, p + 1)
    else shortestDigits x p

/-- The text of the decimal digits `ds` times `10 ^ p`: the digits and `p`
zeros when that makes at most 21 digits; otherwise exponent form, with a
point after the first digit when there are more. -/
def digitsText (ds : List Char) (p : Nat) : List Char :=
  if ds.length + p ≤ 21 then ds ++ List.replicate p (Char.ofNat 48)
  else
    (match ds with
     | [] => []
     | [d] => [d]
     | d :: rest => d :: Char.ofNat 46 :: rest) ++
      (Char.ofNat 101 :: Char.ofNat 43 :: (toString (ds.length + p - 1)).data)

/-- The text of `s * 10 ^ p` for the digits `s` that `shortestDigits` chose. -/
def numberText (s p : Nat) : String := String.mk (digitsText (toString s).data p)

/-- The text of a non-negative integer-valued double. -/
def naturalText (x : Nat) : String :=
  if x < 9007199254740992 then toString x
  else
    numberText (shortestDigits x (toString x).length).1 (shortestDigits x (toString x).length).2

/-- The text `Number::toString` writes for an integer-valued double, which
is also its JSON text. -/
def numberToString (n : Int) : String :=
  if n < 0 then "-" ++ naturalText n.natAbs else naturalText n.natAbs

/-- Whether an integer is a JavaScript number: rounding to a double leaves
it unchanged, and it is below `2 ^ 1024`. -/
def isNumberValue (n : Int) : Bool :=
  roundDouble n.natAbs == n.natAbs && decide (excessBits n.natAbs n.natAbs ≤ 971)

/-- The JSON text of a property value; `none` for `undefined`, whose
property `JSON.stringify` leaves out. -/
def jsonValue : JsVal → Option String
  | .undefined => none
  | .null => some "null"
  | .bool b => some (if b then "true" else "false")
  | .num n => some (numberToString n)
  | .str s => some (jsonQuote s)

/-- The members of an object, each as `"key":value`, in property order. -/
def jsonMembers (o : JsObject) : List String :=
  o.filterMap (fun kv => (jsonValue kv.2).map (fun t => jsonQuote kv.1 ++ ":" ++ t))

/-- The result of `JSON.stringify(o)` for a plain object. -/
def jsonStringify (o : JsObject) : String :=
  "\x7b" ++ ",".intercalate (jsonMembers o) ++ "\x7d"

/-! ## SHA-256 (`crypto.createHash('sha256').update(s).digest('hex')`) -/

/-- Round constants of SHA-256 (FIPS 180-4). -/
def sha256K : List Nat := [
  0x428a2f98, 0x71374491, 0xb5c0fbcf, 0xe9b5dba5, 0x3956c25b, 0x59f111f1, 0x923f82a4, 0xab1c5ed5,
  0xd807aa98, 0x12835b01, 0x243185be, 0x550c7dc3, 0x72be5d74, 0x80deb1fe, 0x9bdc06a7, 0xc19bf174,
  0xe49b69c1, 0xefbe4786, 0x0fc19dc6, 0x240ca1cc, 0x2de92c6f, 0x4a7484aa, 0x5cb0a9dc, 0x76f988da,
  0x983e5152, 0xa831c66d, 0xb00327c8, 0xbf597fc7, 0xc6e00bf3, 0xd5a79147, 0x06ca6351, 0x14292967,
  0x27b70a85, 0x2e1b2138, 0x4d2c6dfc, 0x53380d13, 0x650a7354, 0x766a0abb, 0x81c2c92e, 0x92722c85,
  0xa2bfe8a1, 0xa81a664b, 0xc24b8b70, 0xc76c51a3, 0xd192e819, 0xd6990624, 0xf40e3585, 0x106aa070,
  0x19a4c116, 0x1e376c08, 0x2748774c, 0x34b0bcb5, 0x391c0cb3, 0x4ed8aa4a, 0x5b9cca4f, 0x682e6ff3,
  0x748f82ee, 0x78a5636f, 0x84c87814, 0x8cc70208, 0x90befffa, 0xa4506ceb, 0xbef9a3f7, 0xc67178f2]

/-- Truncation to a 32-bit word. -/
def w32 (x : Nat) : Nat := x % 4294967296

/-- Rotate a 32-bit word right by `n` bits. -/
def rotr (x n : Nat) : Nat := (x >>> n) ||| w32 (x <<< (32 - n))

/-- Bitwise complement of a 32-bit word. -/
def not32 (x : Nat) : Nat := 4294967295 - x

/-- UTF-8 bytes of one character. -/
def utf8Bytes (c : Char) : List Nat :=
  let n := c.toNat
  if n < 0x80 then [n]
  else if n < 0x800 then [0xC0 + n / 64, 0x80 + n % 64]
  else if n < 0x10000 then [0xE0 + n / 4096, 0x80 + (n / 64) % 64, 0x80 + n % 64]
  else [0xF0 + n / 262144, 0x80 + (n / 4096) % 64, 0x80 + (n / 64) % 64, 0x80 + n % 64]

/-- Big-endian bytes of `n`, `k` of them. -/
def bigEndian (n : Nat) : Nat → List Nat
  | 0 => []
  | k + 1 => (n / 256 ^ k) % 256 :: bigEndian n k

/-- Message padding: a one bit, zeros, and the bit length in 64 bits. -/
def sha256Pad (m : List Nat) : List Nat :=
  m ++ [0x80] ++ List.replicate ((119 - m.length % 64) % 64) 0 ++ bigEndian (8 * m.length) 8

/-- Bytes grouped into big-endian 32-bit words. -/
def toWords : List Nat → List Nat
  | a :: b :: c :: d :: r => (((a * 256 + b) * 256 + c) * 256 + d) :: toWords r
  | _ => []

/-- Message schedule extension; `ws` holds the words so far, latest first. -/
def sha256Schedule : Nat → List Nat → List Nat
  | 0, ws => ws
  | k + 1, ws =>
    let w15 := ws.getD 14 0
    let w2 := ws.getD 1 0
    let s0 := rotr w15 7 ^^^ rotr w15 18 ^^^ (w15 >>> 3)
    let s1 := rotr w2 17 ^^^ rotr w2 19 ^^^ (w2 >>> 10)
    sha256Schedule k (w32 (ws.getD 15 0 + s0 + ws.getD 6 0 + s1) :: ws)

/-- The eight working variables of SHA-256. -/
structure ShaState where
  a : Nat
  b : Nat
  c : Nat
  d : Nat
  e : Nat
  f : Nat
  g : Nat
  h : Nat

/-- One compression round with constant `kw.1` and schedule word `kw.2`. -/
def sha256Round (s : ShaState) (kw : Nat × Nat) : ShaState :=
  let s1 := rotr s.e 6 ^^^ rotr s.e 11 ^^^ rotr s.e 25
  let ch := (s.e &&& s.f) ^^^ (not32 s.e &&& s.g)
  let t1 := s.h + s1 + ch + kw.1 + kw.2
  let s0 := rotr s.a 2 ^^^ rotr s.a 13 ^^^ rotr s.a 22
  let mj := (s.a &&& s.b) ^^^ (s.a &&& s.c) ^^^ (s.b &&& s.c)
  ⟨w32 (t1 + s0 + mj), s.a, s.b, s.c, w32 (s.d + t1), s.e, s.f, s.g⟩

/-- Compression of one 16-word block into the chaining value `h`. -/
def sha256Block (h : ShaState) (ws : List Nat) : ShaState :=
  let w := (sha256Schedule 48 ws.reverse).reverse
  let r := (sha256K.zip w).foldl sha256Round h
  ⟨w32 (h.a + r.a), w32 (h.b + r.b), w32 (h.c + r.c), w32 (h.d + r.d),
   w32 (h.e + r.e), w32 (h.f + r.f), w32 (h.g + r.g), w32 (h.h + r.h)⟩

/-- Compression of `n` consecutive blocks. -/
def sha256Blocks : Nat → ShaState → List Nat → ShaState
  | 0, h, _ => h
  | n + 1, h, ws => sha256Blocks n (sha256Block h (ws.take 16)) (ws.drop 16)

/-- Eight lower-case hex digits of a 32-bit word. -/
def hex32 (x : Nat) : List Char :=
  (List.range 8).map (fun i => hexDigit ((x / 16 ^ (7 - i)) % 16))

/-- SHA-256 of the UTF-8 bytes of `s`, as 64 lower-case hex digits. -/
def sha256 (s : String) : String :=
  let ws := toWords (sha256Pad (s.data.flatMap utf8Bytes))
  let r := sha256Blocks (ws.length / 16)
    ⟨0x6a09e667, 0xbb67ae85, 0x3c6ef372, 0xa54ff53a, 0x510e527f, 0x9b05688c, 0x1f83d9ab, 0x5be0cd19⟩ ws
  String.mk ([r.a, r.b, r.c, r.d, r.e, r.f, r.g, r.h].flatMap hex32)

/-! ## Configuration and the cache key -/

/-- The constants `server.js` reads from the environment at start-up. -/
structure Config where
  CACHE_ENABLED : Bool := true
  CACHE_DIR : String := "cache"
  CACHE_TTL : Int := 86400000
  TEMP_DIR : String := "temp"
  DEFAULT_THEME : String := "default"
  DEFAULT_BACKGROUND : String := "white"
  DEFAULT_WIDTH : Int := 800
  DEFAULT_HEIGHT : Int := 600
  BROWSER_IDLE_MAX_MS : Int := 300000
  WS_IDLE_CLOSE_MS : Int := 120000
  WS_PING_INTERVAL_MS : Int := 30000

/-- The configuration with every environment variable unset. -/
def defaultConfig : Config := {}

/-- The `normalizedOptions` record built inside `generateCacheKey`; its
property order is the order of the object literal. -/
def normalizedOptions (cfg : Config) (options : JsObject) : JsObject :=
  [("theme", (options.get "theme").or (.str cfg.DEFAULT_THEME)),
   ("backgroundColor", (options.get "backgroundColor").or (.str cfg.DEFAULT_BACKGROUND)),
   ("width", (options.get "width").or .null),
   ("height", (options.get "height").or .null)]

/-- The text `content` that `generateCacheKey` hashes. -/
def cacheKeyContent (cfg : Config) (mermaidCode : String) (options : JsObject) : String :=
  mermaidCode ++ jsonStringify (normalizedOptions cfg options)

/-- Source `generateCacheKey(mermaidCode, options)`. -/
def generateCacheKey (cfg : Config) (mermaidCode : String) (options : JsObject) : String :=
  sha256 (cacheKeyContent cfg mermaidCode options)

/-- The destructuring at the head of `convertMermaid`: the four option
fields with the configured default in place of `undefined`. -/
def destructureOptions (cfg : Config) (options : JsObject) : JsObject :=
  [("theme", (options.get "theme").orDefault (.str cfg.DEFAULT_THEME)),
   ("backgroundColor", (options.get "backgroundColor").orDefault (.str cfg.DEFAULT_BACKGROUND)),
   ("width", (options.get "width").orDefault (.num cfg.DEFAULT_WIDTH)),
   ("height", (options.get "height").orDefault (.num cfg.DEFAULT_HEIGHT))]

/-- The `cacheKey` that `convertMermaid` computes for a request. -/
def convertCacheKey (cfg : Config) (mermaidCode : String) (options : JsObject) : String :=
  generateCacheKey cfg mermaidCode (destructureOptions cfg options)

/-! ## The file system behind `fs-extra` -/

/-- A file-system path, as the string `path.join` produces. -/
abbrev Path := String

/-- Raw bytes of an artifact. -/
abbrev Bytes := List Nat

/-- The metadata record `saveToCache` writes to `<key>.meta.json`. -/
structure MetaRecord where
  timestamp : Int
  format : String
  options : JsObject
  cacheKey : String
  deriving DecidableEq, Repr

/-- What a file holds: raw bytes that are not JSON text (`readJson`
rejects them), or the JSON text of a metadata record with an integer
`timestamp`, as `writeJson` produces it. -/
inductive Content where
  | data (b : Bytes)
  | json (m : MetaRecord)
  deriving DecidableEq, Repr

/-- What a path names: nothing, an entry that exists but whose reads fail
(a storage error), or a readable file. -/
inductive Node where
  | absent
  | unreadable
  | file (c : Content)
  deriving DecidableEq, Repr

/-- The storage state: what each path names, and the paths on which a
write throws (permissions, full disk). -/
structure FS where
  node : Path → Node
  writeFails : Path → Bool

/-- The call `path.join(dir, name)` for a plain `name` (no `.` or `..`
segment to normalize). -/
def pathJoin (dir name : String) : Path := dir ++ "/" ++ name

/-- The call `fs.pathExists(p)`: never rejects. -/
def FS.pathExists (fs : FS) (p : Path) : Bool :=
  match fs.node p with
  | .absent => false
  | _ => true

/-- The call `fs.readFile(p)`. -/
def FS.readFile (fs : FS) (p : Path) : Except String Content :=
  match fs.node p with
  | .file c => .ok c
  | .absent => .error "ENOENT: no such file or directory"
  | .unreadable => .error "EACCES: permission denied"

/-- The call `fs.readJson(p)`: read, then parse. -/
def FS.readJson (fs : FS) (p : Path) : Except String MetaRecord :=
  match fs.readFile p with
  | .ok (.json m) => .ok m
  | .ok (.data _) => .error "Unexpected token in JSON"
  | .error e => .error e

/-- A write of content `c` to path `p`, replacing what was there. -/
def FS.write (fs : FS) (p : Path) (c : Content) : Except String FS :=
  if fs.writeFails p then .error "EACCES: permission denied"
  else .ok { fs with node := fun q => if q = p then .file c else fs.node q }

/-- The call `fs.writeFile(p, buffer)`. -/
def FS.writeFile (fs : FS) (p : Path) (b : Bytes) : Except String FS := fs.write p (.data b)

/-- The call `fs.writeJson(p, obj)`. -/
def FS.writeJson (fs : FS) (p : Path) (m : MetaRecord) : Except String FS := fs.write p (.json m)

/-- The call `fs.copy(src, dest)` of fs-extra: rejects when both name the
same file or the source cannot be read; overwrites the destination. -/
def FS.copy (fs : FS) (src dest : Path) : Except String FS :=
  if src = dest then .error "Source and destination must not be the same."
  else
    match fs.readFile src with
    | .error e => .error e
    | .ok c => fs.write dest c

/-! ## The artifact cache -/

/-- The three paths of a cache key. -/
structure CachePaths where
  svg : Path
  png : Path
  meta : Path

/-- Source `getCacheFilePaths(cacheKey)`. -/
def getCacheFilePaths (cfg : Config) (cacheKey : String) : CachePaths :=
  { svg := pathJoin cfg.CACHE_DIR (cacheKey ++ ".svg"),
    png := pathJoin cfg.CACHE_DIR (cacheKey ++ ".png"),
    meta := pathJoin cfg.CACHE_DIR (cacheKey ++ ".meta.json") }

/-- The `targetPath` of `saveToCache` and `getFromCache`:
`format === 'svg' ? cachePaths.svg : cachePaths.png`. -/
def targetPath (cfg : Config) (cacheKey format : String) : Path :=
  if format = "svg" then (getCacheFilePaths cfg cacheKey).svg else (getCacheFilePaths cfg cacheKey).png

/-- Source `isCacheValid(metaPath)`; `now` is the reading of `Date.now()`. -/
def isCacheValid (cfg : Config) (fs : FS) (now : Int) (metaPath : Path) : Bool :=
  match fs.readJson metaPath with
  | .ok m => decide (now - m.timestamp < cfg.CACHE_TTL)
  | .error _ => false

/-- The `try` block of `saveToCache`: the storage it leaves, and the
message of the error it threw, if any. `now` is the reading of `Date.now()`
taken for the metadata. -/
def saveToCacheTry (cfg : Config) (fs : FS) (now : Int) (cacheKey format : String)
    (filePath : Path) (options : JsObject) : FS × Option String :=
  let cachePaths := getCacheFilePaths cfg cacheKey
  match fs.copy filePath (targetPath cfg cacheKey format) with
  | .error e => (fs, some e)
  | .ok fs1 =>
    let m : MetaRecord := { timestamp := now, format := format, options := options, cacheKey := cacheKey }
    match fs1.writeJson cachePaths.meta m with
    | .error e => (fs1, some e)
    | .ok fs2 => (fs2, none)

/-- Source `saveToCache(cacheKey, format, filePath, options)`: a no-op when
the cache is disabled; an error of the `try` block is logged and dropped. -/
def saveToCache (cfg : Config) (fs : FS) (now : Int) (cacheKey format : String)
    (filePath : Path) (options : JsObject) : FS :=
  if !cfg.CACHE_ENABLED then fs
  else (saveToCacheTry cfg fs now cacheKey format filePath options).1

/-- The `try` block of `getFromCache`. -/
def getFromCacheTry (cfg : Config) (fs : FS) (now : Int) (cacheKey format : String) :
    Except String (Option Path) :=
  let cachePaths := getCacheFilePaths cfg cacheKey
  if !isCacheValid cfg fs now cachePaths.meta then .ok none
  else if !fs.pathExists (targetPath cfg cacheKey format) then .ok none
  else .ok (some (targetPath cfg cacheKey format))

/-- Source `getFromCache(cacheKey, format)`; `none` is `null`. -/
def getFromCache (cfg : Config) (fs : FS) (now : Int) (cacheKey format : String) : Option Path :=
  if !cfg.CACHE_ENABLED then none
  else
    match getFromCacheTry cfg fs now cacheKey format with
    | .ok r => r
    | .error _ => none

/-! ## Process state and external collaborators -/

/-- The arguments of one `renderMermaid` call. -/
structure RenderCall where
  browser : Nat
  definition : String
  format : String
  viewportWidth : JsVal
  viewportHeight : JsVal
  backgroundColor : JsVal
  theme : JsVal
  deriving DecidableEq, Repr

/-- Observable uses of the shared render resource, recorded in order. -/
inductive Event where
  | acquire
  | launch
  | render (c : RenderCall)
  deriving DecidableEq, Repr

/-- The external collaborators of one request: the outcome of
`puppeteer.launch`, of the dynamic import of the render library, of
`renderMermaid` and of `sharp(..).png().toBuffer()`, the identifier `uuidv4()`
returns, and the milliseconds each awaited step takes. -/
structure Env where
  launch : Except String Nat
  cliImport : Option String := none
  renderMermaid : RenderCall → Except String Bytes
  rasterize : Content → Except String Bytes
  uuidv4 : String
  tLookup : Nat := 0
  tRead : Nat := 0
  tRaster : Nat := 0
  tWrite : Nat := 0
  tSave : Nat := 0
  tLaunch : Nat := 0
  tRender : Nat := 0

/-- The mutable state of the server process: storage, the clock in
milliseconds (read by `Date.now()` and, up to an offset, by `hrNow()`), the
module-level browser variables, and the record of resource uses. -/
structure World where
  fs : FS
  clock : Int
  browserInstance : Option Nat := none
  browserInitializing : Bool := false
  lastBrowserUseTs : Int := 0
  lastBrowserStartupDurationMs : Int := 0
  lastBrowserWasNew : Bool := false
  trace : List Event := []

/-- The clock after `d` more milliseconds. -/
def World.tick (w : World) (d : Nat) : World := { w with clock := w.clock + d }

/-- The result of an `async` function run on its own: a value, a thrown
error, or `pending` when it waits for a flag only another task can clear. -/
inductive Outcome (α : Type) where
  | ok (a : α)
  | throw (msg : String)
  | pending

/-- Source `getBrowserInstance()`, run without other tasks in between: a
held instance is returned; while another task initializes, the polling
loop cannot end (`pending`); otherwise this call launches the browser, and
a failed launch leaves no instance and rethrows. Every call records
`acquire`, a launch records `launch`. -/
def getBrowserInstance (env : Env) (w : World) : World × Outcome Nat :=
  let w0 := { w with trace := w.trace ++ [Event.acquire] }
  match w0.browserInstance with
  | some b => ({ w0 with lastBrowserWasNew := false }, .ok b)
  | none =>
    if w0.browserInitializing then (w0, .pending)
    else
      let start := w0.clock
      let w1 := { w0 with browserInitializing := true, trace := w0.trace ++ [Event.launch] }
      let w2 := w1.tick env.tLaunch
      match env.launch with
      | .ok b =>
        ({ w2 with browserInstance := some b,
                   lastBrowserStartupDurationMs := w2.clock - start,
                   lastBrowserUseTs := w2.clock,
                   lastBrowserWasNew := true,
                   browserInitializing := false }, .ok b)
      | .error e => ({ w2 with browserInstance := none, browserInitializing := false }, .throw e)

/-- The arguments `renderWithMermaid` passes to `renderMermaid`: the
viewport and colours with the configured defaults in place of falsy values. -/
def renderCallOf (cfg : Config) (browser : Nat) (definition format : String)
    (opts : JsObject) : RenderCall :=
  { browser := browser, definition := definition, format := format,
    viewportWidth := (opts.get "width").or (.num cfg.DEFAULT_WIDTH),
    viewportHeight := (opts.get "height").or (.num cfg.DEFAULT_HEIGHT),
    backgroundColor := (opts.get "backgroundColor").or (.str cfg.DEFAULT_BACKGROUND),
    theme := (opts.get "theme").or (.str cfg.DEFAULT_THEME) }

/-- Source `renderWithMermaid(definition, format, {theme, backgroundColor,
width, height})`. -/
def renderWithMermaid (cfg : Config) (env : Env) (w : World) (definition format : String)
    (opts : JsObject) : World × Outcome Bytes :=
  match getBrowserInstance env w with
  | (w1, .throw e) => (w1, .throw e)
  | (w1, .pending) => (w1, .pending)
  | (w1, .ok browser) =>
    match env.cliImport with
    | some e => (w1, .throw e)
    | none =>
      let call := renderCallOf cfg browser definition format opts
      let w2 := { w1 with trace := w1.trace ++ [Event.render call] }.tick env.tRender
      match env.renderMermaid call with
      | .error e => (w2, .throw e)
      | .ok data => ({ w2 with lastBrowserUseTs := w2.clock }, .ok data)

/-! ## The render coordinator -/

/-- The `timings` object of a result. -/
structure Timings where
  cacheLookupMs : Int
  renderMs : Int
  rasterizeMs : Int
  totalMs : Int
  deriving DecidableEq, Repr

/-- The object `convertMermaid` resolves to. -/
structure ConvertResult where
  outputPath : Path
  cacheKey : String
  cacheStatus : String
  source : String
  timings : Timings
  options : JsObject
  deriving DecidableEq, Repr

/-- The awaited `saveToCache` call inside `convertMermaid`: the copy takes
`tSave` milliseconds before the timestamp is read. -/
def saveToCacheW (cfg : Config) (env : Env) (w : World) (cacheKey format : String)
    (filePath : Path) (options : JsObject) : World :=
  if !cfg.CACHE_ENABLED then w
  else
    let w1 := w.tick env.tSave
    { w1 with fs := saveToCache cfg w1.fs w1.clock cacheKey format filePath options }

/-- The full-render block of `convertMermaid`, which the source writes once
for `'png'` (with extension `.png` and the message prefix `Failed to convert
mermaid to PNG: `) and once for `'svg'` (`.svg`, `Failed to convert mermaid: `):
render in the browser, write the temporary file, save it to the cache; an
error of the `try` block is rethrown with the prefix. -/
def renderFresh (cfg : Config) (env : Env) (w : World) (startTotal lookupMs : Int)
    (cacheKey mermaidCode fmt errContext : String) (opts : JsObject) :
    World × Outcome ConvertResult :=
  let outputPath := pathJoin cfg.TEMP_DIR (env.uuidv4 ++ "." ++ fmt)
  let renderStart := w.clock
  match renderWithMermaid cfg env w mermaidCode fmt opts with
  | (w1, .pending) => (w1, .pending)
  | (w1, .throw e) => (w1, .throw (errContext ++ e))
  | (w1, .ok buffer) =>
    let renderMs := w1.clock - renderStart
    let w2 := w1.tick env.tWrite
    match w2.fs.writeFile outputPath buffer with
    | .error e => (w2, .throw (errContext ++ e))
    | .ok fs2 =>
      let w3 := saveToCacheW cfg env { w2 with fs := fs2 } cacheKey fmt outputPath opts
      (w3, .ok { outputPath := outputPath, cacheKey := cacheKey, cacheStatus := "MISS",
                 source := "api",
                 timings := { cacheLookupMs := lookupMs, renderMs := renderMs, rasterizeMs := 0,
                              totalMs := w3.clock - startTotal },
                 options := opts })

/-- Source `convertMermaid(mermaidCode, format, options)`. Each awaited step
advances the clock by its duration in `env`; `timings` holds the differences
of the clock readings the source takes. The `finally` blocks only fill
`timings.totalMs` of a call that throws and are left out. -/
def convertMermaid (cfg : Config) (env : Env) (w : World) (mermaidCode format : String)
    (options : JsObject) : World × Outcome ConvertResult :=
  let startTotal := w.clock
  let opts := destructureOptions cfg options
  let cacheKey := generateCacheKey cfg mermaidCode opts
  let cacheLookupStart := w.clock
  let w1 := w.tick env.tLookup
  let lookupMs := w1.clock - cacheLookupStart
  match getFromCache cfg w1.fs w1.clock cacheKey format with
  | some cachedPath =>
    (w1, .ok { outputPath := cachedPath, cacheKey := cacheKey, cacheStatus := "HIT",
               source := "cache",
               timings := { cacheLookupMs := lookupMs, renderMs := 0, rasterizeMs := 0,
                            totalMs := w1.clock - startTotal },
               options := opts })
  | none =>
    if format = "png" then
      let w2 := w1.tick env.tLookup
      match getFromCache cfg w2.fs w2.clock cacheKey "svg" with
      | some cachedSvgPath =>
        let rasterStart := w2.clock
        let w3 := w2.tick env.tRead
        match w3.fs.readFile cachedSvgPath with
        | .error e => (w3, .throw e)
        | .ok svgContent =>
          let w4 := w3.tick env.tRaster
          match env.rasterize svgContent with
          | .error e => (w4, .throw e)
          | .ok pngBuffer =>
            let rasterizeMs := w4.clock - rasterStart
            let tmpPngPath := pathJoin cfg.TEMP_DIR (env.uuidv4 ++ ".png")
            let w5 := w4.tick env.tWrite
            match w5.fs.writeFile tmpPngPath pngBuffer with
            | .error e => (w5, .throw e)
            | .ok fs5 =>
              let w6 := saveToCacheW cfg env { w5 with fs := fs5 } cacheKey "png" tmpPngPath opts
              (w6, .ok { outputPath := (getCacheFilePaths cfg cacheKey).png, cacheKey := cacheKey,
                         cacheStatus := "HIT-SVG", source := "cache-svg-rasterized",
                         timings := { cacheLookupMs := lookupMs, renderMs := 0,
                                      rasterizeMs := rasterizeMs,
                                      totalMs := w6.clock - startTotal },
                         options := opts })
      | none =>
        renderFresh cfg env w2 startTotal lookupMs cacheKey mermaidCode "png"
          "Failed to convert mermaid to PNG: " opts
    else
      renderFresh cfg env w1 startTotal lookupMs cacheKey mermaidCode "svg"
        "Failed to convert mermaid: " opts

/-! ## Predicates and sample data used in the statements -/

/-- Two readings of an option field that `convertMermaid` cannot tell apart:
the same value, or absent in the first and the default `d` in the second. -/
def absentOrDefault (v1 v2 d : JsVal) : Prop := v1 = v2 ∨ (v1 = .undefined ∧ v2 = d)

/-- Storage does not refuse the cache write of `file` under `(key, format)`:
the copy has distinct source and destination, and neither the artifact path
nor the metadata path rejects writes. -/
def cacheWritable (cfg : Config) (fs : FS) (key format : String) (file : Path) : Prop :=
  file ≠ targetPath cfg key format ∧
  fs.writeFails (targetPath cfg key format) = false ∧
  fs.writeFails (getCacheFilePaths cfg key).meta = false

/-- The world in which the derivation branch of `convertMermaid` calls
`saveToCache`: both lookups, the read, the rasterization and the temporary
write have taken their time, and the temporary file holds `png`. -/
def derivedWorld (cfg : Config) (env : Env) (w : World) (png : Bytes) : World :=
  { w with
    clock := w.clock + env.tLookup + env.tLookup + env.tRead + env.tRaster + env.tWrite,
    fs := { w.fs with
            node := fun q =>
              if q = pathJoin cfg.TEMP_DIR (env.uuidv4 ++ ".png") then .file (.data png)
              else w.fs.node q } }

/-- The value an outcome resolved to, if it did. -/
def Outcome.value? {α : Type} : Outcome α → Option α
  | .ok a => some a
  | _ => none

/-- A sample diagram source. -/
def sampleCode : String := "graph TD\nA-->B"

/-- A sample environment: the launch succeeds, the backend returns five
bytes for `'svg'` and four for `'png'`, the rasterizer returns five bytes. -/
def sampleEnv : Env :=
  { launch := .ok 1,
    renderMermaid := fun c =>
      if c.format = "svg" then .ok [60, 115, 118, 103, 62] else .ok [137, 80, 78, 71],
    rasterize := fun _ => .ok [137, 80, 78, 71, 10],
    uuidv4 := "0b1f7a52-6c1d-4a57-9d0a-3c5e8f1b2d47",
    tLookup := 1, tRead := 1, tRaster := 5, tWrite := 1, tSave := 2, tLaunch := 500, tRender := 40 }

/-- Storage with no file at all, every path writable. -/
def emptyFS : FS := { node := fun _ => .absent, writeFails := fun _ => false }

/-- A freshly started server: empty cache, no browser, clock at 1000 ms. -/
def freshWorld : World := { fs := emptyFS, clock := 1000 }

/-- The server after one `'svg'` request for `sampleCode` with no options:
the vector artifact is cached, the raster one is not. -/
def svgCachedWorld : World := (convertMermaid defaultConfig sampleEnv freshWorld sampleCode "svg" []).1

/-- The cache key of the sample request. -/
def sampleKey : String := convertCacheKey defaultConfig sampleCode []

/-- As `svgCachedWorld`, but the cache files of the sample key now reject
writes (the cache volume is full or read-only); the temporary directory
stays writable. -/
def cacheLockedWorld : World :=
  { svgCachedWorld with
    fs := { svgCachedWorld.fs with
            writeFails := fun p =>
              decide (p = (getCacheFilePaths defaultConfig sampleKey).png ∨
                      p = (getCacheFilePaths defaultConfig sampleKey).meta) } }

/-- Storage holding one temporary vector file. -/
def tempSvgFS : FS :=
  { node := fun p => if p = "temp/a.svg" then .file (.data [60, 115, 118, 103, 62]) else .absent,
    writeFails := fun _ => false }


/-! ## The browser singleton under interleaving

JavaScript runs one task at a time and switches tasks only at an `await`.
Each step below is the code one task runs between two awaits, so a list of
steps is one interleaving of `getBrowserInstance` calls, `cleanupBrowser`
calls, reaper ticks and `'disconnected'` callbacks. The browser launched by
call number `i` is named `i`. -/

/-- Where one `getBrowserInstance()` call stands: not called yet, awaiting
`puppeteer.launch`, awaiting the 100 ms sleep of the wait loop, returned
`browserInstance` (`none` is `null`), or threw. -/
inductive CallState where
  | idle
  | launching
  | polling
  | resolved (v : Option Nat)
  | rejected (msg : String)
  deriving DecidableEq, Repr

/-- The module-level browser variables, the calls in flight, the
`cleanupBrowser` calls awaiting `close()` (each with the instance it is
closing), and a record of what happened to the browsers: how often
`puppeteer.launch` was invoked, which instances it returned, which were
closed and which emitted `'disconnected'`. -/
structure Manager where
  browserInstance : Option Nat := none
  browserInitializing : Bool := false
  lastBrowserUseTs : Int := 0
  lastBrowserWasNew : Bool := false
  calls : List CallState := []
  closing : List Nat := []
  launches : Nat := 0
  launched : List Nat := []
  closed : List Nat := []
  disconnected : List Nat := []
  deriving DecidableEq, Repr

/-- One step of one task. -/
inductive MgrStep where
  | call (i : Nat)
  | launchDone (i : Nat) (err : Option String) (now : Int)
  | wake (i : Nat)
  | cleanup
  | reaperTick (now : Int)
  | closeDone (b : Nat) (ok : Bool)
  | disconnect (b : Nat)
  | markUsed (now : Int)
  deriving DecidableEq, Repr

/-- `N` calls not yet made, no instance, no initialization in progress. -/
def Manager.init (N : Nat) : Manager := { calls := List.replicate N .idle }

/-- Source `getBrowserInstance()` from its call to its first `await` (or to
its `return` when an instance is held). -/
def Manager.call (s : Manager) (i : Nat) : Manager :=
  match s.calls[i]? with
  | some .idle =>
    match s.browserInstance with
    | some b => { s with lastBrowserWasNew := false, calls := s.calls.set i (.resolved (some b)) }
    | none =>
      if s.browserInitializing then { s with calls := s.calls.set i .polling }
      else { s with browserInitializing := true, launches := s.launches + 1,
                    calls := s.calls.set i .launching }
  | _ => s

/-- Source `getBrowserInstance()` after `await puppeteer.launch(..)`: on
success the instance is published and the `'disconnected'` handler
registered; on failure the `catch` clears the instance and rethrows; the
`finally` clears the flag either way. `now` is the reading of `Date.now()`. -/
def Manager.launchDone (s : Manager) (i : Nat) (err : Option String) (now : Int) : Manager :=
  match s.calls[i]? with
  | some .launching =>
    match err with
    | none =>
      { s with browserInstance := some i, lastBrowserUseTs := now, lastBrowserWasNew := true,
               launched := s.launched ++ [i], browserInitializing := false,
               calls := s.calls.set i (.resolved (some i)) }
    | some e =>
      { s with browserInstance := none, browserInitializing := false,
               calls := s.calls.set i (.rejected e) }
  | _ => s

/-- One turn of the wait loop `while (browserInitializing) await sleep(100)`
and, when the flag is clear, the `return browserInstance` after it. -/
def Manager.wake (s : Manager) (i : Nat) : Manager :=
  match s.calls[i]? with
  | some .polling =>
    if s.browserInitializing then s
    else { s with lastBrowserWasNew := false, calls := s.calls.set i (.resolved s.browserInstance) }
  | _ => s

/-- Source `cleanupBrowser(reason)` up to `await browserInstance.close()`. -/
def Manager.cleanup (s : Manager) : Manager :=
  match s.browserInstance with
  | some b => { s with closing := b :: s.closing }
  | none => s

/-- The callback of the idle reaper interval, which is installed only when
`BROWSER_IDLE_MAX_MS > 0`; `now` is the reading of `Date.now()`. -/
def Manager.reaperTick (cfg : Config) (s : Manager) (now : Int) : Manager :=
  if 0 < cfg.BROWSER_IDLE_MAX_MS then
    if s.browserInstance.isSome && s.lastBrowserUseTs != 0 &&
        decide (now - s.lastBrowserUseTs > cfg.BROWSER_IDLE_MAX_MS) then s.cleanup
    else s
  else s

/-- Source `cleanupBrowser(reason)` after `await browserInstance.close()`:
whether the close succeeded or threw, the held reference is cleared. -/
def Manager.closeDone (s : Manager) (b : Nat) (ok : Bool) : Manager :=
  if b ∈ s.closing then
    { s with browserInstance := none, closing := s.closing.erase b,
             closed := if ok then s.closed ++ [b] else s.closed }
  else s

/-- The `'disconnected'` handler registered on instance `b`. -/
def Manager.disconnect (s : Manager) (b : Nat) : Manager :=
  if b ∈ s.launched ∧ b ∉ s.disconnected then
    { s with browserInstance := none, disconnected := s.disconnected ++ [b] }
  else s

/-- One step of the resource manager. -/
def Manager.step (cfg : Config) (s : Manager) : MgrStep → Manager
  | .call i => s.call i
  | .launchDone i err now => s.launchDone i err now
  | .wake i => s.wake i
  | .cleanup => s.cleanup
  | .reaperTick now => s.reaperTick cfg now
  | .closeDone b ok => s.closeDone b ok
  | .disconnect b => s.disconnect b
  | .markUsed now => { s with lastBrowserUseTs := now }

/-- The manager after an interleaving. -/
def Manager.run (cfg : Config) (s : Manager) (steps : List MgrStep) : Manager :=
  steps.foldl (Manager.step cfg) s

/-- The instances launched and neither closed nor disconnected. -/
def Manager.live (s : Manager) : List Nat :=
  s.launched.filter (fun b => decide (b ∉ s.closed ∧ b ∉ s.disconnected))

/-- Steps of `getBrowserInstance` calls only. -/
def MgrStep.isAcquire : MgrStep → Bool
  | .call _ => true
  | .launchDone _ _ _ => true
  | .wake _ => true
  | _ => false

/-- A step that starts a call. -/
def MgrStep.isCall : MgrStep → Bool
  | .call _ => true
  | _ => false

/-- A step in which a launch fails. -/
def MgrStep.launchFails : MgrStep → Bool
  | .launchDone _ (some _) _ => true
  | _ => false

/-- Every call of the interleaving starts before a launch settles: the
calls are concurrent. -/
def startsBeforeSettle : List MgrStep → Bool
  | [] => true
  | .launchDone _ _ _ :: rest => rest.all (fun l => !l.isCall)
  | _ :: rest => startsBeforeSettle rest

/-- For each of the calls `k - 1, .., 0`: start it if it has not started,
and let its sleep elapse. -/
def finishCalls : Nat → List MgrStep
  | 0 => []
  | k + 1 => .call k :: .wake k :: finishCalls k

/-- No call has started: no instance, no initialization, no launch. -/
def Manager.Phase0 (s : Manager) : Prop :=
  s.browserInstance = none ∧ s.browserInitializing = false ∧ s.launches = 0 ∧
  ∀ (i : Nat) (c : CallState), s.calls[i]? = some c → c = .idle

/-- Call `i0` awaits the one launch; every other call is not started or
waits in the loop. -/
def Manager.Phase1 (s : Manager) (i0 : Nat) : Prop :=
  s.browserInstance = none ∧ s.browserInitializing = true ∧ s.launches = 1 ∧
  s.calls[i0]? = some .launching ∧
  ∀ (i : Nat) (c : CallState), s.calls[i]? = some c → i ≠ i0 → c = .idle ∨ c = .polling

/-- The one launch returned instance `b`, which is held; every call is not
started, waits in the loop, or resolved to `b`. -/
def Manager.Phase2 (s : Manager) (b : Nat) : Prop :=
  s.browserInstance = some b ∧ s.browserInitializing = false ∧ s.launches = 1 ∧
  ∀ (i : Nat) (c : CallState), s.calls[i]? = some c → c = .idle ∨ c = .polling ∨ c = .resolved (some b)

/-! ## The live update channel (server side) -/

/-- An inbound WebSocket message, by what `JSON.parse` makes of it: a
syntax error, `null`, another value without properties of its own (number,
string, boolean, array), or an object. -/
inductive WsInbound where
  | notJson
  | jsonNull
  | jsonScalar
  | jsonObject (o : JsObject)
  deriving DecidableEq, Repr

/-- A reply sent with `safeJson`: an error, or a result whose `format`
field is `'png'` (payload `pngBase64`) or `'svg'` (payload `svg`). The
payload is given by the file content that is encoded into it. -/
inductive WsReply where
  | error (msg : String)
  | png (pngBase64 : Content) (cache cacheKey : String) (render rasterize total : Int)
      (width height : JsVal)
  | svg (svg : Content) (cache cacheKey : String) (render total : Int) (width height : JsVal)
  deriving DecidableEq, Repr

/-- The per-connection state the server keeps on the socket object:
`isAlive`, `lastActivity`, whether `readyState` is OPEN, `_terminateReason`,
and the number of probes sent. -/
structure WsSession where
  isAlive : Bool := true
  lastActivity : Int
  isOpen : Bool := true
  terminateReason : Option String := none
  pings : Nat := 0
  deriving DecidableEq, Repr

/-- What one run of the message handler did: the process and session state
it left, the replies it sent, the arguments of its `convertMermaid` calls,
the error of the handler promise if it rejected, and whether it is stuck
behind a browser initialization. -/
structure WsHandled where
  world : World
  session : WsSession
  replies : List WsReply := []
  converted : List (String × String × JsObject) := []
  unhandled : Option String := none
  stalled : Bool := false

/-- The `length` of a JavaScript string: its UTF-16 code units. -/
def jsLength (s : String) : Nat :=
  s.data.foldl (fun n c => n + (if c.toNat < 65536 then 1 else 2)) 0

/-- The handler `wss.on('connection')` at time `now`. -/
def WsSession.connect (now : Int) : WsSession := { lastActivity := now }

/-- The handler `ws.on('pong')` at time `now`. -/
def WsSession.onPong (s : WsSession) (now : Int) : WsSession :=
  if s.isOpen then { s with isAlive := true, lastActivity := now } else s

/-- Whether the message handler takes a message as a render command: an
object with `type` `'render'` and a non-empty string `mermaid` of at most
20000 code units. -/
def acceptable : WsInbound → Bool
  | .jsonObject o =>
    decide (o.get "type" = .str "render") &&
      (match o.get "mermaid" with
       | .str code => code != "" && decide (jsLength code ≤ 20000)
       | _ => false)
  | _ => false

/-- The handler `ws.on('message')`, run on the process state `w` (whose
clock is the reading of `Date.now()`). -/
def wsOnMessage (cfg : Config) (env : Env) (w : World) (ws : WsSession) :
    WsInbound → WsHandled
  | .notJson => { world := w, session := ws }
  | .jsonNull =>
    { world := w, session := ws,
      unhandled := some "Cannot read properties of null (reading 'type')" }
  | .jsonScalar => { world := w, session := ws }
  | .jsonObject msg =>
    if msg.get "type" ≠ .str "render" then { world := w, session := ws }
    else
      let format := (msg.get "format").orDefault (.str "png")
      match msg.get "mermaid" with
      | .str mermaidCode =>
        if mermaidCode = "" then
          { world := w, session := ws, replies := [.error "mermaid code missing"] }
        else if 20000 < jsLength mermaidCode then
          { world := w, session := ws, replies := [.error "diagram too large"] }
        else
          let ws1 := { ws with lastActivity := w.clock }
          let fmt := if format = .str "svg" then "svg" else "png"
          let options : JsObject :=
            [("theme", msg.get "theme"), ("backgroundColor", msg.get "backgroundColor"),
             ("width", msg.get "width"), ("height", msg.get "height")]
          match convertMermaid cfg env w mermaidCode fmt options with
          | (w1, .pending) =>
            { world := w1, session := ws1, converted := [(mermaidCode, fmt, options)],
              stalled := true }
          | (w1, .throw e) =>
            { world := w1, session := ws1, replies := [.error e],
              converted := [(mermaidCode, fmt, options)] }
          | (w1, .ok result) =>
            let w2 := w1.tick env.tRead
            match w2.fs.readFile result.outputPath with
            | .error e =>
              { world := w2, session := ws1, replies := [.error e],
                converted := [(mermaidCode, fmt, options)] }
            | .ok content =>
              if format = .str "png" then
                { world := w2, session := ws1,
                  replies := [.png content result.cacheStatus result.cacheKey
                    result.timings.renderMs result.timings.rasterizeMs result.timings.totalMs
                    (msg.get "width") (msg.get "height")],
                  converted := [(mermaidCode, fmt, options)] }
              else
                { world := w2, session := ws1,
                  replies := [.svg content result.cacheStatus result.cacheKey
                    result.timings.renderMs result.timings.totalMs
                    (msg.get "width") (msg.get "height")],
                  converted := [(mermaidCode, fmt, options)] }
      | _ => { world := w, session := ws, replies := [.error "mermaid code missing"] }

/-- What a message does to the session state: an accepted render command
stamps `lastActivity`; any other message changes nothing. -/
def WsSession.onMessage (s : WsSession) (now : Int) (m : WsInbound) : WsSession :=
  if s.isOpen && acceptable m then { s with lastActivity := now } else s

/-- The callback of the heartbeat interval for one client (the interval is
installed only when `WS_PING_INTERVAL_MS > 0`); `now` is the reading of
`Date.now()`. -/
def WsSession.heartbeat (cfg : Config) (s : WsSession) (now : Int) : WsSession :=
  if !s.isOpen then s
  else if cfg.WS_IDLE_CLOSE_MS < now - s.lastActivity then
    { s with terminateReason := some ("idle>" ++ toString cfg.WS_IDLE_CLOSE_MS),
             isOpen := false }
  else if !s.isAlive then
    { s with terminateReason := some "pong-missing", isOpen := false }
  else { s with isAlive := false, pings := s.pings + 1 }

/-- What happens to one session: a heartbeat tick, a pong, or an inbound
message, each at a time. -/
inductive WsEvent where
  | tick (now : Int)
  | pong (now : Int)
  | message (now : Int) (m : WsInbound)
  deriving DecidableEq, Repr

/-- The session after one event. -/
def WsSession.apply (cfg : Config) (s : WsSession) : WsEvent → WsSession
  | .tick now => s.heartbeat cfg now
  | .pong now => s.onPong now
  | .message now m => s.onMessage now m

/-- The session after a sequence of events. -/
def WsSession.run (cfg : Config) (s : WsSession) (evs : List WsEvent) : WsSession :=
  evs.foldl (WsSession.apply cfg) s

/-- An event that is a pong. -/
def WsEvent.isPong : WsEvent → Bool
  | .pong _ => true
  | _ => false

/-- An event that is an inbound message. -/
def WsEvent.isMessage : WsEvent → Bool
  | .message _ _ => true
  | _ => false

/-- A pong arrives before the next heartbeat tick (or no tick follows). -/
def pongBeforeTick : List WsEvent → Bool
  | [] => true
  | .pong _ :: _ => true
  | .tick _ :: _ => false
  | .message _ _ :: rest => pongBeforeTick rest

/-- Every heartbeat tick of the sequence is answered by a pong before the
next tick. -/
def everyProbeAnswered : List WsEvent → Bool
  | [] => true
  | .tick _ :: rest => pongBeforeTick rest && everyProbeAnswered rest
  | _ :: rest => everyProbeAnswered rest

/-! ## The live update channel (client side, `public/app.js`) -/

/-- The constant `SERVER_THROTTLE_MS`. -/
def SERVER_THROTTLE_MS : Int := 1000

/-- The constant `INACTIVITY_CLOSE_MS`. -/
def INACTIVITY_CLOSE_MS : Int := 60000

/-- The values read from the form fields for a payload:
`themeEl.value`, `bgEl.value`, `Number(wEl.value)||800`,
`Number(hEl.value)||600`. -/
structure FormValues where
  theme : String := "default"
  backgroundColor : String := "white"
  width : Int := 800
  height : Int := 600
  deriving DecidableEq, Repr

/-- The render command the client sends. -/
structure Payload where
  mermaid : String
  theme : String
  backgroundColor : String
  width : Int
  height : Int
  format : String := "png"
  deriving DecidableEq, Repr

/-- The module-level variables of the client: the socket's `readyState`
(`none` when there is no socket; 0 CONNECTING, 1 OPEN, 2 CLOSING, 3 CLOSED),
the throttle state, the due times of the two timers when set, and the
payloads passed to `ws.send`, oldest first. -/
structure Client where
  readyState : Option Nat := none
  lastServerSendTs : Int := 0
  pendingServerPayload : Option Payload := none
  throttleTimer : Option Int := none
  lastCodeSent : String := ""
  inactivityCloseTimer : Option Int := none
  sent : List Payload := []
  deriving DecidableEq, Repr

/-- Source `ensureWsConnected()`: a socket that is neither connecting nor
open is replaced by a new, connecting one. -/
def ensureWsConnected (c : Client) : Client :=
  if c.readyState = some 0 ∨ c.readyState = some 1 then c
  else { c with readyState := some 0 }

/-- Source `restartInactivityTimer()` at time `now`. -/
def restartInactivityTimer (now : Int) (c : Client) : Client :=
  { c with inactivityCloseTimer := some (now + INACTIVITY_CLOSE_MS) }

/-- Source `scheduleServerSend(code)` at time `now`, with the form fields
reading `form`. On an open socket `ws.send` does not throw. -/
def scheduleServerSend (form : FormValues) (now : Int) (code : String) (c0 : Client) : Client :=
  let c := ensureWsConnected c0
  if c.readyState ≠ some 1 ∧ c.readyState ≠ some 0 then c
  else if code = c.lastCodeSent then c
  else
    let payload : Payload :=
      { mermaid := code, theme := form.theme, backgroundColor := form.backgroundColor,
        width := form.width, height := form.height, format := "png" }
    let elapsed := now - c.lastServerSendTs
    if c.readyState = some 0 then { c with pendingServerPayload := some payload }
    else if SERVER_THROTTLE_MS ≤ elapsed then
      restartInactivityTimer now
        { c with sent := c.sent ++ [payload], lastServerSendTs := now, lastCodeSent := code }
    else
      match c.throttleTimer with
      | none =>
        { c with pendingServerPayload := some payload,
                 throttleTimer := some (now + (SERVER_THROTTLE_MS - elapsed)) }
      | some _ => { c with pendingServerPayload := some payload }

/-- The callback of the throttle timer, run at time `now` (no earlier than
the time the timer is due). -/
def throttleTimerFired (now : Int) (c : Client) : Client :=
  match c.throttleTimer with
  | none => c
  | some due =>
    if now < due then c
    else
      let c1 := { c with throttleTimer := none }
      match c1.pendingServerPayload with
      | some p =>
        if c1.readyState = some 1 then
          restartInactivityTimer now
            { c1 with sent := c1.sent ++ [p], lastServerSendTs := now, lastCodeSent := p.mermaid,
                      pendingServerPayload := none }
        else c1
      | none => c1

/-- The `'open'` listener of the socket at time `now`: a pending payload
is sent at once. -/
def wsOpened (now : Int) (c : Client) : Client :=
  let c1 := { c with readyState := some 1 }
  match c1.pendingServerPayload with
  | some p =>
    { restartInactivityTimer now
        { c1 with sent := c1.sent ++ [p], lastServerSendTs := now, lastCodeSent := p.mermaid } with
      pendingServerPayload := none }
  | none => c1

/-- What the user and the timers do to the client. -/
inductive ClientEvent where
  | send (now : Int) (code : String)
  | timer (now : Int)
  deriving DecidableEq, Repr

/-- The client after one event. -/
def Client.apply (form : FormValues) (c : Client) : ClientEvent → Client
  | .send now code => scheduleServerSend form now code c
  | .timer now => throttleTimerFired now c

/-- The client after a sequence of events. -/
def Client.run (form : FormValues) (c : Client) (evs : List ClientEvent) : Client :=
  evs.foldl (Client.apply form) c

/-- Storage holding a temporary vector file and a temporary raster file. -/
def tempBothFS : FS :=
  { node := fun p =>
      if p = "temp/a.svg" then .file (.data [60, 115, 118, 103, 62])
      else if p = "temp/a.png" then .file (.data [137, 80, 78, 71])
      else .absent,
    writeFails := fun _ => false }

/-- A sample environment whose backend rejects the diagram. -/
def failingRenderEnv : Env :=
  { sampleEnv with renderMermaid := fun _ => .error "Parse error on line 1" }

/-- A client with an open socket that sent `"graph TD; A-->B"` at 5000 ms. -/
def sentClient : Client :=
  scheduleServerSend {} 5000 "graph TD; A-->B" { readyState := some 1 }

/-! ## The HTTP surface: cache administration and conversion responses -/

/-- The call `fs.remove(p)` of fs-extra: whatever `p` names is gone
afterwards; it rejects on the paths where storage refuses a change. -/
def FS.remove (fs : FS) (p : Path) : Except String FS :=
  if fs.writeFails p then .error "EACCES: permission denied"
  else .ok { fs with node := fun q => if q = p then .absent else fs.node q }

/-- The test `/^[a-f0-9]{64}$/.test(key)`: exactly 64 characters, each a
decimal digit or one of the letters `a` to `f`. -/
def isCacheKey (key : String) : Bool :=
  key.data.length == 64 &&
    key.data.all (fun c => (48 ≤ c.toNat && c.toNat ≤ 57) || (97 ≤ c.toNat && c.toNat ≤ 102))

/-- The call `path.basename(p)` for a path that does not end in a
separator: the text after the last `/`. -/
def basename (p : Path) : String :=
  String.mk (p.data.reverse.takeWhile (fun c => c ≠ Char.ofNat 47)).reverse

/-- The body of a response. -/
inductive HttpBody where
  /-- The JSON body `{ error: msg }`. -/
  | error (msg : String)
  /-- The JSON body `{ success: true, removed }`. -/
  | removed (names : List String)
  /-- What `res.send` was given: the content of the artifact file. -/
  | content (c : Content)
  deriving DecidableEq, Repr

/-- A response: status code, the headers set with `res.setHeader` in the
order of the calls, and the body. -/
structure HttpResponse where
  status : Nat := 200
  headers : List (String × String) := []
  body : HttpBody
  deriving DecidableEq, Repr

/-- The loop `for (const f of [svg, png, meta])` of the key-addressed
deletion: each path that exists is removed and its base name recorded; a
rejected `fs.remove` ends the loop with the error. -/
def removeExisting (fs : FS) : List Path → List String → FS × Except String (List String)
  | [], removed => (fs, .ok removed)
  | f :: rest, removed =>
    if fs.pathExists f then
      match fs.remove f with
      | .error e => (fs, .error e)
      | .ok fs1 => removeExisting fs1 rest (removed ++ [basename f])
    else removeExisting fs rest removed

/-- The handler of `DELETE /cache/:key`. -/
def deleteCacheKey (cfg : Config) (fs : FS) (key : String) : FS × HttpResponse :=
  if !cfg.CACHE_ENABLED then (fs, { status := 400, body := .error "Cache disabled" })
  else if !isCacheKey key then (fs, { status := 400, body := .error "Invalid cache key format" })
  else
    let paths := getCacheFilePaths cfg key
    match removeExisting fs [paths.svg, paths.png, paths.meta] [] with
    | (fs1, .error e) => (fs1, { status := 500, body := .error e })
    | (fs1, .ok removed) =>
      if removed.length = 0 then (fs1, { status := 404, body := .error "Cache entry not found" })
      else (fs1, { status := 200, body := .removed removed })

/-- A read of one of the properties `browserStartupMs`, `browserReused`,
`browserFallback` that the conversion handlers destructure from the result
of `convertMermaid`. The object literals `convertMermaid` returns have the
properties `outputPath`, `cacheKey`, `cacheStatus`, `source`, `timings` and
`options` only, so each of these reads gives `undefined`. -/
def ConvertResult.browserProp (_ : ConvertResult) (_ : String) : JsVal := .undefined

/-- The text `String(v)` of a value written into a header. -/
def headerText : JsVal → String
  | .undefined => "undefined"
  | .null => "null"
  | .bool b => if b then "true" else "false"
  | .num n => toString n
  | .str s => s

/-- The diagnostic headers every conversion handler sets from the result,
in the order of its `res.setHeader` calls. -/
def diagnosticHeaders (result : ConvertResult) : List (String × String) :=
  let browserStartupMs := result.browserProp "browserStartupMs"
  let browserReused := result.browserProp "browserReused"
  let browserFallback := result.browserProp "browserFallback"
  [("X-Mermaid-Cache", result.cacheStatus),
   ("X-Mermaid-Cache-Key", result.cacheKey),
   ("X-Mermaid-Source", result.source),
   ("X-Mermaid-Render-Time-ms", toString result.timings.renderMs),
   ("X-Mermaid-Cache-Lookup-ms", toString result.timings.cacheLookupMs)]
  ++ (if result.timings.rasterizeMs ≠ 0 then
        [("X-Mermaid-Rasterize-Time-ms", toString result.timings.rasterizeMs)] else [])
  ++ [("X-Mermaid-Total-Time-ms", toString result.timings.totalMs),
      ("X-Mermaid-Params", jsonStringify result.options)]
  ++ (if browserStartupMs ≠ .undefined then
        [("X-Mermaid-Browser-Startup-Time-ms", headerText (browserStartupMs.or (.num 0)))] else [])
  ++ (if browserReused ≠ .undefined then
        [("X-Mermaid-Browser-Reused", headerText browserReused)] else [])
  ++ (if browserFallback.truthy then
        [("X-Mermaid-Browser-Fallback", headerText browserFallback)] else [])

/-- The handlers of `POST /convert/svg` (`fmt = "svg"`) and of
`POST /convert/png` with a binary reply (`fmt = "png"`), for a request body
whose `mermaid` field is the string `mermaid`: the conversion, the read of
the artifact, the headers, the body; an error of the `try` block gives
status 500 with its message. The handlers of `GET /svg` and `GET /png` set
the same diagnostic headers from the same result. -/
def postConvert (cfg : Config) (env : Env) (w : World) (fmt mermaid : String)
    (body : JsObject) : World × Outcome HttpResponse :=
  if mermaid = "" then
    (w, .ok { status := 400, body := .error "Mermaid diagram text is required" })
  else
    let options : JsObject :=
      [("theme", body.get "theme"), ("backgroundColor", body.get "backgroundColor"),
       ("width", body.get "width"), ("height", body.get "height")]
    match convertMermaid cfg env w mermaid fmt options with
    | (w1, .pending) => (w1, .pending)
    | (w1, .throw e) => (w1, .ok { status := 500, body := .error e })
    | (w1, .ok result) =>
      let w2 := w1.tick env.tRead
      match w2.fs.readFile result.outputPath with
      | .error e => (w2, .ok { status := 500, body := .error e })
      | .ok content =>
        let contentHeaders : List (String × String) :=
          if fmt = "svg" then [("Content-Type", "image/svg+xml")]
          else
            [("Content-Type", "image/png"),
             ("Content-Length", match content with
                                | .data b => toString b.length
                                | .json _ => "0")]
        (w2, .ok { status := 200, headers := diagnosticHeaders result ++ contentHeaders,
                   body := .content content })

/-- The header of a response, if it was set. -/
def HttpResponse.header (r : HttpResponse) (name : String) : Option String :=
  r.headers.lookup name

/-- The `format` property of a WebSocket reply; an error reply has none. -/
def WsReply.format : WsReply → Option String
  | .error _ => none
  | .png .. => some "png"
  | .svg .. => some "svg"

/-- The payload of a WebSocket reply (`pngBase64` or `svg`): the content of
the file it was read from. -/
def WsReply.payload : WsReply → Option Content
  | .error _ => none
  | .png content .. => some content
  | .svg content .. => some content

/-- The response to `POST /convert/svg` for the sample diagram on a freshly
started server, and the server state it leaves. -/
def firstPost : World × Outcome HttpResponse :=
  postConvert defaultConfig sampleEnv freshWorld "svg" sampleCode []

/-- The response to a following `POST /convert/svg` for another diagram. -/
def secondPost : World × Outcome HttpResponse :=
  postConvert defaultConfig sampleEnv firstPost.1 "svg" "graph TD\nA-->C" []

/-- A render command whose `format` is neither `'svg'` nor `'png'`. -/
def pdfCommand : WsInbound :=
  .jsonObject [("type", .str "render"), ("mermaid", .str sampleCode), ("format", .str "pdf")]

/-! ## The key text over raw JavaScript values

The embedding above keeps a JavaScript string as a well-formed text. A
JavaScript string is a sequence of UTF-16 code units in which a surrogate
may stand alone, and `JSON.stringify` escapes such a surrogate. The
definitions under `Raw` repeat `generateCacheKey`, the destructuring of
`convertMermaid` and the call of `renderWithMermaid` over strings given by
their code units, for the soundness of the key text. -/

/-- A JavaScript string: its UTF-16 code units (each below 65536). -/
abbrev JsString := List Nat

/-- The UTF-16 code units of a Unicode scalar value. -/
def utf16Units (c : Char) : JsString :=
  if c.toNat < 65536 then [c.toNat]
  else [55296 + (c.toNat - 65536) / 1024, 56320 + (c.toNat - 65536) % 1024]

/-- The JavaScript string of a well-formed text. -/
def utf16 (s : String) : JsString := s.data.flatMap utf16Units

/-- JavaScript values with strings given by their code units. -/
inductive Raw.JsVal where
  | undefined
  | null
  | bool (b : Bool)
  | num (n : Int)
  | str (s : JsString)
  deriving DecidableEq, Repr

/-- JavaScript truthiness (`ToBoolean`). -/
def Raw.JsVal.truthy : Raw.JsVal → Bool
  | .undefined => false
  | .null => false
  | .bool b => b
  | .num n => n != 0
  | .str s => s != []

/-- The JavaScript expression `a || b`. -/
def Raw.JsVal.or (a b : Raw.JsVal) : Raw.JsVal := if a.truthy then a else b

/-- A destructuring default `{ x = d }`: `d` replaces `undefined` only. -/
def Raw.JsVal.orDefault (v d : Raw.JsVal) : Raw.JsVal := if v = .undefined then d else v

/-- A plain object: its own properties in insertion order. -/
abbrev Raw.JsObject := List (String × Raw.JsVal)

/-- Property read `o.k`; an absent property reads as `undefined`. -/
def Raw.JsObject.get (o : Raw.JsObject) (k : String) : Raw.JsVal :=
  match o.lookup k with
  | some v => v
  | none => .undefined

/-- The code unit of the lower-case hexadecimal digit of `n < 16`. -/
def hexUnit (n : Nat) : Nat := if n < 10 then 48 + n else 87 + n

/-- Whether a code unit is a leading surrogate. -/
def isLeadSurrogate (u : Nat) : Bool := decide (55296 ≤ u ∧ u ≤ 56319)

/-- Whether a code unit is a trailing surrogate. -/
def isTrailSurrogate (u : Nat) : Bool := decide (56320 ≤ u ∧ u ≤ 57343)

/-- What `JSON.stringify` writes for a code point that is one code unit:
the short escapes, `\uXXXX` for the other control characters and for a
surrogate (which stands alone here), the unit itself otherwise. -/
def Raw.escapeUnit (u : Nat) : JsString :=
  if u = 34 then [92, 34]
  else if u = 92 then [92, 92]
  else if u = 8 then [92, 98]
  else if u = 9 then [92, 116]
  else if u = 10 then [92, 110]
  else if u = 12 then [92, 102]
  else if u = 13 then [92, 114]
  else if u < 32 ∨ (55296 ≤ u ∧ u ≤ 57343) then
    [92, 117, hexUnit (u / 4096 % 16), hexUnit (u / 256 % 16), hexUnit (u / 16 % 16),
      hexUnit (u % 16)]
  else [u]

/-- The escaped body of a JSON string, code point by code point: a leading
surrogate followed by a trailing one is one code point and is written as it
is; every other unit is a code point of its own. -/
def Raw.quoteBody : JsString → JsString
  | [] => []
  | [u] => Raw.escapeUnit u
  | u :: v :: rest =>
    if isLeadSurrogate u && isTrailSurrogate v then u :: v :: Raw.quoteBody rest
    else Raw.escapeUnit u ++ Raw.quoteBody (v :: rest)

/-- The JSON text of a string: quoted and escaped. -/
def Raw.jsonQuote (s : JsString) : JsString := [34] ++ Raw.quoteBody s ++ [34]

/-- The JSON text of a property value; `none` for `undefined`, whose
property `JSON.stringify` leaves out. -/
def Raw.jsonValue : Raw.JsVal → Option JsString
  | .undefined => none
  | .null => some (utf16 "null")
  | .bool b => some (utf16 (if b then "true" else "false"))
  | .num n => some (utf16 (numberToString n))
  | .str s => some (Raw.jsonQuote s)

/-- The members of an object, each as `"key":value`, in property order. -/
def Raw.jsonMembers (o : Raw.JsObject) : List JsString :=
  o.filterMap (fun kv => (Raw.jsonValue kv.2).map (fun t => Raw.jsonQuote (utf16 kv.1) ++ [58] ++ t))

/-- The result of `JSON.stringify(o)` for a plain object. -/
def Raw.jsonStringify (o : Raw.JsObject) : JsString :=
  [123] ++ List.intercalate [44] (Raw.jsonMembers o) ++ [125]

/-- The `normalizedOptions` record built inside `generateCacheKey`. -/
def Raw.normalizedOptions (cfg : Config) (options : Raw.JsObject) : Raw.JsObject :=
  [("theme", (options.get "theme").or (.str (utf16 cfg.DEFAULT_THEME))),
   ("backgroundColor", (options.get "backgroundColor").or (.str (utf16 cfg.DEFAULT_BACKGROUND))),
   ("width", (options.get "width").or .null),
   ("height", (options.get "height").or .null)]

/-- The text `content` that `generateCacheKey` hashes. -/
def Raw.cacheKeyContent (cfg : Config) (mermaidCode : JsString) (options : Raw.JsObject) :
    JsString :=
  mermaidCode ++ Raw.jsonStringify (Raw.normalizedOptions cfg options)

/-- The destructuring at the head of `convertMermaid`. -/
def Raw.destructureOptions (cfg : Config) (options : Raw.JsObject) : Raw.JsObject :=
  [("theme", (options.get "theme").orDefault (.str (utf16 cfg.DEFAULT_THEME))),
   ("backgroundColor",
     (options.get "backgroundColor").orDefault (.str (utf16 cfg.DEFAULT_BACKGROUND))),
   ("width", (options.get "width").orDefault (.num cfg.DEFAULT_WIDTH)),
   ("height", (options.get "height").orDefault (.num cfg.DEFAULT_HEIGHT))]

/-- The arguments of one `renderMermaid` call. -/
structure Raw.RenderCall where
  browser : Nat
  definition : JsString
  format : String
  viewportWidth : Raw.JsVal
  viewportHeight : Raw.JsVal
  backgroundColor : Raw.JsVal
  theme : Raw.JsVal
  deriving DecidableEq, Repr

/-- The arguments `renderWithMermaid` passes to `renderMermaid`. -/
def Raw.renderCallOf (cfg : Config) (browser : Nat) (definition : JsString) (format : String)
    (opts : Raw.JsObject) : Raw.RenderCall :=
  { browser := browser, definition := definition, format := format,
    viewportWidth := (opts.get "width").or (.num cfg.DEFAULT_WIDTH),
    viewportHeight := (opts.get "height").or (.num cfg.DEFAULT_HEIGHT),
    backgroundColor := (opts.get "backgroundColor").or (.str (utf16 cfg.DEFAULT_BACKGROUND)),
    theme := (opts.get "theme").or (.str (utf16 cfg.DEFAULT_THEME)) }

/-- A `theme` or `backgroundColor` of a request: a string, or absent. -/
def Raw.JsVal.isStringOrAbsent : Raw.JsVal → Bool
  | .undefined => true
  | .str _ => true
  | _ => false

/-- A `width` or `height` of a request: an integer number, or absent. -/
def Raw.JsVal.isIntOrAbsent : Raw.JsVal → Bool
  | .undefined => true
  | .num n => isNumberValue n
  | _ => false

/-- The option objects of the requests considered for the soundness of the
key: `theme` and `backgroundColor` strings or absent, `width` and `height`
integers or absent. -/
def Raw.plainOptions (o : Raw.JsObject) : Bool :=
  (o.get "theme").isStringOrAbsent && (o.get "backgroundColor").isStringOrAbsent &&
    (o.get "width").isIntOrAbsent && (o.get "height").isIntOrAbsent

/-- The value of a well-formed text or number as a raw value. -/
def JsVal.raw : JsVal → Raw.JsVal
  | .undefined => .undefined
  | .null => .null
  | .bool b => .bool b
  | .num n => .num n
  | .str s => .str (utf16 s)

/-! ### Reading the key text back

A scanner for the three characters that open the option record, and the
inverses of the string escape and of the number text. -/

/-- One step of a scanner for the text made of an opening brace, a double
quote and the letter `t`: the state is the number of its characters just
read (0, 1 or 2). -/
def scanStep (st : Nat) (u : Nat) : Nat :=
  if u = 123 then 1 else if st = 1 ∧ u = 34 then 2 else 0

/-- The state of the scanner after a text. -/
def scanEnd (st : Nat) (l : JsString) : Nat := l.foldl scanStep st

/-- How many times the scanner completes its three characters in a text. -/
def scanCount : Nat → JsString → Nat
  | _, [] => 0
  | st, u :: l => (if st = 2 ∧ u = 116 then 1 else 0) + scanCount (scanStep st u) l

/-- The value of the code unit of a lower-case hexadecimal digit. -/
def hexValue (u : Nat) : Nat := if u < 58 then u - 48 else u - 87

/-- Reads one code point from the head of the escaped body of a JSON
string: the units it stands for and the rest; `none` at the closing quote
and on text the escape never writes. -/
def Raw.readEscaped : JsString → Option (JsString × JsString)
  | [] => none
  | u :: rest =>
    if u = 34 then none
    else if u = 92 then
      match rest with
      | [] => none
      | k :: rest1 =>
        if k = 117 then
          match rest1 with
          | h1 :: h2 :: h3 :: h4 :: rest2 =>
            some ([hexValue h1 * 4096 + hexValue h2 * 256 + hexValue h3 * 16 + hexValue h4],
              rest2)
          | _ => none
        else if k = 98 then some ([8], rest1)
        else if k = 116 then some ([9], rest1)
        else if k = 110 then some ([10], rest1)
        else if k = 102 then some ([12], rest1)
        else if k = 114 then some ([13], rest1)
        else some ([k], rest1)
    else if isLeadSurrogate u then
      match rest with
      | v :: rest1 => if isTrailSurrogate v then some ([u, v], rest1) else some ([u], rest)
      | [] => some ([u], rest)
    else some ([u], rest)

/-- The number a run of decimal digits writes. -/
def digitsValue (ds : List Char) : Nat := ds.foldl (fun a c => 10 * a + (c.toNat - 48)) 0

/-- The natural number a number text without sign writes: its digits, times
the power of ten that the exponent and the number of digits give. -/
def readDecimal (text : List Char) : Nat :=
  let digits := (text.takeWhile (fun c => c ≠ Char.ofNat 101)).filter (fun c => c ≠ Char.ofNat 46)
  match text.dropWhile (fun c => c ≠ Char.ofNat 101) with
  | [] => digitsValue digits
  | tail => digitsValue digits * 10 ^ (digitsValue (tail.drop 2) + 1 - digits.length)

/-- Reads the JSON text of `null` or of an integer number back. -/
def readNumber : List Char → Raw.JsVal
  | [] => .null
  | c :: rest =>
    if c.toNat = 110 then .null
    else if c.toNat = 45 then .num (-(roundDouble (readDecimal rest) : Int))
    else .num (roundDouble (readDecimal (c :: rest)))

/-- The characters before the theme in the JSON text of a normalized
option record. -/
def keyOpen : JsString := [123] ++ Raw.jsonQuote (utf16 "theme") ++ [58] ++ [34]

/-- The characters between the theme and the background colour. -/
def keyMid1 : JsString := [34] ++ [44] ++ Raw.jsonQuote (utf16 "backgroundColor") ++ [58] ++ [34]

/-- The characters between the background colour and the width. -/
def keyMid2 : JsString := [34] ++ [44] ++ Raw.jsonQuote (utf16 "width") ++ [58]

/-- The characters between the width and the height. -/
def keyMid3 : JsString := [44] ++ Raw.jsonQuote (utf16 "height") ++ [58]

/-- The JSON text of a normalized option record with theme `t`, background
colour `b` and the number texts `w` and `h`, unit by unit. -/
def keyRecord (t b w h : JsString) : JsString :=
  keyOpen ++ (Raw.quoteBody t ++ (keyMid1 ++ (Raw.quoteBody b ++
    (keyMid2 ++ (w ++ (keyMid3 ++ (h ++ [125])))))))

/-- An object of well-formed values as an object of raw values. -/
def JsObject.raw (o : JsObject) : Raw.JsObject := o.map (fun kv => (kv.1, kv.2.raw))

end MermaidServer

namespace MermaidServer

set_option maxRecDepth 100000

/-! ## The cache key -/

theorem normalizedOptions_congr (cfg : Config) (o1 o2 : JsObject)
    (h : ∀ k ∈ ["theme", "backgroundColor", "width", "height"], o1.get k = o2.get k) :
    normalizedOptions cfg o1 = normalizedOptions cfg o2 := by
  have h1 := h "theme" (by simp)
  have h2 := h "backgroundColor" (by simp)
  have h3 := h "width" (by simp)
  have h4 := h "height" (by simp)
  simp only [normalizedOptions, h1, h2, h3, h4]

/-- Reordering the properties of an object with distinct property names
changes no property read. -/
theorem get_perm (k : String) {o1 o2 : JsObject} (p : List.Perm o1 o2)
    (nd : (o1.map Prod.fst).Nodup) : JsObject.get o1 k = JsObject.get o2 k := by
  have key : List.lookup k o1 = List.lookup k o2 := by
    induction p with
    | nil => rfl
    | cons x _ ih =>
      obtain ⟨a, b⟩ := x
      simp only [List.map_cons, List.nodup_cons] at nd
      simp only [List.lookup_cons]
      rw [ih nd.2]
    | swap x y l =>
      obtain ⟨a, b⟩ := x
      obtain ⟨c, d⟩ := y
      simp only [List.map_cons, List.nodup_cons, List.mem_cons, not_or] at nd
      simp only [List.lookup_cons]
      cases hka : (k == a) <;> cases hkc : (k == c) <;> simp only []
      have e1 : k = a := by simpa using hka
      have e2 : k = c := by simpa using hkc
      exact absurd (e2.symm.trans e1) nd.1.1
    | trans p1 _ ih1 ih2 =>
      rw [ih1 nd, ih2 ((p1.map Prod.fst).nodup_iff.mp nd)]
  simp only [JsObject.get, key]

/-- The key of an object is the key of each of its reorderings. -/
theorem generateCacheKey_perm (cfg : Config) (mermaidCode : String) {o1 o2 : JsObject}
    (p : List.Perm o1 o2) (nd : (o1.map Prod.fst).Nodup) :
    generateCacheKey cfg mermaidCode o1 = generateCacheKey cfg mermaidCode o2 := by
  simp only [generateCacheKey, cacheKeyContent,
    normalizedOptions_congr cfg o1 o2 (fun k _ => get_perm k p nd)]

theorem or_absent_eq_or_default (v1 v2 d : JsVal) (h : absentOrDefault v1 v2 d) :
    v1.or d = v2.or d := by
  rcases h with h | ⟨h1, h2⟩
  · rw [h]
  · rw [h1, h2]
    simp [JsVal.or, JsVal.truthy]

theorem orDefault_absent_eq (v1 v2 d : JsVal) (h : absentOrDefault v1 v2 d) :
    v1.orDefault d = v2.orDefault d := by
  rcases h with h | ⟨h1, h2⟩
  · rw [h]
  · rw [h1, h2]
    by_cases hd : d = .undefined <;> simp [JsVal.orDefault, hd]

/-- C9. For every diagram source and every two option objects whose
`theme`, `backgroundColor`, `width` and `height` read the same, whatever
the order (and number) of their properties, `generateCacheKey` returns the
same key. -/
theorem generateCacheKey_insertion_order (cfg : Config) (mermaidCode : String) (o1 o2 : JsObject)
    (h : ∀ k ∈ ["theme", "backgroundColor", "width", "height"], o1.get k = o2.get k) :
    generateCacheKey cfg mermaidCode o1 = generateCacheKey cfg mermaidCode o2 := by
  simp only [generateCacheKey, cacheKeyContent, normalizedOptions_congr cfg o1 o2 h]

/-- C9 at two insertion orders of `{theme: 'dark', width: 800}`. -/
theorem generateCacheKey_insertion_order_witness :
    (∀ k ∈ ["theme", "backgroundColor", "width", "height"],
      JsObject.get [("theme", .str "dark"), ("width", .num 800)] k
        = JsObject.get [("width", .num 800), ("theme", .str "dark")] k) ∧
    generateCacheKey defaultConfig sampleCode [("theme", .str "dark"), ("width", .num 800)]
      = generateCacheKey defaultConfig sampleCode [("width", .num 800), ("theme", .str "dark")] :=
  ⟨by decide, generateCacheKey_insertion_order _ _ _ _ (by decide)⟩

/-- C10 as stated fails: with every default in force, `generateCacheKey` on
an object without `width` and on one with `width: DEFAULT_WIDTH` returns
different keys (the absent width is hashed as `null`). -/
theorem generateCacheKey_absent_width_differs :
    generateCacheKey defaultConfig sampleCode []
      ≠ generateCacheKey defaultConfig sampleCode [("width", .num defaultConfig.DEFAULT_WIDTH)] := by
  decide

/-- C10, amended. When each of the four fields is either the same in both
objects or absent in the first and set to its default in the second, the
key `convertMermaid` computes is the same; `generateCacheKey` itself returns
the same key when this holds for `theme` and `backgroundColor` and `width`
and `height` read the same in both. -/
theorem cacheKey_absent_as_default (cfg : Config) (mermaidCode : String) (o1 o2 : JsObject)
    (hth : absentOrDefault (o1.get "theme") (o2.get "theme") (.str cfg.DEFAULT_THEME))
    (hbg : absentOrDefault (o1.get "backgroundColor") (o2.get "backgroundColor")
      (.str cfg.DEFAULT_BACKGROUND))
    (hw : absentOrDefault (o1.get "width") (o2.get "width") (.num cfg.DEFAULT_WIDTH))
    (hh : absentOrDefault (o1.get "height") (o2.get "height") (.num cfg.DEFAULT_HEIGHT)) :
    convertCacheKey cfg mermaidCode o1 = convertCacheKey cfg mermaidCode o2 ∧
    (o1.get "width" = o2.get "width" → o1.get "height" = o2.get "height" →
      generateCacheKey cfg mermaidCode o1 = generateCacheKey cfg mermaidCode o2) := by
  constructor
  · simp only [convertCacheKey, destructureOptions, orDefault_absent_eq _ _ _ hth,
      orDefault_absent_eq _ _ _ hbg, orDefault_absent_eq _ _ _ hw, orDefault_absent_eq _ _ _ hh]
  · intro ew eh
    simp only [generateCacheKey, cacheKeyContent, normalizedOptions,
      or_absent_eq_or_default _ _ _ hth, or_absent_eq_or_default _ _ _ hbg, ew, eh]

/-- C10, amended, at the empty object against the object of all four
defaults (through `convertMermaid`), and at an absent theme against the
default theme (through `generateCacheKey`). -/
theorem cacheKey_absent_as_default_witness :
    convertCacheKey defaultConfig sampleCode []
      = convertCacheKey defaultConfig sampleCode
          [("theme", .str "default"), ("backgroundColor", .str "white"),
           ("width", .num 800), ("height", .num 600)] ∧
    generateCacheKey defaultConfig sampleCode []
      = generateCacheKey defaultConfig sampleCode [("theme", .str "default")] :=
  ⟨(cacheKey_absent_as_default defaultConfig sampleCode []
      [("theme", .str "default"), ("backgroundColor", .str "white"),
       ("width", .num 800), ("height", .num 600)]
      (Or.inr ⟨by decide, by decide⟩) (Or.inr ⟨by decide, by decide⟩)
      (Or.inr ⟨by decide, by decide⟩) (Or.inr ⟨by decide, by decide⟩)).1,
   (cacheKey_absent_as_default defaultConfig sampleCode [] [("theme", .str "default")]
      (Or.inr ⟨by decide, by decide⟩) (Or.inl (by decide))
      (Or.inl (by decide)) (Or.inl (by decide))).2 (by decide) (by decide)⟩

/-! ## Paths -/

theorem string_append_left_cancel (a b c : String) (h : a ++ b = a ++ c) : b = c := by
  have h1 := congrArg String.data h
  simp only [String.data_append] at h1
  exact String.ext (List.append_cancel_left h1)

theorem pathJoin_inj (dir a b : String) (h : pathJoin dir a = pathJoin dir b) : a = b := by
  unfold pathJoin at h
  rw [String.append_assoc, String.append_assoc] at h
  exact string_append_left_cancel _ _ _ (string_append_left_cancel _ _ _ h)

theorem cachePath_ext_ne (dir key e1 e2 : String) (h : e1 ≠ e2) :
    pathJoin dir (key ++ e1) ≠ pathJoin dir (key ++ e2) := fun he =>
  h (string_append_left_cancel _ _ _ (pathJoin_inj _ _ _ he))

theorem targetPath_ne_meta (cfg : Config) (key format : String) :
    targetPath cfg key format ≠ (getCacheFilePaths cfg key).meta := by
  unfold targetPath getCacheFilePaths
  split
  · exact cachePath_ext_ne _ _ _ _ (by decide)
  · exact cachePath_ext_ne _ _ _ _ (by decide)

theorem svgPath_ne_pngPath (cfg : Config) (key : String) :
    (getCacheFilePaths cfg key).svg ≠ (getCacheFilePaths cfg key).png :=
  cachePath_ext_ne _ _ _ _ (by decide)

theorem getLast_append_data (a b : String) (h : b.data ≠ []) :
    (a ++ b).data.getLast? = b.data.getLast? := by
  rw [String.data_append, List.getLast?_append]
  cases hb : b.data.getLast? with
  | none => exact absurd (List.getLast?_eq_none_iff.mp hb) h
  | some x => rfl

theorem pathJoin_getLast (dir name suffix : String) (h : suffix.data ≠ []) :
    (pathJoin dir (name ++ suffix)).data.getLast? = suffix.data.getLast? := by
  unfold pathJoin
  rw [← String.append_assoc]
  exact getLast_append_data _ _ h

/-- A path whose name ends in `svg` or `png` is no metadata path. -/
theorem artifact_ne_meta (cfg : Config) (dir name fmt key : String)
    (hfmt : fmt = "svg" ∨ fmt = "png" ∨ fmt = ".png") :
    pathJoin dir (name ++ fmt) ≠ (getCacheFilePaths cfg key).meta := by
  intro he
  have h1 := congrArg (fun s : String => s.data.getLast?) he
  simp only [getCacheFilePaths] at h1
  rcases hfmt with hf | hf | hf <;> subst hf <;>
    rw [pathJoin_getLast _ _ _ (by decide), pathJoin_getLast _ _ _ (by decide)] at h1 <;>
    revert h1 <;> decide


/-! ## The artifact cache -/

/-- A `saveToCache` whose `try` block threw nothing has copied the source
content to the artifact path and written metadata stamped `now`. -/
theorem saveToCacheTry_ok (cfg : Config) (fs : FS) (now : Int) (key format : String)
    (file : Path) (options : JsObject)
    (hok : (saveToCacheTry cfg fs now key format file options).2 = none) :
    ∃ c, fs.readFile file = .ok c ∧
      (saveToCacheTry cfg fs now key format file options).1.node (targetPath cfg key format)
        = .file c ∧
      (saveToCacheTry cfg fs now key format file options).1.node (getCacheFilePaths cfg key).meta
        = .file (.json { timestamp := now, format := format, options := options,
                         cacheKey := key }) := by
  have hne := targetPath_ne_meta cfg key format
  unfold saveToCacheTry at hok ⊢
  unfold FS.copy FS.writeJson FS.write at hok ⊢
  by_cases h1 : file = targetPath cfg key format
  · simp [h1] at hok
  · cases h2 : fs.readFile file with
    | error e => simp [h1, h2] at hok
    | ok c =>
      by_cases h3 : fs.writeFails (targetPath cfg key format) = true
      · simp [h1, h2, h3] at hok
      · by_cases h4 : fs.writeFails (getCacheFilePaths cfg key).meta = true
        · simp [h1, h2, h3, h4] at hok
        · refine ⟨c, rfl, ?_, ?_⟩
          · simp [h1, h2, h3, h4, hne]
          · simp [h1, h2, h3, h4]

/-- The `try` block of `saveToCache` throws nothing when the source is
readable and storage accepts both writes. -/
theorem saveToCacheTry_succeeds (cfg : Config) (fs : FS) (now : Int) (key format : String)
    (file : Path) (options : JsObject) (c : Content)
    (hr : fs.readFile file = .ok c) (hw : cacheWritable cfg fs key format file) :
    (saveToCacheTry cfg fs now key format file options).2 = none := by
  obtain ⟨h1, h2, h3⟩ := hw
  simp [saveToCacheTry, FS.copy, FS.writeJson, FS.write, h1, hr, h2, h3]

/-- The source file of `saveToCache` keeps its content when it is no
metadata path. -/
theorem saveToCache_source_kept (cfg : Config) (fs : FS) (now : Int) (key format : String)
    (file : Path) (options : JsObject) (hne : file ≠ (getCacheFilePaths cfg key).meta) :
    (saveToCache cfg fs now key format file options).node file = fs.node file := by
  unfold saveToCache
  split
  · rfl
  · unfold saveToCacheTry FS.copy FS.writeJson FS.write
    by_cases h1 : file = targetPath cfg key format
    · simp [h1]
    · cases h2 : fs.readFile file with
      | error e => simp [h1]
      | ok c =>
        by_cases h3 : fs.writeFails (targetPath cfg key format) = true
        · simp [h1, h3]
        · by_cases h4 : fs.writeFails (getCacheFilePaths cfg key).meta = true
          · simp [h1, h3, h4]
          · simp [h1, h3, h4, hne]

/-- A lookup hits when the metadata is fresh and the artifact is a file. -/
theorem getFromCache_of_nodes (cfg : Config) (fs : FS) (now : Int) (key format : String)
    (m : MetaRecord) (c : Content) (hen : cfg.CACHE_ENABLED = true)
    (hm : fs.node (getCacheFilePaths cfg key).meta = .file (.json m))
    (hlt : now - m.timestamp < cfg.CACHE_TTL)
    (hc : fs.node (targetPath cfg key format) = .file c) :
    getFromCache cfg fs now key format = some (targetPath cfg key format) := by
  simp [getFromCache, getFromCacheTry, isCacheValid, FS.readJson, FS.readFile, FS.pathExists,
    hen, hm, hlt, hc]

/-- C1. With caching enabled and both storage writes of `saveToCache`
succeeding at time `t`, `getFromCache(key, format)` at every time `t'`
with `t' - t < CACHE_TTL` returns a path, and the file at that path holds
the content the source file had. -/
theorem cache_round_trip (cfg : Config) (fs : FS) (t t' : Int) (key format : String)
    (file : Path) (options : JsObject)
    (hen : cfg.CACHE_ENABLED = true)
    (hok : (saveToCacheTry cfg fs t key format file options).2 = none)
    (httl : t' - t < cfg.CACHE_TTL) :
    ∃ p c, getFromCache cfg (saveToCache cfg fs t key format file options) t' key format = some p ∧
      (saveToCache cfg fs t key format file options).readFile p = .ok c ∧
      fs.readFile file = .ok c := by
  obtain ⟨c, hc, htgt, hmeta⟩ := saveToCacheTry_ok cfg fs t key format file options hok
  refine ⟨targetPath cfg key format, c, ?_, ?_, hc⟩
  · simp [getFromCache, getFromCacheTry, isCacheValid, FS.readJson, FS.readFile, FS.pathExists,
      saveToCache, hen, htgt, hmeta, httl]
  · simp [saveToCache, hen, FS.readFile, htgt]

/-- C1 at a temporary vector file saved at 1000 ms and looked up one
millisecond before the default TTL elapses. -/
theorem cache_round_trip_witness :
    (saveToCacheTry defaultConfig tempSvgFS 1000 sampleKey "svg" "temp/a.svg" []).2 = none ∧
    ∃ p c, getFromCache defaultConfig
        (saveToCache defaultConfig tempSvgFS 1000 sampleKey "svg" "temp/a.svg" [])
        86400999 sampleKey "svg" = some p ∧
      (saveToCache defaultConfig tempSvgFS 1000 sampleKey "svg" "temp/a.svg" []).readFile p
        = .ok c ∧
      tempSvgFS.readFile "temp/a.svg" = .ok c :=
  ⟨by decide,
   cache_round_trip defaultConfig tempSvgFS 1000 86400999 sampleKey "svg" "temp/a.svg" []
    (by decide) (by decide) (by decide)⟩

/-- C2. With caching enabled, `getFromCache(key, format)` returns a path
exactly when the metadata file parses, `now - meta.timestamp < CACHE_TTL`
and the artifact path exists, and that path is the artifact path; in every
other case it returns `null`. It is a total function: no case throws. -/
theorem getFromCache_iff (cfg : Config) (fs : FS) (now : Int) (key format : String)
    (hen : cfg.CACHE_ENABLED = true) :
    (∀ p, getFromCache cfg fs now key format = some p ↔
      (p = targetPath cfg key format ∧
        (∃ m, fs.readJson (getCacheFilePaths cfg key).meta = .ok m ∧
          now - m.timestamp < cfg.CACHE_TTL) ∧
        fs.pathExists (targetPath cfg key format) = true)) ∧
    (getFromCache cfg fs now key format = none ↔
      ¬ ((∃ m, fs.readJson (getCacheFilePaths cfg key).meta = .ok m ∧
          now - m.timestamp < cfg.CACHE_TTL) ∧
        fs.pathExists (targetPath cfg key format) = true)) := by
  cases hm : fs.readJson (getCacheFilePaths cfg key).meta with
  | error e => simp [getFromCache, getFromCacheTry, isCacheValid, hen, hm]
  | ok m =>
    by_cases hlt : now - m.timestamp < cfg.CACHE_TTL
    · by_cases hex : fs.pathExists (targetPath cfg key format) = true
      · simp [getFromCache, getFromCacheTry, isCacheValid, hen, hm, hlt, hex, eq_comm]
      · simp [getFromCache, getFromCacheTry, isCacheValid, hen, hm, hlt, hex]
    · simp [getFromCache, getFromCacheTry, isCacheValid, hen, hm, hlt]

/-- C2 on the storage left by the sample vector request: the vector entry
is returned, the raster entry (no artifact file) is not. -/
theorem getFromCache_iff_witness :
    getFromCache defaultConfig svgCachedWorld.fs 2000 sampleKey "svg"
      = some (targetPath defaultConfig sampleKey "svg") ∧
    getFromCache defaultConfig svgCachedWorld.fs 2000 sampleKey "png" = none :=
  ⟨((getFromCache_iff defaultConfig svgCachedWorld.fs 2000 sampleKey "svg" (by decide)).1 _).mpr
      ⟨rfl, ⟨⟨1544, "svg", destructureOptions defaultConfig [], sampleKey⟩, by rfl, by decide⟩,
        by decide⟩,
   (getFromCache_iff defaultConfig svgCachedWorld.fs 2000 sampleKey "png" (by decide)).2.mpr
      (fun h => absurd h.2 (by decide))⟩

/-- C3. For an entry written by a succeeding `saveToCache` at time `t` and
storage unchanged since, `getFromCache(key, format)` returns `null` at every
time `t'` with `t' - t ≥ CACHE_TTL`, equality included, although the
artifact file still exists. -/
theorem expired_entry_absent (cfg : Config) (fs : FS) (t t' : Int) (key format : String)
    (file : Path) (options : JsObject)
    (hen : cfg.CACHE_ENABLED = true)
    (hok : (saveToCacheTry cfg fs t key format file options).2 = none)
    (hexp : cfg.CACHE_TTL ≤ t' - t) :
    getFromCache cfg (saveToCache cfg fs t key format file options) t' key format = none ∧
    (saveToCache cfg fs t key format file options).pathExists (targetPath cfg key format)
      = true := by
  obtain ⟨c, _, htgt, hmeta⟩ := saveToCacheTry_ok cfg fs t key format file options hok
  constructor
  · simp [getFromCache, getFromCacheTry, isCacheValid, FS.readJson, FS.readFile,
      saveToCache, hen, hmeta, not_lt.mpr hexp]
  · simp [saveToCache, hen, FS.pathExists, htgt]

/-- C3 at a vector file saved at 1000 ms and looked up exactly one TTL
later. -/
theorem expired_entry_absent_witness :
    getFromCache defaultConfig
        (saveToCache defaultConfig tempSvgFS 1000 sampleKey "svg" "temp/a.svg" [])
        86401000 sampleKey "svg" = none ∧
    (saveToCache defaultConfig tempSvgFS 1000 sampleKey "svg" "temp/a.svg" []).pathExists
        (targetPath defaultConfig sampleKey "svg") = true :=
  expired_entry_absent defaultConfig tempSvgFS 1000 86401000 sampleKey "svg" "temp/a.svg" []
    (by decide) (by decide) (by decide)


/-! ## The render coordinator -/

theorem saveToCacheW_trace (cfg : Config) (env : Env) (w : World) (k f : String) (p : Path)
    (o : JsObject) : (saveToCacheW cfg env w k f p o).trace = w.trace := by
  unfold saveToCacheW; split <;> rfl

theorem saveToCacheW_browser (cfg : Config) (env : Env) (w : World) (k f : String) (p : Path)
    (o : JsObject) : (saveToCacheW cfg env w k f p o).browserInstance = w.browserInstance := by
  unfold saveToCacheW; split <;> rfl

/-- The awaited cache save keeps the content of its source file. -/
theorem saveToCacheW_source_kept (cfg : Config) (env : Env) (w : World) (k f : String)
    (p : Path) (o : JsObject) (hne : p ≠ (getCacheFilePaths cfg k).meta) :
    (saveToCacheW cfg env w k f p o).fs.node p = w.fs.node p := by
  unfold saveToCacheW
  split
  · rfl
  · exact saveToCache_source_kept cfg _ _ k f p o hne

/-- With the cache enabled and storage accepting the writes, the awaited
cache save leaves the artifact under `(k, f)` and metadata stamped with the
clock at its end. -/
theorem saveToCacheW_saved (cfg : Config) (env : Env) (w : World) (k f : String)
    (p : Path) (o : JsObject) (c : Content) (hen : cfg.CACHE_ENABLED = true)
    (hr : w.fs.readFile p = .ok c) (hw : cacheWritable cfg w.fs k f p) :
    (saveToCacheW cfg env w k f p o).fs.node (targetPath cfg k f) = .file c ∧
    (saveToCacheW cfg env w k f p o).fs.node (getCacheFilePaths cfg k).meta
      = .file (.json { timestamp := (saveToCacheW cfg env w k f p o).clock, format := f,
                       options := o, cacheKey := k }) := by
  have hok := saveToCacheTry_succeeds cfg w.fs (w.clock + env.tSave) k f p o c hr hw
  obtain ⟨c', hc', h1, h2⟩ := saveToCacheTry_ok cfg w.fs (w.clock + env.tSave) k f p o hok
  have hcc : c' = c := by
    rw [hr] at hc'
    exact (Except.ok.inj hc').symm
  subst hcc
  simp only [saveToCacheW, saveToCache, hen, World.tick, Bool.not_true, Bool.false_eq_true,
    if_false]
  exact ⟨h1, h2⟩

/-- The exact-format hit branch of `convertMermaid`. -/
theorem convertMermaid_hit_eq (cfg : Config) (env : Env) (w : World) (code format : String)
    (options : JsObject) (p : Path)
    (h : getFromCache cfg w.fs (w.clock + env.tLookup) (convertCacheKey cfg code options) format
      = some p) :
    convertMermaid cfg env w code format options =
      (w.tick env.tLookup,
        .ok { outputPath := p, cacheKey := convertCacheKey cfg code options,
              cacheStatus := "HIT", source := "cache",
              timings := { cacheLookupMs := w.clock + env.tLookup - w.clock, renderMs := 0,
                           rasterizeMs := 0, totalMs := w.clock + env.tLookup - w.clock },
              options := destructureOptions cfg options }) := by
  unfold convertCacheKey at h ⊢
  simp only [convertMermaid, World.tick, h]

/-- The derivation branch of `convertMermaid`. -/
theorem convertMermaid_derive_eq (cfg : Config) (env : Env) (w : World) (code : String)
    (options : JsObject) (sp : Path) (svg : Content) (png : Bytes)
    (h1 : getFromCache cfg w.fs (w.clock + env.tLookup) (convertCacheKey cfg code options) "png"
      = none)
    (h2 : getFromCache cfg w.fs (w.clock + env.tLookup + env.tLookup)
      (convertCacheKey cfg code options) "svg" = some sp)
    (h3 : w.fs.readFile sp = .ok svg)
    (h4 : env.rasterize svg = .ok png)
    (h5 : w.fs.writeFails (pathJoin cfg.TEMP_DIR (env.uuidv4 ++ ".png")) = false) :
    convertMermaid cfg env w code "png" options =
      (saveToCacheW cfg env (derivedWorld cfg env w png) (convertCacheKey cfg code options) "png"
          (pathJoin cfg.TEMP_DIR (env.uuidv4 ++ ".png")) (destructureOptions cfg options),
        .ok { outputPath := (getCacheFilePaths cfg (convertCacheKey cfg code options)).png,
              cacheKey := convertCacheKey cfg code options,
              cacheStatus := "HIT-SVG", source := "cache-svg-rasterized",
              timings := { cacheLookupMs := w.clock + env.tLookup - w.clock, renderMs := 0,
                           rasterizeMs := w.clock + env.tLookup + env.tLookup + env.tRead
                              + env.tRaster - (w.clock + env.tLookup + env.tLookup),
                           totalMs := (saveToCacheW cfg env (derivedWorld cfg env w png)
                              (convertCacheKey cfg code options) "png"
                              (pathJoin cfg.TEMP_DIR (env.uuidv4 ++ ".png"))
                              (destructureOptions cfg options)).clock - w.clock },
              options := destructureOptions cfg options }) := by
  unfold convertCacheKey at h1 h2 ⊢
  simp only [convertMermaid, World.tick, h1, h2, h3, h4, FS.writeFile, FS.write, h5, if_true,
    derivedWorld]
  rfl

/-- The full-render block: with no initialization in progress, a browser at
hand or launched, and the backend and the temporary write succeeding, it
hands the rendered world to the cache save and returns `MISS` / `api`. -/
theorem renderFresh_spec (cfg : Config) (env : Env) (w : World) (startTotal lookupMs : Int)
    (key code fmt pre : String) (opts : JsObject) (b : Nat) (bytes : Bytes)
    (hinit : w.browserInitializing = false)
    (hb : w.browserInstance = some b ∨ (w.browserInstance = none ∧ env.launch = .ok b))
    (himp : env.cliImport = none)
    (hr : env.renderMermaid (renderCallOf cfg b code fmt opts) = .ok bytes)
    (hw : w.fs.writeFails (pathJoin cfg.TEMP_DIR (env.uuidv4 ++ "." ++ fmt)) = false) :
    ∃ (wr : World) (rm : Int),
      wr.fs.node = (fun q => if q = pathJoin cfg.TEMP_DIR (env.uuidv4 ++ "." ++ fmt)
        then Node.file (.data bytes) else w.fs.node q) ∧
      wr.fs.writeFails = w.fs.writeFails ∧
      wr.browserInstance = some b ∧
      wr.trace = w.trace ++ Event.acquire ::
        ((if w.browserInstance.isSome then [] else [Event.launch])
          ++ [Event.render (renderCallOf cfg b code fmt opts)]) ∧
      renderFresh cfg env w startTotal lookupMs key code fmt pre opts =
        (saveToCacheW cfg env wr key fmt (pathJoin cfg.TEMP_DIR (env.uuidv4 ++ "." ++ fmt)) opts,
          .ok { outputPath := pathJoin cfg.TEMP_DIR (env.uuidv4 ++ "." ++ fmt), cacheKey := key,
                cacheStatus := "MISS", source := "api",
                timings := { cacheLookupMs := lookupMs, renderMs := rm, rasterizeMs := 0,
                             totalMs := (saveToCacheW cfg env wr key fmt
                               (pathJoin cfg.TEMP_DIR (env.uuidv4 ++ "." ++ fmt)) opts).clock
                                 - startTotal },
                options := opts }) := by
  rcases hb with hb | ⟨hb, hl⟩
  · simp only [renderFresh, renderWithMermaid, getBrowserInstance, hb, himp, hr, World.tick,
      FS.writeFile, FS.write, hw]
    refine ⟨_, _, ?_, ?_, ?_, ?_, rfl⟩ <;> simp
  · simp only [renderFresh, renderWithMermaid, getBrowserInstance, hb, hl, hinit, himp, hr,
      World.tick, FS.writeFile, FS.write, hw, Bool.false_eq_true, if_false]
    refine ⟨_, _, ?_, ?_, ?_, ?_, rfl⟩ <;> simp

/-- On a miss for `'svg'` or `'png'` with no vector entry to derive from,
`convertMermaid` is its full-render block. -/
theorem convertMermaid_miss_eq (cfg : Config) (env : Env) (w : World) (code format : String)
    (options : JsObject) (hfmt : format = "svg" ∨ format = "png")
    (h1 : getFromCache cfg w.fs (w.clock + env.tLookup) (convertCacheKey cfg code options) format
      = none)
    (h2 : getFromCache cfg w.fs (w.clock + env.tLookup + env.tLookup)
      (convertCacheKey cfg code options) "svg" = none) :
    ∃ (w0 : World) (pre : String),
      convertMermaid cfg env w code format options =
        renderFresh cfg env w0 w.clock (w.clock + env.tLookup - w.clock)
          (convertCacheKey cfg code options) code format pre (destructureOptions cfg options) ∧
      w0.fs = w.fs ∧ w0.trace = w.trace ∧
      w0.browserInstance = w.browserInstance ∧
      w0.browserInitializing = w.browserInitializing := by
  unfold convertCacheKey at h1 h2 ⊢
  rcases hfmt with hf | hf <;> subst hf
  · have hne : ¬ (("svg" : String) = "png") := by decide
    simp only [convertMermaid, World.tick, h1, hne, if_false]
    exact ⟨_, _, rfl, rfl, rfl, rfl, rfl⟩
  · simp only [convertMermaid, World.tick, h1, h2, if_true]
    exact ⟨_, _, rfl, rfl, rfl, rfl, rfl⟩


/-! ## Claims about `convertMermaid` -/

/-- C7. Whenever the exact-format lookup hits, `convertMermaid` resolves
with `cacheStatus` `'HIT'`, `source` `'cache'` and the cached path, with
`renderMs = 0` and `rasterizeMs = 0`; it records no acquisition of the
browser and no render call, and leaves the browser variable and the
storage as they were. -/
theorem convertMermaid_exact_hit (cfg : Config) (env : Env) (w : World) (code format : String)
    (options : JsObject) (p : Path)
    (h : getFromCache cfg w.fs (w.clock + env.tLookup) (convertCacheKey cfg code options) format
      = some p) :
    ∃ w' r, convertMermaid cfg env w code format options = (w', .ok r) ∧
      r.cacheStatus = "HIT" ∧ r.source = "cache" ∧ r.outputPath = p ∧
      r.timings.renderMs = 0 ∧ r.timings.rasterizeMs = 0 ∧
      w'.trace = w.trace ∧ w'.browserInstance = w.browserInstance ∧ w'.fs.node = w.fs.node := by
  rw [convertMermaid_hit_eq cfg env w code format options p h]
  exact ⟨_, _, rfl, rfl, rfl, rfl, rfl, rfl, rfl, rfl, rfl⟩

/-- C7 at a second vector request on the server that has cached the
sample diagram. -/
theorem convertMermaid_exact_hit_witness :
    ∃ w' r, convertMermaid defaultConfig sampleEnv svgCachedWorld sampleCode "svg" [] = (w', .ok r) ∧
      r.cacheStatus = "HIT" ∧ r.source = "cache" ∧
      r.outputPath = targetPath defaultConfig sampleKey "svg" ∧
      r.timings.renderMs = 0 ∧ r.timings.rasterizeMs = 0 ∧
      w'.trace = svgCachedWorld.trace ∧ w'.browserInstance = svgCachedWorld.browserInstance ∧
      w'.fs.node = svgCachedWorld.fs.node :=
  convertMermaid_exact_hit defaultConfig sampleEnv svgCachedWorld sampleCode "svg" []
    (targetPath defaultConfig sampleKey "svg") (by decide)

/-- C4, amended. For a `'png'` request whose exact lookup misses while the
`'svg'` lookup under the same key hits, and with the cached vector readable,
the rasterizer and the temporary write succeeding, `convertMermaid` resolves
with `cacheStatus` `'HIT-SVG'` and `source` `'cache-svg-rasterized'`,
`renderMs = 0`, and the cache path of the raster entry as `outputPath`; the
temporary file holds the rasterizer output for the cached vector; no browser
acquisition and no render call is recorded. -/
theorem convertMermaid_derives_png (cfg : Config) (env : Env) (w : World) (code : String)
    (options : JsObject) (sp : Path) (svg : Content) (png : Bytes)
    (h1 : getFromCache cfg w.fs (w.clock + env.tLookup) (convertCacheKey cfg code options) "png"
      = none)
    (h2 : getFromCache cfg w.fs (w.clock + env.tLookup + env.tLookup)
      (convertCacheKey cfg code options) "svg" = some sp)
    (h3 : w.fs.readFile sp = .ok svg)
    (h4 : env.rasterize svg = .ok png)
    (h5 : w.fs.writeFails (pathJoin cfg.TEMP_DIR (env.uuidv4 ++ ".png")) = false) :
    ∃ w' r, convertMermaid cfg env w code "png" options = (w', .ok r) ∧
      r.cacheStatus = "HIT-SVG" ∧ r.source = "cache-svg-rasterized" ∧
      r.timings.renderMs = 0 ∧
      r.outputPath = (getCacheFilePaths cfg (convertCacheKey cfg code options)).png ∧
      w'.fs.readFile (pathJoin cfg.TEMP_DIR (env.uuidv4 ++ ".png")) = .ok (.data png) ∧
      w'.trace = w.trace ∧ w'.browserInstance = w.browserInstance := by
  rw [convertMermaid_derive_eq cfg env w code options sp svg png h1 h2 h3 h4 h5]
  refine ⟨_, _, rfl, rfl, rfl, rfl, rfl, ?_, ?_, ?_⟩
  · have hne := artifact_ne_meta cfg cfg.TEMP_DIR env.uuidv4 ".png"
      (convertCacheKey cfg code options) (Or.inr (Or.inr rfl))
    simp only [FS.readFile, saveToCacheW_source_kept cfg env (derivedWorld cfg env w png)
      (convertCacheKey cfg code options) "png" _ (destructureOptions cfg options) hne]
    simp [derivedWorld]
  · rw [saveToCacheW_trace]; rfl
  · rw [saveToCacheW_browser]; rfl

/-- C4, amended, at a raster request on the server that has cached the
sample diagram as a vector only. -/
theorem convertMermaid_derives_png_witness :
    ∃ w' r, convertMermaid defaultConfig sampleEnv svgCachedWorld sampleCode "png" []
        = (w', .ok r) ∧
      r.cacheStatus = "HIT-SVG" ∧ r.source = "cache-svg-rasterized" ∧
      r.timings.renderMs = 0 ∧
      r.outputPath = (getCacheFilePaths defaultConfig sampleKey).png ∧
      w'.fs.readFile (pathJoin defaultConfig.TEMP_DIR (sampleEnv.uuidv4 ++ ".png"))
        = .ok (.data [137, 80, 78, 71, 10]) ∧
      w'.trace = svgCachedWorld.trace ∧ w'.browserInstance = svgCachedWorld.browserInstance :=
  convertMermaid_derives_png defaultConfig sampleEnv svgCachedWorld sampleCode []
    (targetPath defaultConfig sampleKey "svg") (.data [60, 115, 118, 103, 62])
    [137, 80, 78, 71, 10] (by decide) (by decide) (by rfl) (by rfl) (by decide)

/-- C4 as stated fails: on the server that has cached the sample diagram
as a vector only, the exact raster lookup misses, the vector lookup hits,
and the raster request resolves with `cacheStatus` `'HIT-SVG'` and `source`
`'cache-svg-rasterized'`, not `HIT-DERIVED` and `cache-derived`. -/
theorem derived_status_is_hit_svg :
    getFromCache defaultConfig svgCachedWorld.fs (svgCachedWorld.clock + sampleEnv.tLookup)
      sampleKey "png" = none ∧
    getFromCache defaultConfig svgCachedWorld.fs
      (svgCachedWorld.clock + sampleEnv.tLookup + sampleEnv.tLookup) sampleKey "svg"
      = some (getCacheFilePaths defaultConfig sampleKey).svg ∧
    ((convertMermaid defaultConfig sampleEnv svgCachedWorld sampleCode "png" []).2.value?.map
      (fun r => r.cacheStatus)) = some "HIT-SVG" ∧
    ((convertMermaid defaultConfig sampleEnv svgCachedWorld sampleCode "png" []).2.value?.map
      (fun r => r.cacheStatus)) ≠ some "HIT-DERIVED" ∧
    ((convertMermaid defaultConfig sampleEnv svgCachedWorld sampleCode "png" []).2.value?.map
      (fun r => r.source)) = some "cache-svg-rasterized" ∧
    ((convertMermaid defaultConfig sampleEnv svgCachedWorld sampleCode "png" []).2.value?.map
      (fun r => r.source)) ≠ some "cache-derived" := by
  decide

/-- C5. With caching enabled and storage accepting the cache writes, after
a `'png'` request served by rasterizing the cached vector (status
`'HIT-SVG'`), the same request on the storage it left, with its cache lookup
less than `CACHE_TTL` after the first request completed (the timestamp of
the metadata it wrote), resolves with `cacheStatus` `'HIT'`, and the file at
its `outputPath` holds the rasterized bytes. -/
theorem derived_then_hit (cfg : Config) (env env2 : Env) (w w2 : World) (code : String)
    (options : JsObject) (sp : Path) (svg : Content) (png : Bytes)
    (hen : cfg.CACHE_ENABLED = true)
    (h1 : getFromCache cfg w.fs (w.clock + env.tLookup) (convertCacheKey cfg code options) "png"
      = none)
    (h2 : getFromCache cfg w.fs (w.clock + env.tLookup + env.tLookup)
      (convertCacheKey cfg code options) "svg" = some sp)
    (h3 : w.fs.readFile sp = .ok svg)
    (h4 : env.rasterize svg = .ok png)
    (h5 : w.fs.writeFails (pathJoin cfg.TEMP_DIR (env.uuidv4 ++ ".png")) = false)
    (hcw : cacheWritable cfg w.fs (convertCacheKey cfg code options) "png"
      (pathJoin cfg.TEMP_DIR (env.uuidv4 ++ ".png")))
    (hfs : w2.fs = (convertMermaid cfg env w code "png" options).1.fs)
    (httl : w2.clock + env2.tLookup - (convertMermaid cfg env w code "png" options).1.clock
      < cfg.CACHE_TTL) :
    (∃ w1 r1, convertMermaid cfg env w code "png" options = (w1, .ok r1) ∧
      r1.cacheStatus = "HIT-SVG") ∧
    ∃ w3 r2, convertMermaid cfg env2 w2 code "png" options = (w3, .ok r2) ∧
      r2.cacheStatus = "HIT" ∧ w3.fs.readFile r2.outputPath = .ok (.data png) := by
  have heq := convertMermaid_derive_eq cfg env w code options sp svg png h1 h2 h3 h4 h5
  rw [heq] at hfs httl
  simp only at hfs httl
  have hrd : (derivedWorld cfg env w png).fs.readFile (pathJoin cfg.TEMP_DIR (env.uuidv4 ++ ".png"))
      = .ok (.data png) := by
    simp [derivedWorld, FS.readFile]
  obtain ⟨hn1, hn2⟩ := saveToCacheW_saved cfg env (derivedWorld cfg env w png)
    (convertCacheKey cfg code options) "png" (pathJoin cfg.TEMP_DIR (env.uuidv4 ++ ".png"))
    (destructureOptions cfg options) (.data png) hen hrd hcw
  rw [← hfs] at hn1 hn2
  have hget := getFromCache_of_nodes cfg w2.fs (w2.clock + env2.tLookup)
    (convertCacheKey cfg code options) "png" _ _ hen hn2 httl hn1
  refine ⟨⟨_, _, heq, rfl⟩, ?_⟩
  rw [convertMermaid_hit_eq cfg env2 w2 code "png" options _ hget]
  refine ⟨_, _, rfl, rfl, ?_⟩
  simp [World.tick, FS.readFile, hn1]

/-- C5 at the sample server: a raster request served by derivation, then
the same request one minute later. -/
theorem derived_then_hit_witness :
    (∃ w1 r1, convertMermaid defaultConfig sampleEnv svgCachedWorld sampleCode "png" []
        = (w1, .ok r1) ∧ r1.cacheStatus = "HIT-SVG") ∧
    ∃ w3 r2, convertMermaid defaultConfig sampleEnv
        { (convertMermaid defaultConfig sampleEnv svgCachedWorld sampleCode "png" []).1 with
          clock := 61554 }
        sampleCode "png" [] = (w3, .ok r2) ∧
      r2.cacheStatus = "HIT" ∧ w3.fs.readFile r2.outputPath = .ok (.data [137, 80, 78, 71, 10]) :=
  derived_then_hit defaultConfig sampleEnv sampleEnv svgCachedWorld
    { (convertMermaid defaultConfig sampleEnv svgCachedWorld sampleCode "png" []).1 with
      clock := 61554 }
    sampleCode [] (targetPath defaultConfig sampleKey "svg") (.data [60, 115, 118, 103, 62])
    [137, 80, 78, 71, 10] (by decide) (by decide) (by decide) (by rfl) (by rfl) (by decide)
    ⟨by decide, by decide, by decide⟩ rfl (by decide)


/-- C6, amended. For an `'svg'` or `'png'` request whose lookups miss (the
exact one, and the vector one a raster request tries next), with no browser
initialization in progress, a browser at hand or a launch that succeeds, and
the backend and the temporary write succeeding, `convertMermaid` records one
acquisition of the browser, a launch only if none was held, and one render
call, which carries the requested format; it resolves with `cacheStatus`
`'MISS'` and `source` `'api'`, and the file at `outputPath` holds the bytes
the backend returned. With the cache enabled and storage accepting the cache
writes, the cache then holds those bytes under `(key, format)`, and
`getFromCache(key, format)` returns that entry at every time less than
`CACHE_TTL` after the request completed. -/
theorem convertMermaid_miss (cfg : Config) (env : Env) (w : World) (code format : String)
    (options : JsObject) (b : Nat) (bytes : Bytes)
    (hfmt : format = "svg" ∨ format = "png")
    (h1 : getFromCache cfg w.fs (w.clock + env.tLookup) (convertCacheKey cfg code options) format
      = none)
    (h2 : getFromCache cfg w.fs (w.clock + env.tLookup + env.tLookup)
      (convertCacheKey cfg code options) "svg" = none)
    (hinit : w.browserInitializing = false)
    (hb : w.browserInstance = some b ∨ (w.browserInstance = none ∧ env.launch = .ok b))
    (himp : env.cliImport = none)
    (hr : env.renderMermaid (renderCallOf cfg b code format (destructureOptions cfg options))
      = .ok bytes)
    (hw : w.fs.writeFails (pathJoin cfg.TEMP_DIR (env.uuidv4 ++ "." ++ format)) = false) :
    ∃ w' r, convertMermaid cfg env w code format options = (w', .ok r) ∧
      r.cacheStatus = "MISS" ∧ r.source = "api" ∧
      w'.trace = w.trace ++ Event.acquire ::
        ((if w.browserInstance.isSome then [] else [Event.launch])
          ++ [Event.render (renderCallOf cfg b code format (destructureOptions cfg options))]) ∧
      (renderCallOf cfg b code format (destructureOptions cfg options)).format = format ∧
      w'.fs.readFile r.outputPath = .ok (.data bytes) ∧
      (cfg.CACHE_ENABLED = true →
        cacheWritable cfg w.fs (convertCacheKey cfg code options) format r.outputPath →
        w'.fs.readFile (targetPath cfg (convertCacheKey cfg code options) format)
          = .ok (.data bytes) ∧
        ∀ t' : Int, t' - w'.clock < cfg.CACHE_TTL →
          getFromCache cfg w'.fs t' (convertCacheKey cfg code options) format
            = some (targetPath cfg (convertCacheKey cfg code options) format)) := by
  obtain ⟨w0, pre, heq, hfs0, htr0, hbi0, hin0⟩ :=
    convertMermaid_miss_eq cfg env w code format options hfmt h1 h2
  obtain ⟨wr, rm, hnode, hwf, _, htr, hres⟩ :=
    renderFresh_spec cfg env w0 w.clock (w.clock + env.tLookup - w.clock)
      (convertCacheKey cfg code options) code format pre (destructureOptions cfg options) b bytes
      (hin0.trans hinit) (by rw [hbi0]; exact hb) himp hr (by rw [hfs0]; exact hw)
  rw [heq, hres]
  have hne := artifact_ne_meta cfg cfg.TEMP_DIR (env.uuidv4 ++ ".") format
    (convertCacheKey cfg code options)
    (hfmt.elim Or.inl (fun h => Or.inr (Or.inl h)))
  have hrd : wr.fs.readFile (pathJoin cfg.TEMP_DIR (env.uuidv4 ++ "." ++ format))
      = .ok (.data bytes) := by
    simp [FS.readFile, hnode]
  refine ⟨_, _, rfl, rfl, rfl, ?_, rfl, ?_, ?_⟩
  · rw [saveToCacheW_trace, htr, htr0, hbi0]
  · simp only [FS.readFile, saveToCacheW_source_kept cfg env wr
      (convertCacheKey cfg code options) format _ (destructureOptions cfg options) hne]
    simp [hnode]
  · intro hen hcw
    have hcw' : cacheWritable cfg wr.fs (convertCacheKey cfg code options) format
        (pathJoin cfg.TEMP_DIR (env.uuidv4 ++ "." ++ format)) := by
      obtain ⟨c1, c2, c3⟩ := hcw
      refine ⟨c1, ?_, ?_⟩
      · rw [hwf, hfs0]; exact c2
      · rw [hwf, hfs0]; exact c3
    obtain ⟨hn1, hn2⟩ := saveToCacheW_saved cfg env wr (convertCacheKey cfg code options) format
      (pathJoin cfg.TEMP_DIR (env.uuidv4 ++ "." ++ format)) (destructureOptions cfg options)
      (.data bytes) hen hrd hcw'
    refine ⟨?_, ?_⟩
    · simp [FS.readFile, hn1]
    · intro t' ht
      exact getFromCache_of_nodes cfg _ t' (convertCacheKey cfg code options) format _ _ hen
        hn2 ht hn1

/-- C6, amended, at the first vector request on a freshly started server. -/
theorem convertMermaid_miss_witness :
    ∃ w' r, convertMermaid defaultConfig sampleEnv freshWorld sampleCode "svg" [] = (w', .ok r) ∧
      r.cacheStatus = "MISS" ∧ r.source = "api" ∧
      w'.trace = freshWorld.trace ++ Event.acquire ::
        ((if freshWorld.browserInstance.isSome then [] else [Event.launch])
          ++ [Event.render (renderCallOf defaultConfig 1 sampleCode "svg"
                (destructureOptions defaultConfig []))]) ∧
      (renderCallOf defaultConfig 1 sampleCode "svg" (destructureOptions defaultConfig [])).format
        = "svg" ∧
      w'.fs.readFile r.outputPath = .ok (.data [60, 115, 118, 103, 62]) ∧
      (defaultConfig.CACHE_ENABLED = true →
        cacheWritable defaultConfig freshWorld.fs (convertCacheKey defaultConfig sampleCode [])
          "svg" r.outputPath →
        w'.fs.readFile (targetPath defaultConfig (convertCacheKey defaultConfig sampleCode []) "svg")
          = .ok (.data [60, 115, 118, 103, 62]) ∧
        ∀ t' : Int, t' - w'.clock < defaultConfig.CACHE_TTL →
          getFromCache defaultConfig w'.fs t' (convertCacheKey defaultConfig sampleCode []) "svg"
            = some (targetPath defaultConfig (convertCacheKey defaultConfig sampleCode []) "svg")) :=
  convertMermaid_miss defaultConfig sampleEnv freshWorld sampleCode "svg" [] 1
    [60, 115, 118, 103, 62] (Or.inl rfl) (by decide) (by decide) rfl (Or.inr ⟨rfl, rfl⟩) rfl
    (by rfl) (by decide)

/-- C6 as stated fails: the first vector request on a freshly started
server (no cached entry in either format) resolves with `cacheStatus`
`'MISS'` and `source` `'api'`, not `backend`. -/
theorem miss_source_is_api :
    getFromCache defaultConfig freshWorld.fs (freshWorld.clock + sampleEnv.tLookup)
      sampleKey "svg" = none ∧
    getFromCache defaultConfig freshWorld.fs (freshWorld.clock + sampleEnv.tLookup)
      sampleKey "png" = none ∧
    ((convertMermaid defaultConfig sampleEnv freshWorld sampleCode "svg" []).2.value?.map
      (fun r => r.cacheStatus)) = some "MISS" ∧
    ((convertMermaid defaultConfig sampleEnv freshWorld sampleCode "svg" []).2.value?.map
      (fun r => r.source)) = some "api" ∧
    ((convertMermaid defaultConfig sampleEnv freshWorld sampleCode "svg" []).2.value?.map
      (fun r => r.source)) ≠ some "backend" := by
  decide

/-- C8 fails on the derivation branch. The cache holds the sample diagram
as a vector only and the cache files of its key reject writes; the `'png'`
request resolves with status `'HIT-SVG'`; the rasterized bytes are in the
temporary file, but the `outputPath` returned is the cache path of the
raster entry, which does not exist. -/
theorem derived_outputPath_missing_when_cache_write_fails :
    ((convertMermaid defaultConfig sampleEnv cacheLockedWorld sampleCode "png" []).2.value?.map
      (fun r => r.cacheStatus)) = some "HIT-SVG" ∧
    ((convertMermaid defaultConfig sampleEnv cacheLockedWorld sampleCode "png" []).2.value?.map
      (fun r => r.outputPath)) = some (getCacheFilePaths defaultConfig sampleKey).png ∧
    (convertMermaid defaultConfig sampleEnv cacheLockedWorld sampleCode "png" []).1.fs.pathExists
      (getCacheFilePaths defaultConfig sampleKey).png = false ∧
    (convertMermaid defaultConfig sampleEnv cacheLockedWorld sampleCode "png" []).1.fs.node
      (pathJoin defaultConfig.TEMP_DIR (sampleEnv.uuidv4 ++ ".png"))
      = .file (.data [137, 80, 78, 71, 10]) ∧
    (saveToCacheTry defaultConfig
      (derivedWorld defaultConfig sampleEnv cacheLockedWorld [137, 80, 78, 71, 10]).fs 0 sampleKey
      "png" (pathJoin defaultConfig.TEMP_DIR (sampleEnv.uuidv4 ++ ".png")) []).2
      = some "EACCES: permission denied" := by
  decide

/-! ## Shared metadata, render errors -/

/-- A cache save touches only the artifact path of its format and the
metadata path of its key. -/
theorem saveToCache_frame (cfg : Config) (fs : FS) (now : Int) (key format : String)
    (file : Path) (options : JsObject) (q : Path)
    (h1 : q ≠ targetPath cfg key format) (h2 : q ≠ (getCacheFilePaths cfg key).meta) :
    (saveToCache cfg fs now key format file options).node q = fs.node q := by
  unfold saveToCache
  split
  · rfl
  · unfold saveToCacheTry FS.copy FS.writeJson FS.write
    by_cases e1 : file = targetPath cfg key format
    · simp [e1]
    · cases e2 : fs.readFile file with
      | error e => simp [e1]
      | ok c =>
        by_cases e3 : fs.writeFails (targetPath cfg key format) = true
        · simp [e1, e3]
        · by_cases e4 : fs.writeFails (getCacheFilePaths cfg key).meta = true
          · simp [e1, e3, e4, h1]
          · simp [e1, e3, e4, h1, h2]

/-- C11 as stated fails: the vector entry of the sample key is written at
1000 ms and the raster entry one millisecond before the vector entry's TTL
ends; one TTL after the vector entry was written, `getFromCache(k, 'svg')`
still returns the vector path. -/
theorem svg_expiry_moved_by_png_write :
    (86401000 : Int) - 1000 ≥ defaultConfig.CACHE_TTL ∧
    getFromCache defaultConfig
      (saveToCache defaultConfig
        (saveToCache defaultConfig tempBothFS 1000 sampleKey "svg" "temp/a.svg" [])
        86400999 sampleKey "png" "temp/a.png" [])
      86401000 sampleKey "svg" = some (getCacheFilePaths defaultConfig sampleKey).svg := by
  decide

/-- C11, amended. The cache keeps one metadata record per key, shared by
both formats. After a succeeding write of the raster entry of `k` at time
`t2`, with the vector artifact of `k` in storage, `getFromCache(k, 'svg')`
returns the vector path at every time `t'` with `t' - t2 < CACHE_TTL` and
`null` at every time with `t' - t2 ≥ CACHE_TTL`, whenever the vector entry
was written. -/
theorem shared_metadata_expiry (cfg : Config) (fs : FS) (t2 t' : Int) (key : String)
    (file : Path) (options : JsObject)
    (hen : cfg.CACHE_ENABLED = true)
    (hsvg : fs.pathExists (getCacheFilePaths cfg key).svg = true)
    (hok : (saveToCacheTry cfg fs t2 key "png" file options).2 = none) :
    (t' - t2 < cfg.CACHE_TTL →
      getFromCache cfg (saveToCache cfg fs t2 key "png" file options) t' key "svg"
        = some (getCacheFilePaths cfg key).svg) ∧
    (cfg.CACHE_TTL ≤ t' - t2 →
      getFromCache cfg (saveToCache cfg fs t2 key "png" file options) t' key "svg" = none) := by
  obtain ⟨c, _, _, hmeta⟩ := saveToCacheTry_ok cfg fs t2 key "png" file options hok
  have hne : ¬ (("png" : String) = "svg") := by decide
  have hfr := saveToCache_frame cfg fs t2 key "png" file options (getCacheFilePaths cfg key).svg
    (by simp only [targetPath, hne, if_false]; exact svgPath_ne_pngPath cfg key)
    (by
      have := targetPath_ne_meta cfg key "svg"
      simpa [targetPath] using this)
  have hex : (saveToCache cfg fs t2 key "png" file options).pathExists
      (getCacheFilePaths cfg key).svg = true := by
    simp only [FS.pathExists, hfr] at hsvg ⊢
    exact hsvg
  have hmeta' : (saveToCache cfg fs t2 key "png" file options).readJson
      (getCacheFilePaths cfg key).meta
      = .ok { timestamp := t2, format := "png", options := options, cacheKey := key } := by
    simp [saveToCache, hen, FS.readJson, FS.readFile, hmeta]
  constructor
  · intro hlt
    simp [getFromCache, getFromCacheTry, isCacheValid, hen, hmeta', hlt, targetPath, hex]
  · intro hge
    simp [getFromCache, getFromCacheTry, isCacheValid, hen, hmeta', not_lt.mpr hge]

/-- C11, amended, at the storage of the counterexample. -/
theorem shared_metadata_expiry_witness :
    ((86401000 : Int) - 86400999 < defaultConfig.CACHE_TTL →
      getFromCache defaultConfig
        (saveToCache defaultConfig
          (saveToCache defaultConfig tempBothFS 1000 sampleKey "svg" "temp/a.svg" [])
          86400999 sampleKey "png" "temp/a.png" [])
        86401000 sampleKey "svg" = some (getCacheFilePaths defaultConfig sampleKey).svg) ∧
    (defaultConfig.CACHE_TTL ≤ (86401000 : Int) - 86400999 →
      getFromCache defaultConfig
        (saveToCache defaultConfig
          (saveToCache defaultConfig tempBothFS 1000 sampleKey "svg" "temp/a.svg" [])
          86400999 sampleKey "png" "temp/a.png" [])
        86401000 sampleKey "svg" = none) :=
  shared_metadata_expiry defaultConfig
    (saveToCache defaultConfig tempBothFS 1000 sampleKey "svg" "temp/a.svg" [])
    86400999 86401000 sampleKey "temp/a.png" [] (by decide) (by decide) (by decide)

/-- C12. Whenever the render step of the backend throws an error with
message `m` (lookups missing, no initialization in progress, a browser at
hand or launched, the render library imported), `convertMermaid` throws an
error whose message is `Failed to convert mermaid: ` followed by `m` for
`'svg'` and `Failed to convert mermaid to PNG: ` followed by `m` for
`'png'`. -/
theorem convertMermaid_render_error (cfg : Config) (env : Env) (w : World)
    (code format : String) (options : JsObject) (b : Nat) (m : String)
    (hfmt : format = "svg" ∨ format = "png")
    (h1 : getFromCache cfg w.fs (w.clock + env.tLookup) (convertCacheKey cfg code options) format
      = none)
    (h2 : getFromCache cfg w.fs (w.clock + env.tLookup + env.tLookup)
      (convertCacheKey cfg code options) "svg" = none)
    (hinit : w.browserInitializing = false)
    (hb : w.browserInstance = some b ∨ (w.browserInstance = none ∧ env.launch = .ok b))
    (himp : env.cliImport = none)
    (hr : env.renderMermaid (renderCallOf cfg b code format (destructureOptions cfg options))
      = .error m) :
    ∃ w', convertMermaid cfg env w code format options =
      (w', .throw ((if format = "png" then "Failed to convert mermaid to PNG: "
                    else "Failed to convert mermaid: ") ++ m)) := by
  unfold convertCacheKey at h1 h2
  rcases hfmt with hf | hf <;> subst hf
  · have hne : ¬ (("svg" : String) = "png") := by decide
    rcases hb with hb | ⟨hb, hl⟩
    · simp only [convertMermaid, World.tick, h1, hne, if_false, renderFresh, renderWithMermaid,
        getBrowserInstance, hb, himp, hr]
      exact ⟨_, rfl⟩
    · simp only [convertMermaid, World.tick, h1, hne, if_false, renderFresh, renderWithMermaid,
        getBrowserInstance, hb, hl, hinit, himp, hr, Bool.false_eq_true]
      exact ⟨_, rfl⟩
  · rcases hb with hb | ⟨hb, hl⟩
    · simp only [convertMermaid, World.tick, h1, h2, if_true, renderFresh, renderWithMermaid,
        getBrowserInstance, hb, himp, hr]
      exact ⟨_, rfl⟩
    · simp only [convertMermaid, World.tick, h1, h2, if_true, renderFresh, renderWithMermaid,
        getBrowserInstance, hb, hl, hinit, himp, hr, Bool.false_eq_true, if_false]
      exact ⟨_, rfl⟩

/-- C12 at a raster request on a fresh server whose backend rejects the
diagram. -/
theorem convertMermaid_render_error_witness :
    ∃ w', convertMermaid defaultConfig failingRenderEnv freshWorld sampleCode "png" [] =
      (w', .throw "Failed to convert mermaid to PNG: Parse error on line 1") :=
  convertMermaid_render_error defaultConfig failingRenderEnv freshWorld sampleCode "png" [] 1
    "Parse error on line 1" (Or.inr rfl) (by decide) (by decide) rfl (Or.inr ⟨rfl, rfl⟩) rfl
    (by rfl)


/-! ## The browser singleton -/

theorem getElem?_set_cases {α : Type} (l : List α) (i j : Nat) (a c : α)
    (h : (l.set i a)[j]? = some c) : (j = i ∧ c = a) ∨ (j ≠ i ∧ l[j]? = some c) := by
  rw [List.getElem?_set] at h
  by_cases hij : i = j
  · left
    rw [if_pos hij] at h
    by_cases hl : i < l.length
    · rw [if_pos hl] at h
      exact ⟨hij.symm, (Option.some.inj h).symm⟩
    · rw [if_neg hl] at h
      exact absurd h (by simp)
  · right
    rw [if_neg hij] at h
    exact ⟨fun e => hij e.symm, h⟩

theorem getElem?_set_of_some {α : Type} (l : List α) (i : Nat) (a x : α)
    (h : l[i]? = some x) : (l.set i a)[i]? = some a := by
  have hl : i < l.length := by
    by_contra hn
    rw [List.getElem?_eq_none (Nat.le_of_not_lt hn)] at h
    exact absurd h (by simp)
  exact List.getElem?_set_self hl

/-- Before any launch settles, `call` and `wake` steps keep the manager in
the phase with no launch or the phase with the one launch awaited. -/
theorem phase01_step (cfg : Config) (s : Manager) (l : MgrStep)
    (hl : l.isAcquire = true) (hnd : ∀ i e n, l ≠ .launchDone i e n)
    (h : s.Phase0 ∨ ∃ i0, s.Phase1 i0) :
    (s.step cfg l).Phase0 ∨ ∃ i0, (s.step cfg l).Phase1 i0 := by
  cases l with
  | call i =>
    simp only [Manager.step, Manager.call]
    rcases h with ⟨h1, h2, h3, h4⟩ | ⟨i0, h1, h2, h3, h4, h5⟩
    · cases hc : s.calls[i]? with
      | none => exact Or.inl ⟨h1, h2, h3, h4⟩
      | some c =>
        have hci := h4 i c hc
        subst hci
        simp only [h1, h2]
        refine Or.inr ⟨i, rfl, rfl, by simp [h3], getElem?_set_of_some _ _ _ _ hc, ?_⟩
        intro j c hj hne
        rcases getElem?_set_cases _ _ _ _ _ hj with ⟨e, _⟩ | ⟨_, hj'⟩
        · exact absurd e hne
        · exact Or.inl (h4 j c hj')
    · cases hc : s.calls[i]? with
      | none => exact Or.inr ⟨i0, h1, h2, h3, h4, h5⟩
      | some c =>
        by_cases hi : i = i0
        · subst hi
          rw [hc] at h4
          cases Option.some.inj h4
          exact Or.inr ⟨i, h1, h2, h3, hc, h5⟩
        · rcases h5 i c hc hi with hc' | hc' <;> subst hc'
          · simp only [h1, h2, if_true]
            refine Or.inr ⟨i0, rfl, rfl, h3, ?_, ?_⟩
            · rw [List.getElem?_set_ne hi]; exact h4
            · intro j c hj hne
              rcases getElem?_set_cases _ _ _ _ _ hj with ⟨_, e⟩ | ⟨_, hj'⟩
              · exact Or.inr e
              · exact h5 j c hj' hne
          · exact Or.inr ⟨i0, h1, h2, h3, h4, h5⟩
  | wake i =>
    simp only [Manager.step, Manager.wake]
    rcases h with ⟨h1, h2, h3, h4⟩ | ⟨i0, h1, h2, h3, h4, h5⟩
    · cases hc : s.calls[i]? with
      | none => exact Or.inl ⟨h1, h2, h3, h4⟩
      | some c =>
        have hci := h4 i c hc
        subst hci
        exact Or.inl ⟨h1, h2, h3, h4⟩
    · cases hc : s.calls[i]? with
      | none => exact Or.inr ⟨i0, h1, h2, h3, h4, h5⟩
      | some c =>
        cases c <;> simp only [h2, if_true] <;> exact Or.inr ⟨i0, h1, h2, h3, h4, h5⟩
  | launchDone i e n => exact absurd rfl (hnd i e n)
  | cleanup => simp [MgrStep.isAcquire] at hl
  | reaperTick n => simp [MgrStep.isAcquire] at hl
  | closeDone b ok => simp [MgrStep.isAcquire] at hl
  | disconnect b => simp [MgrStep.isAcquire] at hl
  | markUsed n => simp [MgrStep.isAcquire] at hl

theorem run_cons (cfg : Config) (s : Manager) (l : MgrStep) (rest : List MgrStep) :
    Manager.run cfg s (l :: rest) = Manager.run cfg (s.step cfg l) rest := rfl

/-- Only a `call` step invokes `puppeteer.launch`. -/
theorem launches_step_of_not_call (cfg : Config) (s : Manager) (l : MgrStep)
    (h : l.isCall = false) : (s.step cfg l).launches = s.launches := by
  cases l with
  | call i => simp [MgrStep.isCall] at h
  | launchDone i e n =>
    simp only [Manager.step, Manager.launchDone]
    split
    · split <;> rfl
    · rfl
  | wake i =>
    simp only [Manager.step, Manager.wake]
    split
    · split <;> rfl
    · rfl
  | cleanup => simp only [Manager.step, Manager.cleanup]; split <;> rfl
  | reaperTick n =>
    simp only [Manager.step, Manager.reaperTick, Manager.cleanup]
    split
    · split
      · split <;> rfl
      · rfl
    · rfl
  | closeDone b ok => simp only [Manager.step, Manager.closeDone]; split <;> rfl
  | disconnect b => simp only [Manager.step, Manager.disconnect]; split <;> rfl
  | markUsed n => rfl

theorem launches_run_of_no_call (cfg : Config) (steps : List MgrStep) (s : Manager)
    (h : steps.all (fun l => !l.isCall) = true) :
    (Manager.run cfg s steps).launches = s.launches := by
  induction steps generalizing s with
  | nil => rfl
  | cons l rest ih =>
    simp only [List.all_cons, Bool.and_eq_true, Bool.not_eq_true'] at h
    rw [run_cons, ih _ h.2, launches_step_of_not_call cfg s l h.1]

theorem launches_step_mono (cfg : Config) (s : Manager) (l : MgrStep) :
    s.launches ≤ (s.step cfg l).launches := by
  cases hc : l.isCall with
  | false => rw [launches_step_of_not_call cfg s l hc]
  | true =>
    cases l with
    | call i =>
      simp only [Manager.step, Manager.call]
      split
      · split
        · exact Nat.le_refl _
        · split
          · exact Nat.le_refl _
          · exact Nat.le_succ _
      · exact Nat.le_refl _
    | _ => simp [MgrStep.isCall] at hc

/-- Concurrent calls cause at most one launch, whether it succeeds or not. -/
theorem launches_le_one_of_concurrent (cfg : Config) (steps : List MgrStep) (s : Manager)
    (hacq : ∀ l ∈ steps, l.isAcquire = true) (hc : startsBeforeSettle steps = true)
    (h : s.Phase0 ∨ ∃ i0, s.Phase1 i0) : (Manager.run cfg s steps).launches ≤ 1 := by
  have hs : s.launches ≤ 1 := by
    rcases h with ⟨_, _, h3, _⟩ | ⟨_, _, _, h3, _⟩ <;> omega
  induction steps generalizing s with
  | nil => exact hs
  | cons l rest ih =>
    rw [run_cons]
    have hl := hacq l (List.mem_cons_self _ _)
    have hrest : ∀ l' ∈ rest, l'.isAcquire = true := fun l' hl' =>
      hacq l' (List.mem_cons_of_mem _ hl')
    cases l with
    | launchDone i e n =>
      simp only [startsBeforeSettle] at hc
      rw [launches_run_of_no_call cfg rest _ hc,
        launches_step_of_not_call cfg s _ (by rfl)]
      exact hs
    | call i =>
      have hp := phase01_step cfg s (.call i) hl (fun _ _ _ => by simp) h
      have hs' : (s.step cfg (.call i)).launches ≤ 1 := by
        rcases hp with ⟨_, _, h3, _⟩ | ⟨_, _, _, h3, _⟩ <;> omega
      exact ih _ hrest (by simpa [startsBeforeSettle] using hc) hp hs'
    | wake i =>
      have hp := phase01_step cfg s (.wake i) hl (fun _ _ _ => by simp) h
      have hs' : (s.step cfg (.wake i)).launches ≤ 1 := by
        rcases hp with ⟨_, _, h3, _⟩ | ⟨_, _, _, h3, _⟩ <;> omega
      exact ih _ hrest (by simpa [startsBeforeSettle] using hc) hp hs'
    | cleanup => simp [MgrStep.isAcquire] at hl
    | reaperTick n => simp [MgrStep.isAcquire] at hl
    | closeDone b ok => simp [MgrStep.isAcquire] at hl
    | disconnect b => simp [MgrStep.isAcquire] at hl
    | markUsed n => simp [MgrStep.isAcquire] at hl

theorem init_phase0 (N : Nat) : (Manager.init N).Phase0 := by
  refine ⟨rfl, rfl, rfl, ?_⟩
  intro i c h
  simp only [Manager.init] at h
  rw [List.getElem?_replicate] at h
  split at h
  · exact (Option.some.inj h).symm
  · exact absurd h (by simp)

/-- While no launch fails, steps of `getBrowserInstance` calls keep the
manager in one of the three phases. -/
theorem phase012_step (cfg : Config) (s : Manager) (l : MgrStep)
    (hl : l.isAcquire = true) (hf : l.launchFails = false)
    (h : s.Phase0 ∨ (∃ i0, s.Phase1 i0) ∨ ∃ b, s.Phase2 b) :
    (s.step cfg l).Phase0 ∨ (∃ i0, (s.step cfg l).Phase1 i0) ∨ ∃ b, (s.step cfg l).Phase2 b := by
  rcases h with h | h | ⟨b, h1, h2, h3, h4⟩
  · -- no launch yet
    cases l with
    | launchDone i e n =>
      obtain ⟨h1, h2, h3, h4⟩ := h
      simp only [Manager.step, Manager.launchDone]
      cases hc : s.calls[i]? with
      | none => exact Or.inl ⟨h1, h2, h3, h4⟩
      | some c =>
        have hci := h4 i c hc
        subst hci
        exact Or.inl ⟨h1, h2, h3, h4⟩
    | call i =>
      rcases phase01_step cfg s (.call i) hl (fun _ _ _ => by simp) (Or.inl h) with r | r
      · exact Or.inl r
      · exact Or.inr (Or.inl r)
    | wake i =>
      rcases phase01_step cfg s (.wake i) hl (fun _ _ _ => by simp) (Or.inl h) with r | r
      · exact Or.inl r
      · exact Or.inr (Or.inl r)
    | cleanup => simp [MgrStep.isAcquire] at hl
    | reaperTick n => simp [MgrStep.isAcquire] at hl
    | closeDone b ok => simp [MgrStep.isAcquire] at hl
    | disconnect b => simp [MgrStep.isAcquire] at hl
    | markUsed n => simp [MgrStep.isAcquire] at hl
  · -- the launch is awaited
    cases l with
    | launchDone i e n =>
      obtain ⟨i0, h1, h2, h3, h4, h5⟩ := h
      cases e with
      | some msg => simp [MgrStep.launchFails] at hf
      | none =>
        simp only [Manager.step, Manager.launchDone]
        cases hc : s.calls[i]? with
        | none => exact Or.inr (Or.inl ⟨i0, h1, h2, h3, h4, h5⟩)
        | some c =>
          by_cases hi : i = i0
          · subst hi
            rw [hc] at h4
            cases Option.some.inj h4
            refine Or.inr (Or.inr ⟨i, rfl, rfl, h3, ?_⟩)
            intro j c hj
            rcases getElem?_set_cases _ _ _ _ _ hj with ⟨_, e⟩ | ⟨hne, hj'⟩
            · exact Or.inr (Or.inr e)
            · rcases h5 j c hj' hne with e | e
              · exact Or.inl e
              · exact Or.inr (Or.inl e)
          · rcases h5 i c hc hi with hc' | hc' <;> subst hc' <;>
              exact Or.inr (Or.inl ⟨i0, h1, h2, h3, h4, h5⟩)
    | call i =>
      rcases phase01_step cfg s (.call i) hl (fun _ _ _ => by simp) (Or.inr h) with r | r
      · exact Or.inl r
      · exact Or.inr (Or.inl r)
    | wake i =>
      rcases phase01_step cfg s (.wake i) hl (fun _ _ _ => by simp) (Or.inr h) with r | r
      · exact Or.inl r
      · exact Or.inr (Or.inl r)
    | cleanup => simp [MgrStep.isAcquire] at hl
    | reaperTick n => simp [MgrStep.isAcquire] at hl
    | closeDone b ok => simp [MgrStep.isAcquire] at hl
    | disconnect b => simp [MgrStep.isAcquire] at hl
    | markUsed n => simp [MgrStep.isAcquire] at hl
  · -- the instance is held
    refine Or.inr (Or.inr ⟨b, ?_⟩)
    cases l with
    | launchDone i e n =>
      simp only [Manager.step, Manager.launchDone]
      cases hc : s.calls[i]? with
      | none => exact ⟨h1, h2, h3, h4⟩
      | some c =>
        rcases h4 i c hc with hc' | hc' | hc' <;> subst hc' <;> exact ⟨h1, h2, h3, h4⟩
    | call i =>
      simp only [Manager.step, Manager.call]
      cases hc : s.calls[i]? with
      | none => exact ⟨h1, h2, h3, h4⟩
      | some c =>
        rcases h4 i c hc with hc' | hc' | hc' <;> subst hc'
        · simp only [h1]
          refine ⟨rfl, h2, h3, ?_⟩
          intro j c hj
          rcases getElem?_set_cases _ _ _ _ _ hj with ⟨_, e⟩ | ⟨_, hj'⟩
          · exact Or.inr (Or.inr e)
          · exact h4 j c hj'
        · exact ⟨h1, h2, h3, h4⟩
        · exact ⟨h1, h2, h3, h4⟩
    | wake i =>
      simp only [Manager.step, Manager.wake]
      cases hc : s.calls[i]? with
      | none => exact ⟨h1, h2, h3, h4⟩
      | some c =>
        rcases h4 i c hc with hc' | hc' | hc' <;> subst hc'
        · exact ⟨h1, h2, h3, h4⟩
        · simp only [h2, h1, Bool.false_eq_true, if_false]
          refine ⟨rfl, rfl, h3, ?_⟩
          intro j c hj
          rcases getElem?_set_cases _ _ _ _ _ hj with ⟨_, e⟩ | ⟨_, hj'⟩
          · exact Or.inr (Or.inr e)
          · exact h4 j c hj'
        · exact ⟨h1, h2, h3, h4⟩
    | cleanup => simp [MgrStep.isAcquire] at hl
    | reaperTick n => simp [MgrStep.isAcquire] at hl
    | closeDone b ok => simp [MgrStep.isAcquire] at hl
    | disconnect b => simp [MgrStep.isAcquire] at hl
    | markUsed n => simp [MgrStep.isAcquire] at hl

theorem phase012_run (cfg : Config) (steps : List MgrStep) (s : Manager)
    (hacq : ∀ l ∈ steps, l.isAcquire = true) (hf : ∀ l ∈ steps, l.launchFails = false)
    (h : s.Phase0 ∨ (∃ i0, s.Phase1 i0) ∨ ∃ b, s.Phase2 b) :
    (Manager.run cfg s steps).Phase0 ∨ (∃ i0, (Manager.run cfg s steps).Phase1 i0) ∨
      ∃ b, (Manager.run cfg s steps).Phase2 b := by
  induction steps generalizing s with
  | nil => exact h
  | cons l rest ih =>
    rw [run_cons]
    exact ih _ (fun l' hl' => hacq l' (List.mem_cons_of_mem _ hl'))
      (fun l' hl' => hf l' (List.mem_cons_of_mem _ hl'))
      (phase012_step cfg s l (hacq l (List.mem_cons_self _ _)) (hf l (List.mem_cons_self _ _)) h)

theorem calls_length_step (cfg : Config) (s : Manager) (l : MgrStep) :
    (s.step cfg l).calls.length = s.calls.length := by
  cases l with
  | call i =>
    simp only [Manager.step, Manager.call]
    split
    · split
      · simp
      · split <;> simp
    · rfl
  | launchDone i e n =>
    simp only [Manager.step, Manager.launchDone]
    split
    · split <;> simp
    · rfl
  | wake i =>
    simp only [Manager.step, Manager.wake]
    split
    · split
      · rfl
      · simp
    · rfl
  | cleanup => simp only [Manager.step, Manager.cleanup]; split <;> rfl
  | reaperTick n =>
    simp only [Manager.step, Manager.reaperTick, Manager.cleanup]
    split
    · split
      · split <;> rfl
      · rfl
    · rfl
  | closeDone b ok => simp only [Manager.step, Manager.closeDone]; split <;> rfl
  | disconnect b => simp only [Manager.step, Manager.disconnect]; split <;> rfl
  | markUsed n => rfl

theorem calls_length_run (cfg : Config) (steps : List MgrStep) (s : Manager) :
    (Manager.run cfg s steps).calls.length = s.calls.length := by
  induction steps generalizing s with
  | nil => rfl
  | cons l rest ih => rw [run_cons, ih, calls_length_step]

/-- With the instance held, starting call `k` (if it has not started) and
letting its sleep elapse resolves it to the instance and touches no other
call. -/
theorem phase2_call_wake (s : Manager) (b k : Nat) (h : s.Phase2 b) :
    ((s.call k).wake k).Phase2 b ∧ ((s.call k).wake k).launches = s.launches ∧
    (∀ c, ((s.call k).wake k).calls[k]? = some c → c = .resolved (some b)) ∧
    (∀ i, i ≠ k → ((s.call k).wake k).calls[i]? = s.calls[i]?) := by
  obtain ⟨h1, h2, h3, h4⟩ := h
  cases hc : s.calls[k]? with
  | none =>
    have e : (s.call k).wake k = s := by
      simp [Manager.call, Manager.wake, hc]
    rw [e]
    exact ⟨⟨h1, h2, h3, h4⟩, rfl, fun c hk => by rw [hc] at hk; exact absurd hk (by simp),
      fun _ _ => rfl⟩
  | some c =>
    rcases h4 k c hc with hc' | hc' | hc' <;> subst hc'
    · have hk : (s.calls.set k (.resolved (some b)))[k]? = some (.resolved (some b)) :=
        getElem?_set_of_some _ _ _ _ hc
      have e : (s.call k).wake k =
          { s with lastBrowserWasNew := false, calls := s.calls.set k (.resolved (some b)) } := by
        simp [Manager.call, Manager.wake, hc, h1, hk]
      rw [e]
      refine ⟨⟨h1, h2, h3, ?_⟩, rfl, ?_, ?_⟩
      · intro j c hj
        rcases getElem?_set_cases _ _ _ _ _ hj with ⟨_, e⟩ | ⟨_, hj'⟩
        · exact Or.inr (Or.inr e)
        · exact h4 j c hj'
      · intro c hk'
        rw [hk] at hk'
        exact (Option.some.inj hk').symm
      · intro i hi
        exact List.getElem?_set_ne (Ne.symm hi)
    · have hk : (s.calls.set k (.resolved (some b)))[k]? = some (.resolved (some b)) :=
        getElem?_set_of_some _ _ _ _ hc
      have e : (s.call k).wake k =
          { s with lastBrowserWasNew := false, calls := s.calls.set k (.resolved (some b)) } := by
        simp [Manager.call, Manager.wake, hc, h1, h2]
      rw [e]
      refine ⟨⟨h1, h2, h3, ?_⟩, rfl, ?_, ?_⟩
      · intro j c hj
        rcases getElem?_set_cases _ _ _ _ _ hj with ⟨_, e⟩ | ⟨_, hj'⟩
        · exact Or.inr (Or.inr e)
        · exact h4 j c hj'
      · intro c hk'
        rw [hk] at hk'
        exact (Option.some.inj hk').symm
      · intro i hi
        exact List.getElem?_set_ne (Ne.symm hi)
    · have e : (s.call k).wake k = s := by
        simp [Manager.call, Manager.wake, hc]
      rw [e]
      exact ⟨⟨h1, h2, h3, h4⟩, rfl, fun c hk => by rw [hc] at hk; exact (Option.some.inj hk).symm,
        fun _ _ => rfl⟩

/-- With the instance held, `finishCalls k` resolves the calls below `k` to
it, keeps the resolved ones and launches nothing. -/
theorem finishCalls_resolves (cfg : Config) (b : Nat) (k : Nat) (s : Manager)
    (h : s.Phase2 b) :
    (Manager.run cfg s (finishCalls k)).Phase2 b ∧
    (Manager.run cfg s (finishCalls k)).launches = s.launches ∧
    ∀ i c, (Manager.run cfg s (finishCalls k)).calls[i]? = some c →
      (i < k ∨ s.calls[i]? = some (.resolved (some b))) → c = .resolved (some b) := by
  induction k generalizing s with
  | zero =>
    refine ⟨h, rfl, ?_⟩
    intro i c hc hi
    rcases hi with hi | hi
    · omega
    · simp only [finishCalls, Manager.run, List.foldl_nil] at hc
      rw [hc] at hi
      exact Option.some.inj hi
  | succ k ih =>
    obtain ⟨p, hl, hk, hne⟩ := phase2_call_wake s b k h
    have hrun : Manager.run cfg s (finishCalls (k + 1))
        = Manager.run cfg ((s.call k).wake k) (finishCalls k) := rfl
    rw [hrun]
    obtain ⟨q1, q2, q3⟩ := ih _ p
    refine ⟨q1, q2.trans hl, ?_⟩
    intro i c hc hi
    by_cases hik : i = k
    · subst hik
      cases hx : ((s.call i).wake i).calls[i]? with
      | none =>
        have hlen := calls_length_run cfg (finishCalls i) ((s.call i).wake i)
        have h1 : ((s.call i).wake i).calls.length ≤ i := by
          by_contra hn
          rw [List.getElem?_eq_getElem (Nat.lt_of_not_le hn)] at hx
          exact absurd hx (by simp)
        rw [List.getElem?_eq_none (by omega)] at hc
        exact absurd hc (by simp)
      | some x =>
        have hxr := hk x hx
        subst hxr
        exact q3 i c hc (Or.inr hx)
    · apply q3 i c hc
      rcases hi with hi | hi
      · exact Or.inl (by omega)
      · exact Or.inr (by rw [hne i hik]; exact hi)

/-- A manager that has launched nothing is in the phase with no call
started; steps of `getBrowserInstance` calls keep this. -/
theorem zero_launches_step (cfg : Config) (s : Manager) (l : MgrStep)
    (hl : l.isAcquire = true) (h : s.launches = 0 → s.Phase0) :
    (s.step cfg l).launches = 0 → (s.step cfg l).Phase0 := by
  intro h0
  have hs0 : s.launches = 0 := by
    have := launches_step_mono cfg s l
    omega
  have hp := h hs0
  obtain ⟨h1, h2, h3, h4⟩ := hp
  cases l with
  | call i =>
    simp only [Manager.step, Manager.call] at h0 ⊢
    cases hc : s.calls[i]? with
    | none => exact ⟨h1, h2, h3, h4⟩
    | some c =>
      have hci := h4 i c hc
      subst hci
      simp [hc, h1, h2] at h0
  | launchDone i e n =>
    simp only [Manager.step, Manager.launchDone]
    cases hc : s.calls[i]? with
    | none => exact ⟨h1, h2, h3, h4⟩
    | some c =>
      have hci := h4 i c hc
      subst hci
      exact ⟨h1, h2, h3, h4⟩
  | wake i =>
    simp only [Manager.step, Manager.wake]
    cases hc : s.calls[i]? with
    | none => exact ⟨h1, h2, h3, h4⟩
    | some c =>
      have hci := h4 i c hc
      subst hci
      exact ⟨h1, h2, h3, h4⟩
  | cleanup => simp [MgrStep.isAcquire] at hl
  | reaperTick n => simp [MgrStep.isAcquire] at hl
  | closeDone b ok => simp [MgrStep.isAcquire] at hl
  | disconnect b => simp [MgrStep.isAcquire] at hl
  | markUsed n => simp [MgrStep.isAcquire] at hl

theorem zero_launches_run (cfg : Config) (steps : List MgrStep) (s : Manager)
    (hacq : ∀ l ∈ steps, l.isAcquire = true) (h : s.launches = 0 → s.Phase0) :
    (Manager.run cfg s steps).launches = 0 → (Manager.run cfg s steps).Phase0 := by
  induction steps generalizing s with
  | nil => exact h
  | cons l rest ih =>
    rw [run_cons]
    exact ih _ (fun l' hl' => hacq l' (List.mem_cons_of_mem _ hl'))
      (zero_launches_step cfg s l (hacq l (List.mem_cons_self _ _)) h)

/-- C13. For `N` calls of `getBrowserInstance` made from the state with no
instance and no initialization in progress, in any interleaving of their
steps: (1) when the calls are concurrent (all started before a launch
settles), `puppeteer.launch` is invoked at most once, whatever its outcome;
(2) when no launch fails, it is invoked at most once in every interleaving,
and once an instance `b` is held it was invoked exactly once, every call
that has settled resolved to `b`, and letting the remaining calls run
resolves all `N` calls to `b` without another launch; (3) as soon as one
call has started, the launch has been invoked. -/
theorem singleton_launch (cfg : Config) (N : Nat) (steps : List MgrStep)
    (hacq : ∀ l ∈ steps, l.isAcquire = true) :
    (startsBeforeSettle steps = true →
      (Manager.run cfg (Manager.init N) steps).launches ≤ 1) ∧
    ((∀ l ∈ steps, l.launchFails = false) →
      (Manager.run cfg (Manager.init N) steps).launches ≤ 1 ∧
      ∀ b, (Manager.run cfg (Manager.init N) steps).browserInstance = some b →
        (Manager.run cfg (Manager.init N) steps).launches = 1 ∧
        (∀ (i : Nat) (c : CallState),
          (Manager.run cfg (Manager.init N) steps).calls[i]? = some c →
            c = .idle ∨ c = .polling ∨ c = .resolved (some b)) ∧
        (Manager.run cfg (Manager.run cfg (Manager.init N) steps) (finishCalls N)).calls
          = List.replicate N (.resolved (some b)) ∧
        (Manager.run cfg (Manager.run cfg (Manager.init N) steps) (finishCalls N)).launches
          = 1) ∧
    ((∃ (i : Nat) (c : CallState),
        (Manager.run cfg (Manager.init N) steps).calls[i]? = some c ∧ c ≠ .idle) →
      1 ≤ (Manager.run cfg (Manager.init N) steps).launches) := by
  refine ⟨?_, ?_, ?_⟩
  · intro hc
    exact launches_le_one_of_concurrent cfg steps _ hacq hc (Or.inl (init_phase0 N))
  · intro hf
    have hp := phase012_run cfg steps (Manager.init N) hacq hf (Or.inl (init_phase0 N))
    have hlen : (Manager.run cfg (Manager.init N) steps).calls.length = N := by
      rw [calls_length_run]
      simp [Manager.init]
    constructor
    · rcases hp with ⟨_, _, h3, _⟩ | ⟨_, _, _, h3, _⟩ | ⟨_, _, _, h3, _⟩ <;> omega
    · intro b hb
      have hp2 : (Manager.run cfg (Manager.init N) steps).Phase2 b := by
        rcases hp with ⟨h1, _⟩ | ⟨_, h1, _⟩ | ⟨b', h1, h2, h3, h4⟩
        · rw [h1] at hb; exact absurd hb (by simp)
        · rw [h1] at hb; exact absurd hb (by simp)
        · rw [h1] at hb
          cases Option.some.inj hb
          exact ⟨h1, h2, h3, h4⟩
      obtain ⟨q1, q2, q3⟩ := finishCalls_resolves cfg b N _ hp2
      refine ⟨hp2.2.2.1, hp2.2.2.2, ?_, q2.trans hp2.2.2.1⟩
      rw [List.eq_replicate_iff]
      constructor
      · rw [calls_length_run, hlen]
      · intro c hc
        obtain ⟨i, hi, hci⟩ := List.getElem_of_mem hc
        have hi' : i < N := by
          rw [calls_length_run, hlen] at hi
          exact hi
        exact q3 i c (by rw [List.getElem?_eq_getElem hi, hci]) (Or.inl hi')
  · rintro ⟨i, c, hc, hne⟩
    by_contra hn
    have h0 : (Manager.run cfg (Manager.init N) steps).launches = 0 := by omega
    have hp := zero_launches_run cfg steps (Manager.init N) hacq (fun _ => init_phase0 N) h0
    exact hne (hp.2.2.2 i c hc)

/-- C13 at three calls: two start, the launch of the first succeeds, the
third starts afterwards. -/
theorem singleton_launch_witness :
    (Manager.run defaultConfig (Manager.init 3)
      [.call 0, .call 1, .launchDone 0 none 1000, .call 2]).launches = 1 ∧
    (Manager.run defaultConfig
      (Manager.run defaultConfig (Manager.init 3)
        [.call 0, .call 1, .launchDone 0 none 1000, .call 2])
      (finishCalls 3)).calls = List.replicate 3 (.resolved (some 0)) :=
  ⟨(((singleton_launch defaultConfig 3 [.call 0, .call 1, .launchDone 0 none 1000, .call 2]
      (by decide)).2.1 (by decide)).2 0 (by decide)).1,
   (((singleton_launch defaultConfig 3 [.call 0, .call 1, .launchDone 0 none 1000, .call 2]
      (by decide)).2.1 (by decide)).2 0 (by decide)).2.2.1⟩

/-- C14 fails for the waiting calls. Two calls start with no instance; the
launch of the first fails. The first call rejects with the launch error,
but the second, which waited in the polling loop, leaves the loop and
resolves to `null`. -/
theorem waiter_resolves_null_after_failed_launch :
    (Manager.run defaultConfig (Manager.init 2)
      [.call 0, .call 1, .launchDone 0 (some "Failed to launch the browser process") 1000,
       .wake 1]).calls
      = [.rejected "Failed to launch the browser process", .resolved none] := by
  decide

/-- C15 fails. Instance 0 is launched; an idle reaper tick starts
`cleanupBrowser`, which awaits its `close()`; the closing instance emits
`'disconnected'`, which clears the reference;
a new call launches instance 1; the pending `cleanupBrowser` resumes and
clears the reference to instance 1 without closing it; the next call
launches instance 2. Instances 1 and 2 are both launched and neither closed
nor disconnected. -/
theorem two_live_instances :
    (Manager.run defaultConfig (Manager.init 3)
      [.call 0, .launchDone 0 none 1000, .reaperTick 400000, .disconnect 0, .call 1,
       .launchDone 1 none 400500, .closeDone 0 true, .call 2, .launchDone 2 none 401000]).live
      = [1, 2] ∧
    (Manager.run defaultConfig (Manager.init 3)
      [.call 0, .launchDone 0 none 1000, .reaperTick 400000, .disconnect 0, .call 1,
       .launchDone 1 none 400500, .closeDone 0 true]).browserInstance = none ∧
    (Manager.run defaultConfig (Manager.init 3)
      [.call 0, .launchDone 0 none 1000, .reaperTick 400000, .disconnect 0, .call 1,
       .launchDone 1 none 400500, .closeDone 0 true]).live = [1] := by
  decide

/-- C16 as stated fails at equality: an instance last used at 1000 ms is
kept by a reaper tick at exactly `1000 + BROWSER_IDLE_MAX_MS`; no close is
started, the reference stays, and the next call returns the old instance
without a launch. -/
theorem reaper_keeps_instance_at_equality :
    (301000 : Int) - 1000 ≥ defaultConfig.BROWSER_IDLE_MAX_MS ∧
    (Manager.run defaultConfig (Manager.init 2)
      [.call 0, .launchDone 0 none 1000, .reaperTick 301000]).closing = [] ∧
    (Manager.run defaultConfig (Manager.init 2)
      [.call 0, .launchDone 0 none 1000, .reaperTick 301000]).browserInstance = some 0 ∧
    (Manager.run defaultConfig (Manager.init 2)
      [.call 0, .launchDone 0 none 1000, .reaperTick 301000, .call 1]).calls
      = [.resolved (some 0), .resolved (some 0)] ∧
    (Manager.run defaultConfig (Manager.init 2)
      [.call 0, .launchDone 0 none 1000, .reaperTick 301000, .call 1]).launches = 1 := by
  decide

/-- C16, amended. With the reaper installed (`BROWSER_IDLE_MAX_MS > 0`), an
instance `b` held, `lastBrowserUseTs` non-zero and
`now - lastBrowserUseTs > BROWSER_IDLE_MAX_MS` at a reaper tick, the tick
starts `cleanupBrowser` on `b`; when its `close()` settles, with or without
an error, the held reference is `null`; and the next `getBrowserInstance`
call (none initializing) invokes the launch. -/
theorem reaper_releases_idle (cfg : Config) (s : Manager) (b i : Nat) (now : Int) (ok : Bool)
    (hmax : 0 < cfg.BROWSER_IDLE_MAX_MS)
    (hinst : s.browserInstance = some b)
    (huse : s.lastBrowserUseTs ≠ 0)
    (hidle : cfg.BROWSER_IDLE_MAX_MS < now - s.lastBrowserUseTs)
    (hinit : s.browserInitializing = false)
    (hcall : s.calls[i]? = some .idle) :
    b ∈ (s.reaperTick cfg now).closing ∧
    ((s.reaperTick cfg now).closeDone b ok).browserInstance = none ∧
    (((s.reaperTick cfg now).closeDone b ok).call i).calls[i]? = some .launching ∧
    (((s.reaperTick cfg now).closeDone b ok).call i).launches = s.launches + 1 := by
  have e1 : s.reaperTick cfg now = { s with closing := b :: s.closing } := by
    simp [Manager.reaperTick, Manager.cleanup, hmax, hinst, huse, hidle]
  have e2 : ({ s with closing := b :: s.closing } : Manager).closeDone b ok =
      { s with browserInstance := none, closing := s.closing,
               closed := if ok then s.closed ++ [b] else s.closed } := by
    simp [Manager.closeDone]
  rw [e1, e2]
  refine ⟨by simp, rfl, ?_, ?_⟩
  · simp only [Manager.call, hcall, hinit, Bool.false_eq_true, if_false]
    exact getElem?_set_of_some _ _ _ _ hcall
  · simp only [Manager.call, hcall, hinit, Bool.false_eq_true, if_false]

/-- C16, amended, one millisecond past the idle maximum. -/
theorem reaper_releases_idle_witness :
    0 ∈ ((Manager.run defaultConfig (Manager.init 2) [.call 0, .launchDone 0 none 1000]).reaperTick
      defaultConfig 301001).closing ∧
    (((Manager.run defaultConfig (Manager.init 2) [.call 0, .launchDone 0 none 1000]).reaperTick
      defaultConfig 301001).closeDone 0 true).browserInstance = none ∧
    ((((Manager.run defaultConfig (Manager.init 2) [.call 0, .launchDone 0 none 1000]).reaperTick
      defaultConfig 301001).closeDone 0 true).call 1).calls[1]? = some .launching ∧
    ((((Manager.run defaultConfig (Manager.init 2) [.call 0, .launchDone 0 none 1000]).reaperTick
      defaultConfig 301001).closeDone 0 true).call 1).launches
      = (Manager.run defaultConfig (Manager.init 2) [.call 0, .launchDone 0 none 1000]).launches
        + 1 :=
  reaper_releases_idle defaultConfig
    (Manager.run defaultConfig (Manager.init 2) [.call 0, .launchDone 0 none 1000]) 0 1 301001
    true (by decide) (by decide) (by decide) (by decide) (by decide) (by decide)



/-! ## The live update channel -/

/-- C17 as stated fails: a message that is not valid JSON gets no reply at
all (the handler returns from the `catch` of `JSON.parse`). -/
theorem invalid_json_gets_no_reply :
    (wsOnMessage defaultConfig sampleEnv freshWorld (WsSession.connect 0) .notJson).replies
      = [] := by
  decide

/-- C17, amended. A message that parses to an object of `type` `'render'`
whose `mermaid` is not a non-empty string, or is longer than 20000 code
units, gets exactly one error reply, causes no `convertMermaid` call and
leaves the session as it was (open). A message that is not valid JSON, or
an object whose `type` is not `'render'`, gets no reply, causes no
`convertMermaid` call and leaves the session as it was. -/
theorem ws_rejects_bad_command (cfg : Config) (env : Env) (w : World) (ws : WsSession)
    (o : JsObject)
    (htype : o.get "type" = .str "render")
    (hbad : ∀ code, o.get "mermaid" = .str code → code = "" ∨ 20000 < jsLength code) :
    ((∃ msg, (wsOnMessage cfg env w ws (.jsonObject o)).replies = [.error msg]) ∧
      (wsOnMessage cfg env w ws (.jsonObject o)).converted = [] ∧
      (wsOnMessage cfg env w ws (.jsonObject o)).session = ws) ∧
    ((wsOnMessage cfg env w ws .notJson).replies = [] ∧
      (wsOnMessage cfg env w ws .notJson).converted = [] ∧
      (wsOnMessage cfg env w ws .notJson).session = ws) ∧
    (∀ o' : JsObject, o'.get "type" ≠ .str "render" →
      (wsOnMessage cfg env w ws (.jsonObject o')).replies = [] ∧
      (wsOnMessage cfg env w ws (.jsonObject o')).converted = [] ∧
      (wsOnMessage cfg env w ws (.jsonObject o')).session = ws) := by
  refine ⟨?_, ⟨rfl, rfl, rfl⟩, ?_⟩
  · cases hm : o.get "mermaid" with
    | str code =>
      rcases hbad code hm with hc | hc
      · simp [wsOnMessage, htype, hm, hc]
      · by_cases he : code = ""
        · simp [wsOnMessage, htype, hm, he]
        · simp [wsOnMessage, htype, hm, he, hc]
    | undefined => simp [wsOnMessage, htype, hm]
    | null => simp [wsOnMessage, htype, hm]
    | bool v => simp [wsOnMessage, htype, hm]
    | num n => simp [wsOnMessage, htype, hm]
  · intro o' ht
    simp [wsOnMessage, ht]

/-- C17, amended, at a render command without a diagram source. -/
theorem ws_rejects_bad_command_witness :
    (∃ msg, (wsOnMessage defaultConfig sampleEnv freshWorld (WsSession.connect 0)
        (.jsonObject [("type", .str "render")])).replies = [.error msg]) ∧
    (wsOnMessage defaultConfig sampleEnv freshWorld (WsSession.connect 0)
        (.jsonObject [("type", .str "render")])).converted = [] ∧
    (wsOnMessage defaultConfig sampleEnv freshWorld (WsSession.connect 0)
        (.jsonObject [("type", .str "render")])).session = WsSession.connect 0 :=
  (ws_rejects_bad_command defaultConfig sampleEnv freshWorld (WsSession.connect 0)
    [("type", .str "render")] (by decide)
    (fun code h => by
      have hu : JsObject.get [("type", JsVal.str "render")] "mermaid" = .undefined := by decide
      rw [hu] at h
      cases h)).1

/-- The message handler stamps `lastActivity` exactly for the messages it
takes as render commands, and changes nothing else of the session. -/
theorem wsOnMessage_session (cfg : Config) (env : Env) (w : World) (ws : WsSession)
    (m : WsInbound) (hopen : ws.isOpen = true) :
    (wsOnMessage cfg env w ws m).session = ws.onMessage w.clock m := by
  cases m with
  | notJson => simp [wsOnMessage, WsSession.onMessage, acceptable]
  | jsonNull => simp [wsOnMessage, WsSession.onMessage, acceptable]
  | jsonScalar => simp [wsOnMessage, WsSession.onMessage, acceptable]
  | jsonObject o =>
    by_cases ht : o.get "type" = .str "render"
    · cases hm : o.get "mermaid" with
      | str code =>
        by_cases he : code = ""
        · simp [wsOnMessage, WsSession.onMessage, acceptable, ht, hm, he]
        · by_cases hc : 20000 < jsLength code
          · have hc2 : ¬ jsLength code ≤ 20000 := by omega
            simp [wsOnMessage, WsSession.onMessage, acceptable, ht, hm, he, hc, hc2]
          · have hc' : jsLength code ≤ 20000 := by omega
            have hacc : acceptable (.jsonObject o) = true := by
              simp [acceptable, ht, hm, he, hc']
            have hs : ws.onMessage w.clock (.jsonObject o)
                = { ws with lastActivity := w.clock } := by
              simp [WsSession.onMessage, hacc, hopen]
            rw [hs]
            simp only [wsOnMessage, ht, hm, he, hc, ne_eq, not_true_eq_false, if_false]
            split
            · rfl
            · rfl
            · split
              · rfl
              · split <;> rfl
      | undefined => simp [wsOnMessage, WsSession.onMessage, acceptable, ht, hm]
      | null => simp [wsOnMessage, WsSession.onMessage, acceptable, ht, hm]
      | bool v => simp [wsOnMessage, WsSession.onMessage, acceptable, ht, hm]
      | num n => simp [wsOnMessage, WsSession.onMessage, acceptable, ht, hm]
    · simp [wsOnMessage, WsSession.onMessage, acceptable, ht]



/-! ## Heartbeat, idle close and client throttle -/

theorem session_run_cons (cfg : Config) (s : WsSession) (e : WsEvent) (rest : List WsEvent) :
    WsSession.run cfg s (e :: rest) = WsSession.run cfg (s.apply cfg e) rest := rfl

/-- Inbound messages change neither `isAlive` nor whether the session is
open. -/
theorem messages_keep_liveness (cfg : Config) (evs : List WsEvent) (s : WsSession)
    (h : ∀ e ∈ evs, e.isMessage = true) :
    (WsSession.run cfg s evs).isAlive = s.isAlive ∧
    (WsSession.run cfg s evs).isOpen = s.isOpen := by
  induction evs generalizing s with
  | nil => exact ⟨rfl, rfl⟩
  | cons e rest ih =>
    rw [session_run_cons]
    have he := h e (List.mem_cons_self _ _)
    obtain ⟨i1, i2⟩ := ih (s.apply cfg e) (fun e' he' => h e' (List.mem_cons_of_mem _ he'))
    cases e with
    | message now m =>
      have e1 : (s.apply cfg (.message now m)).isAlive = s.isAlive := by
        simp only [WsSession.apply, WsSession.onMessage]; split <;> rfl
      have e2 : (s.apply cfg (.message now m)).isOpen = s.isOpen := by
        simp only [WsSession.apply, WsSession.onMessage]; split <;> rfl
      exact ⟨i1.trans e1, i2.trans e2⟩
    | tick now => simp [WsEvent.isMessage] at he
    | pong now => simp [WsEvent.isMessage] at he

/-- The reason of an idle termination is not the reason of a missing
pong. -/
theorem idle_reason_ne_pong_missing (t : String) : "idle>" ++ t ≠ "pong-missing" := by
  intro h
  have h1 := congrArg (fun x : String => x.data.head?) h
  simp [String.data_append] at h1

/-- While every probe is answered, no step terminates the session for a
missing pong. -/
theorem answered_run (cfg : Config) (evs : List WsEvent) (s : WsSession)
    (hans : everyProbeAnswered evs = true)
    (hr : s.terminateReason ≠ some "pong-missing")
    (ha : s.isOpen = true → s.isAlive = true ∨ pongBeforeTick evs = true) :
    (WsSession.run cfg s evs).terminateReason ≠ some "pong-missing" := by
  induction evs generalizing s with
  | nil => exact hr
  | cons e rest ih =>
    rw [session_run_cons]
    cases e with
    | tick now =>
      simp only [everyProbeAnswered, Bool.and_eq_true] at hans
      apply ih _ hans.2
      · simp only [WsSession.apply, WsSession.heartbeat]
        split
        · exact hr
        · split
          · intro h
            exact idle_reason_ne_pong_missing _ (Option.some.inj h)
          · split
            · rename_i ho _ hal
              have ho' : s.isOpen = true := by simpa using ho
              rcases ha ho' with h | h
              · rw [h] at hal; simp at hal
              · simp [pongBeforeTick] at h
            · exact hr
      · intro _
        exact Or.inr hans.1
    | pong now =>
      simp only [everyProbeAnswered] at hans
      apply ih _ hans
      · simp only [WsSession.apply, WsSession.onPong]
        split <;> exact hr
      · intro ho
        simp only [WsSession.apply, WsSession.onPong] at ho ⊢
        split
        · exact Or.inl rfl
        · rename_i hc
          split at ho
          · exact absurd ‹s.isOpen = true› hc
          · exact absurd ho hc
    | message now m =>
      simp only [everyProbeAnswered] at hans
      apply ih _ hans
      · simp only [WsSession.apply, WsSession.onMessage]
        split <;> exact hr
      · intro ho
        have e1 : (s.apply cfg (.message now m)).isAlive = s.isAlive := by
          simp only [WsSession.apply, WsSession.onMessage]; split <;> rfl
        have e2 : (s.apply cfg (.message now m)).isOpen = s.isOpen := by
          simp only [WsSession.apply, WsSession.onMessage]; split <;> rfl
        rw [e1]
        rw [e2] at ho
        rcases ha ho with h | h
        · exact Or.inl h
        · exact Or.inr (by simpa [pongBeforeTick] using h)

/-- C18. (1) A session that is open after a heartbeat tick is marked
not-alive by that tick; if only messages, and no pong, arrive before the
next tick, that tick terminates it, and for the reason `pong-missing`
unless it is idle-terminated. (2) A session in which every probe is
answered by a pong before the next tick is never terminated for a missing
pong. -/
theorem heartbeat_missing_pong (cfg : Config) :
    (∀ (s : WsSession) (now1 now2 : Int) (evs : List WsEvent),
      (s.heartbeat cfg now1).isOpen = true → (∀ e ∈ evs, e.isMessage = true) →
      (s.heartbeat cfg now1).isAlive = false ∧
      ((WsSession.run cfg (s.heartbeat cfg now1) evs).heartbeat cfg now2).isOpen = false ∧
      (now2 - (WsSession.run cfg (s.heartbeat cfg now1) evs).lastActivity
          ≤ cfg.WS_IDLE_CLOSE_MS →
        ((WsSession.run cfg (s.heartbeat cfg now1) evs).heartbeat cfg now2).terminateReason
          = some "pong-missing")) ∧
    (∀ (now0 : Int) (evs : List WsEvent), everyProbeAnswered evs = true →
      (WsSession.run cfg (WsSession.connect now0) evs).terminateReason
        ≠ some "pong-missing") := by
  constructor
  · intro s now1 now2 evs hopen hmsg
    have hal : (s.heartbeat cfg now1).isAlive = false := by
      simp only [WsSession.heartbeat] at hopen ⊢
      split
      · rename_i hc
        rw [if_pos hc] at hopen
        simp only [Bool.not_eq_true'] at hc
        rw [hc] at hopen
        exact absurd hopen (by simp)
      · rename_i hc
        rw [if_neg hc] at hopen
        split
        · rename_i hi
          rw [if_pos hi] at hopen
          exact absurd hopen (by simp)
        · rename_i hi
          rw [if_neg hi] at hopen
          split
          · rename_i hna
            rw [if_pos hna] at hopen
            exact absurd hopen (by simp)
          · rfl
    obtain ⟨k1, k2⟩ := messages_keep_liveness cfg evs (s.heartbeat cfg now1) hmsg
    rw [hal] at k1
    rw [hopen] at k2
    refine ⟨hal, ?_, ?_⟩
    · generalize WsSession.run cfg (s.heartbeat cfg now1) evs = t at k1 k2
      simp only [WsSession.heartbeat, k1, k2]
      simp only [Bool.not_true, Bool.false_eq_true, if_false, Bool.not_false, if_true]
      split <;> rfl
    · intro hni
      generalize WsSession.run cfg (s.heartbeat cfg now1) evs = t at k1 k2 hni
      have hni' : ¬ cfg.WS_IDLE_CLOSE_MS < now2 - t.lastActivity := by omega
      simp [WsSession.heartbeat, k1, k2, hni']
  · intro now0 evs hans
    exact answered_run cfg evs _ hans (by simp [WsSession.connect])
      (fun _ => Or.inl rfl)

/-- C18 at a session connected at 0 ms that never pongs: the tick at
30000 ms marks it not-alive, the tick at 60000 ms terminates it for the
missing pong. -/
theorem heartbeat_missing_pong_witness :
    ((WsSession.connect 0).heartbeat defaultConfig 30000).isAlive = false ∧
    ((WsSession.run defaultConfig ((WsSession.connect 0).heartbeat defaultConfig 30000)
      []).heartbeat defaultConfig 60000).terminateReason = some "pong-missing" :=
  ⟨((heartbeat_missing_pong defaultConfig).1 (WsSession.connect 0) 30000 60000 []
      (by decide) (by decide)).1,
   ((heartbeat_missing_pong defaultConfig).1 (WsSession.connect 0) 30000 60000 []
      (by decide) (by decide)).2.2 (by decide)⟩

/-- C19 as stated fails: a session connected at 0 ms that answers every
probe and sends no message at all is still open after the tick at
150000 ms, more than `WS_IDLE_CLOSE_MS` after its connection, because every
pong stamps `lastActivity`. -/
theorem ponging_session_not_idle_terminated :
    defaultConfig.WS_IDLE_CLOSE_MS < (150000 : Int) - 0 ∧
    (WsSession.run defaultConfig (WsSession.connect 0)
      [.tick 30000, .pong 30010, .tick 60000, .pong 60010, .tick 90000, .pong 90010,
       .tick 120000, .pong 120010, .tick 150000]).isOpen = true ∧
    (WsSession.run defaultConfig (WsSession.connect 0)
      [.tick 30000, .pong 30010, .tick 60000, .pong 60010, .tick 90000, .pong 90010,
       .tick 120000, .pong 120010, .tick 150000]).lastActivity = 120010 := by
  decide

/-- C19, amended. An open session whose `lastActivity` is more than
`WS_IDLE_CLOSE_MS` old at a heartbeat tick is terminated at that tick with
the idle reason, whether or not it is marked alive. `lastActivity` is the
time of the latest pong or accepted render command (or of the connection):
a pong and an accepted render command stamp it, any other message leaves
it. -/
theorem idle_session_terminated (cfg : Config) (s : WsSession) (now : Int)
    (hopen : s.isOpen = true)
    (hidle : cfg.WS_IDLE_CLOSE_MS < now - s.lastActivity) :
    (s.heartbeat cfg now).isOpen = false ∧
    (s.heartbeat cfg now).terminateReason = some ("idle>" ++ toString cfg.WS_IDLE_CLOSE_MS) ∧
    (∀ t : Int, (s.onPong t).lastActivity = t) ∧
    (∀ (t : Int) (m : WsInbound), acceptable m = true → (s.onMessage t m).lastActivity = t) ∧
    (∀ (t : Int) (m : WsInbound), acceptable m = false →
      (s.onMessage t m).lastActivity = s.lastActivity) := by
  refine ⟨?_, ?_, ?_, ?_, ?_⟩
  · simp [WsSession.heartbeat, hopen, hidle]
  · simp [WsSession.heartbeat, hopen, hidle]
  · intro t; simp [WsSession.onPong, hopen]
  · intro t m hm; simp [WsSession.onMessage, hopen, hm]
  · intro t m hm; simp [WsSession.onMessage, hm]

/-- C19, amended, at a session silent since its connection, at the tick at
150000 ms. -/
theorem idle_session_terminated_witness :
    ((WsSession.connect 0).heartbeat defaultConfig 150000).isOpen = false ∧
    ((WsSession.connect 0).heartbeat defaultConfig 150000).terminateReason
      = some ("idle>" ++ toString defaultConfig.WS_IDLE_CLOSE_MS) :=
  ⟨(idle_session_terminated defaultConfig (WsSession.connect 0) 150000 (by decide)
      (by decide)).1,
   (idle_session_terminated defaultConfig (WsSession.connect 0) 150000 (by decide)
      (by decide)).2.1⟩

/-- C20 fails when the most recent call repeats the text last sent. The
client sent `"graph TD; A-->B"` at 5000 ms; a call with `"graph TD; A-->C"`
at 5300 ms is kept as pending; a call with `"graph TD; A-->B"` at 5600 ms
returns at the `code === lastCodeSent` test and leaves the pending payload
in place; the timer at 6000 ms sends `"graph TD; A-->C"`. The text last sent
is not the text of the most recent call. -/
theorem stale_pending_payload_sent :
    sentClient.lastCodeSent = "graph TD; A-->B" ∧
    (Client.run {} sentClient
      [.send 5300 "graph TD; A-->C", .send 5600 "graph TD; A-->B"]).pendingServerPayload
      = some { mermaid := "graph TD; A-->C", theme := "default", backgroundColor := "white",
               width := 800, height := 600 } ∧
    (Client.run {} sentClient
      [.send 5300 "graph TD; A-->C", .send 5600 "graph TD; A-->B", .timer 6000]).sent.map
        (fun p => p.mermaid) = ["graph TD; A-->B", "graph TD; A-->C"] ∧
    (Client.run {} sentClient
      [.send 5300 "graph TD; A-->C", .send 5600 "graph TD; A-->B", .timer 6000]).lastCodeSent
      = "graph TD; A-->C" := by
  decide

/-! ## Key-addressed deletion -/

theorem node_absent_of_not_exists (fs : FS) (p : Path) (h : fs.pathExists p = false) :
    fs.node p = .absent := by
  unfold FS.pathExists at h
  cases hn : fs.node p <;> simp [hn] at h ⊢

/-- What the loop of the deletion leaves for distinct paths on which
storage accepts removals: every listed path is absent, every other path is
as before, and a name was recorded unless none of the paths existed. -/
theorem removeExisting_spec (l : List Path) : ∀ (fs : FS) (acc : List String), l.Nodup →
    (∀ p ∈ l, fs.writeFails p = false) →
    ∃ fs1 extra, removeExisting fs l acc = (fs1, .ok (acc ++ extra)) ∧
      (∀ p ∈ l, fs1.node p = .absent) ∧ (∀ q, q ∉ l → fs1.node q = fs.node q) ∧
      fs1.writeFails = fs.writeFails ∧
      (extra = [] ↔ ∀ p ∈ l, fs.pathExists p = false) := by
  induction l with
  | nil =>
    intro fs acc _ _
    exact ⟨fs, [], by simp [removeExisting], by simp, fun _ _ => rfl, rfl, by simp⟩
  | cons f rest ih =>
    intro fs acc hnd hw
    have hf : f ∉ rest := (List.nodup_cons.mp hnd).1
    have hnd1 : rest.Nodup := (List.nodup_cons.mp hnd).2
    have hwf : fs.writeFails f = false := hw f (List.mem_cons_self _ _)
    by_cases he : fs.pathExists f = true
    · obtain ⟨fs1, extra, h1, h2, h3, h4, _⟩ :=
        ih { fs with node := fun x => if x = f then Node.absent else fs.node x }
          (acc ++ [basename f]) hnd1 (fun p hp => hw p (List.mem_cons_of_mem _ hp))
      refine ⟨fs1, basename f :: extra, ?_, ?_, ?_, h4, ?_⟩
      · simp only [removeExisting, he, FS.remove, hwf, if_true, Bool.false_eq_true, if_false]
        rw [h1, List.append_assoc]
        rfl
      · intro p hp
        rcases List.mem_cons.mp hp with rfl | hp
        · rw [h3 _ hf]
          simp
        · exact h2 p hp
      · intro q hq
        have hq1 : q ≠ f := fun e => hq (e ▸ List.mem_cons_self _ _)
        have hq2 : q ∉ rest := fun e => hq (List.mem_cons_of_mem _ e)
        rw [h3 q hq2]
        simp [hq1]
      · constructor
        · intro h
          cases h
        · intro h
          have := h f (List.mem_cons_self _ _)
          rw [he] at this
          cases this
    · simp only [Bool.not_eq_true] at he
      obtain ⟨fs1, extra, h1, h2, h3, h4, h5⟩ :=
        ih fs acc hnd1 (fun p hp => hw p (List.mem_cons_of_mem _ hp))
      refine ⟨fs1, extra, ?_, ?_, ?_, h4, ?_⟩
      · simp only [removeExisting, he, Bool.false_eq_true, if_false]
        exact h1
      · intro p hp
        rcases List.mem_cons.mp hp with rfl | hp
        · rw [h3 _ hf]
          exact node_absent_of_not_exists fs _ he
        · exact h2 p hp
      · intro q hq
        exact h3 q (fun e => hq (List.mem_cons_of_mem _ e))
      · rw [h5]
        constructor
        · intro h p hp
          rcases List.mem_cons.mp hp with rfl | hp
          · exact he
          · exact h p hp
        · intro h p hp
          exact h p (List.mem_cons_of_mem _ hp)

theorem cachePaths_nodup (cfg : Config) (key : String) :
    [(getCacheFilePaths cfg key).svg, (getCacheFilePaths cfg key).png,
      (getCacheFilePaths cfg key).meta].Nodup := by
  have h1 : (getCacheFilePaths cfg key).svg ≠ (getCacheFilePaths cfg key).png :=
    cachePath_ext_ne _ _ _ _ (by decide)
  have h2 : (getCacheFilePaths cfg key).svg ≠ (getCacheFilePaths cfg key).meta :=
    cachePath_ext_ne _ _ _ _ (by decide)
  have h3 : (getCacheFilePaths cfg key).png ≠ (getCacheFilePaths cfg key).meta :=
    cachePath_ext_ne _ _ _ _ (by decide)
  simp [h1, h2, h3]

/-- C21: with the cache enabled, `DELETE /cache/:key` on a key of 64
lower-case hexadecimal characters, storage accepting the removals, leaves
the vector artifact, the raster artifact and the metadata file of the key
absent and every other path as it was, so that `getFromCache` is `null` for
every format at every later time; the response is 200 with a non-empty
`removed` list when one of the three files existed and 404
`Cache entry not found` when none did. A key that does not match the
pattern gets 400 `Invalid cache key format` and storage is unchanged. -/
theorem deleteCacheKey_spec (cfg : Config) (fs : FS) (key : String)
    (hen : cfg.CACHE_ENABLED = true) :
    (isCacheKey key = true →
      (∀ p ∈ [(getCacheFilePaths cfg key).svg, (getCacheFilePaths cfg key).png,
          (getCacheFilePaths cfg key).meta], fs.writeFails p = false) →
      ((deleteCacheKey cfg fs key).1.node (getCacheFilePaths cfg key).svg = .absent ∧
        (deleteCacheKey cfg fs key).1.node (getCacheFilePaths cfg key).png = .absent ∧
        (deleteCacheKey cfg fs key).1.node (getCacheFilePaths cfg key).meta = .absent) ∧
      (∀ q, q ∉ [(getCacheFilePaths cfg key).svg, (getCacheFilePaths cfg key).png,
          (getCacheFilePaths cfg key).meta] →
        (deleteCacheKey cfg fs key).1.node q = fs.node q) ∧
      (∀ now format, getFromCache cfg (deleteCacheKey cfg fs key).1 now key format = none) ∧
      ((fs.pathExists (getCacheFilePaths cfg key).svg = true ∨
          fs.pathExists (getCacheFilePaths cfg key).png = true ∨
          fs.pathExists (getCacheFilePaths cfg key).meta = true) →
        ∃ names, names ≠ [] ∧
          (deleteCacheKey cfg fs key).2 = { status := 200, body := .removed names }) ∧
      ((fs.pathExists (getCacheFilePaths cfg key).svg = false ∧
          fs.pathExists (getCacheFilePaths cfg key).png = false ∧
          fs.pathExists (getCacheFilePaths cfg key).meta = false) →
        (deleteCacheKey cfg fs key).2 =
          { status := 404, body := .error "Cache entry not found" })) ∧
    (isCacheKey key = false →
      deleteCacheKey cfg fs key =
        (fs, { status := 400, body := .error "Invalid cache key format" })) := by
  constructor
  · intro hk hw
    obtain ⟨fs1, names, h1, h2, h3, _, h5⟩ :=
      removeExisting_spec _ fs [] (cachePaths_nodup cfg key) hw
    rw [List.nil_append] at h1
    have hd : deleteCacheKey cfg fs key =
        (fs1, if names.length = 0 then { status := 404, body := .error "Cache entry not found" }
              else { status := 200, body := .removed names }) := by
      simp only [deleteCacheKey, hen, hk, h1, Bool.not_true, Bool.false_eq_true, if_false]
      split <;> rfl
    rw [hd]
    refine ⟨⟨h2 _ (by simp), h2 _ (by simp), h2 _ (by simp)⟩, h3, ?_, ?_, ?_⟩
    · intro now format
      have hm : fs1.readJson (getCacheFilePaths cfg key).meta
          = .error "ENOENT: no such file or directory" := by
        simp [FS.readJson, FS.readFile, h2 (getCacheFilePaths cfg key).meta (by simp)]
      simp [getFromCache, getFromCacheTry, isCacheValid, hm]
    · intro hex
      have hne : names ≠ [] := by
        intro hn
        have := h5.mp hn
        rcases hex with e | e | e
        · rw [this _ (by simp)] at e; cases e
        · rw [this _ (by simp)] at e; cases e
        · rw [this _ (by simp)] at e; cases e
      refine ⟨names, hne, ?_⟩
      have : names.length ≠ 0 := fun h => hne (List.length_eq_zero.mp h)
      simp [this]
    · intro hex
      have hn : names = [] := h5.mpr (by
        intro p hp
        simp only [List.mem_cons, List.mem_singleton, List.not_mem_nil, or_false] at hp
        rcases hp with rfl | rfl | rfl
        · exact hex.1
        · exact hex.2.1
        · exact hex.2.2)
      simp [hn]
  · intro hk
    simp [deleteCacheKey, hen, hk]

/-- Witness for C21: deleting the key of the cached sample diagram, and a
request whose key is not a cache key. -/
theorem deleteCacheKey_spec_witness :
    (isCacheKey sampleKey = true ∧
      (deleteCacheKey defaultConfig svgCachedWorld.fs sampleKey).2.status = 200 ∧
      getFromCache defaultConfig svgCachedWorld.fs 2000 sampleKey "svg" ≠ none ∧
      ∀ now format,
        getFromCache defaultConfig (deleteCacheKey defaultConfig svgCachedWorld.fs sampleKey).1
          now sampleKey format = none) ∧
    (isCacheKey "..%2Fserver.js" = false ∧
      deleteCacheKey defaultConfig svgCachedWorld.fs "..%2Fserver.js" =
        (svgCachedWorld.fs, { status := 400, body := .error "Invalid cache key format" })) := by
  have h := deleteCacheKey_spec defaultConfig svgCachedWorld.fs sampleKey rfl
  have h' := deleteCacheKey_spec defaultConfig svgCachedWorld.fs "..%2Fserver.js" rfl
  have hk : isCacheKey sampleKey = true := by decide
  have hk' : isCacheKey "..%2Fserver.js" = false := by decide
  refine ⟨⟨hk, by decide, by decide, ?_⟩, hk', h'.2 hk'⟩
  exact (h.1 hk (by decide)).2.2.1


/-! ## Conversion responses -/

/-- No result makes the handlers set a browser header: the properties
they test are never part of the result object. -/
theorem diagnosticHeaders_browser_absent (r : ConvertResult) :
    (diagnosticHeaders r).lookup "X-Mermaid-Browser-Reused" = none ∧
    (diagnosticHeaders r).lookup "X-Mermaid-Browser-Startup-Time-ms" = none := by
  unfold diagnosticHeaders ConvertResult.browserProp
  by_cases h : r.timings.rasterizeMs = 0 <;>
    simp [h, List.lookup, JsVal.truthy]

/-- C22 fails: the first conversion request on a fresh server launches the
browser (500 ms) and is answered 200 without the header
`X-Mermaid-Browser-Startup-Time-ms`; the next request renders with the
instance already running (no second launch) and is answered 200 without the
header `X-Mermaid-Browser-Reused`. -/
theorem browser_headers_not_sent :
    (firstPost.1.trace.count Event.launch = 1 ∧ firstPost.1.lastBrowserWasNew = true ∧
      firstPost.1.lastBrowserStartupDurationMs = 500 ∧
      firstPost.2.value?.map (fun r => r.status) = some 200 ∧
      firstPost.2.value?.map (fun r => r.header "X-Mermaid-Source") = some (some "api") ∧
      firstPost.2.value?.map (fun r => r.header "X-Mermaid-Browser-Startup-Time-ms")
        = some none) ∧
    (secondPost.1.trace.count Event.launch = 1 ∧ secondPost.1.trace.count Event.acquire = 2 ∧
      secondPost.1.lastBrowserWasNew = false ∧
      secondPost.2.value?.map (fun r => r.status) = some 200 ∧
      secondPost.2.value?.map (fun r => r.header "X-Mermaid-Source") = some (some "api") ∧
      secondPost.2.value?.map (fun r => r.header "X-Mermaid-Browser-Reused") = some none) := by
  decide

/-! ## The format of a WebSocket reply -/

/-- C23 fails: the accepted render command with `format: 'pdf'` makes the
handler ask `convertMermaid` for `'png'`, and the reply says `format: 'svg'`
with the content of the PNG file in its `svg` field. -/
theorem ws_reply_format_differs :
    acceptable pdfCommand = true ∧
    (wsOnMessage defaultConfig sampleEnv freshWorld (WsSession.connect 1000) pdfCommand).converted
      = [(sampleCode, "png",
          [("theme", .undefined), ("backgroundColor", .undefined), ("width", .undefined),
           ("height", .undefined)])] ∧
    (wsOnMessage defaultConfig sampleEnv freshWorld (WsSession.connect 1000) pdfCommand).replies.map
      WsReply.format = [some "svg"] ∧
    (wsOnMessage defaultConfig sampleEnv freshWorld (WsSession.connect 1000) pdfCommand).replies.map
      WsReply.payload = [some (.data [137, 80, 78, 71])] := by
  decide


/-! ## Soundness of the key text -/

theorem scanCount_append (a b : JsString) : ∀ st,
    scanCount st (a ++ b) = scanCount st a + scanCount (scanEnd st a) b := by
  induction a with
  | nil => intro st; simp [scanCount, scanEnd]
  | cons c a ih =>
    intro st
    rw [List.cons_append]
    simp only [scanCount]
    rw [ih]
    simp only [scanEnd, List.foldl_cons]
    omega

theorem scanEnd_append (a b : JsString) (st : Nat) :
    scanEnd st (a ++ b) = scanEnd (scanEnd st a) b := by
  simp [scanEnd, List.foldl_append]

/-- A text without an opening brace leaves the idle scanner idle. -/
theorem scan_plain (l : JsString) (h : ∀ u ∈ l, u ≠ 123) :
    scanCount 0 l = 0 ∧ scanEnd 0 l = 0 := by
  induction l with
  | nil => simp [scanCount, scanEnd]
  | cons c l ih =>
    have hc : c ≠ 123 := h c (List.mem_cons_self _ _)
    have ih1 := ih (fun d hd => h d (List.mem_cons_of_mem _ hd))
    simp only [scanEnd] at ih1
    simp [scanCount, scanEnd, scanStep, hc, ih1]

theorem hexUnit_spec (k : Nat) (h : k < 16) :
    hexUnit k ≠ 123 ∧ hexUnit k ≠ 34 ∧ hexValue (hexUnit k) = k := by
  revert k
  decide

/-- Inside the escape of one unit the scanner never completes its text,
and cannot be past the brace at its end. -/
theorem scan_escapeUnit (u : Nat) (st : Nat) (h : st ≤ 1) :
    scanCount st (Raw.escapeUnit u) = 0 ∧ scanEnd st (Raw.escapeUnit u) ≤ 1 := by
  have hst : st = 0 ∨ st = 1 := by omega
  unfold Raw.escapeUnit
  split_ifs with h1 h2 h3 h4 h5 h6 h7 h8
  · rcases hst with rfl | rfl <;> decide
  · rcases hst with rfl | rfl <;> decide
  · rcases hst with rfl | rfl <;> decide
  · rcases hst with rfl | rfl <;> decide
  · rcases hst with rfl | rfl <;> decide
  · rcases hst with rfl | rfl <;> decide
  · rcases hst with rfl | rfl <;> decide
  · have a1 := hexUnit_spec (u / 4096 % 16) (Nat.mod_lt _ (by decide))
    have a2 := hexUnit_spec (u / 256 % 16) (Nat.mod_lt _ (by decide))
    have a3 := hexUnit_spec (u / 16 % 16) (Nat.mod_lt _ (by decide))
    have a4 := hexUnit_spec (u % 16) (Nat.mod_lt _ (by decide))
    rcases hst with rfl | rfl <;>
      simp [scanCount, scanEnd, scanStep, a1.1, a1.2.1, a2.1, a2.2.1, a3.1, a3.2.1, a4.1,
        a4.2.1]
  · rcases hst with rfl | rfl <;> simp [scanCount, scanEnd, scanStep, h1] <;> split <;> omega

theorem quoteBody_pair (u v : Nat) (rest : JsString)
    (h : (isLeadSurrogate u && isTrailSurrogate v) = true) :
    Raw.quoteBody (u :: v :: rest) = u :: v :: Raw.quoteBody rest := by
  simp [Raw.quoteBody, h]

theorem quoteBody_single (u v : Nat) (rest : JsString)
    (h : (isLeadSurrogate u && isTrailSurrogate v) = false) :
    Raw.quoteBody (u :: v :: rest) = Raw.escapeUnit u ++ Raw.quoteBody (v :: rest) := by
  simp [Raw.quoteBody, h]

/-- Inside an escaped string the scanner never completes its text. -/
theorem scan_quoteBody (n : Nat) : ∀ (s : JsString) (st : Nat), s.length ≤ n → st ≤ 1 →
    scanCount st (Raw.quoteBody s) = 0 ∧ scanEnd st (Raw.quoteBody s) ≤ 1 := by
  induction n with
  | zero =>
    intro s st hs h
    have : s = [] := List.length_eq_zero.mp (by omega)
    subst this
    simpa [Raw.quoteBody, scanCount, scanEnd] using h
  | succ n ih =>
    intro s st hs h
    match s, hs with
    | [], _ => simpa [Raw.quoteBody, scanCount, scanEnd] using h
    | [u], _ => exact scan_escapeUnit u st h
    | u :: v :: rest, hs =>
      simp only [List.length_cons] at hs
      cases hp : (isLeadSurrogate u && isTrailSurrogate v)
      · rw [quoteBody_single u v rest hp, scanCount_append, scanEnd_append]
        have a := scan_escapeUnit u st h
        have b := ih (v :: rest) _ (by simp only [List.length_cons]; omega) a.2
        exact ⟨by omega, b.2⟩
      · rw [quoteBody_pair u v rest hp]
        simp only [Bool.and_eq_true, isLeadSurrogate, isTrailSurrogate, decide_eq_true_eq] at hp
        have hu : u ≠ 123 := by omega
        have hv : v ≠ 123 := by omega
        have hv2 : v ≠ 34 := by omega
        have hu2 : u ≠ 116 := by omega
        have hu3 : u ≠ 34 := by omega
        have hv3 : v ≠ 116 := by omega
        have b := ih rest 0 (by omega) (by omega)
        have hst : st = 0 ∨ st = 1 := by omega
        rcases hst with rfl | rfl <;>
          simp [scanCount, scanEnd, scanStep, hu, hv, hv2, hu2, hu3, hv3] <;>
          simpa [scanEnd] using b


theorem scan_keyOpen : scanCount 0 keyOpen = 1 ∧ scanEnd 0 keyOpen = 0 := by decide

theorem scan_keyMid1 (st : Nat) (h : st ≤ 1) :
    scanCount st keyMid1 = 0 ∧ scanEnd st keyMid1 = 0 := by
  have hst : st = 0 ∨ st = 1 := by omega
  rcases hst with rfl | rfl <;> decide

theorem scan_keyMid2 (st : Nat) (h : st ≤ 1) :
    scanCount st keyMid2 = 0 ∧ scanEnd st keyMid2 = 0 := by
  have hst : st = 0 ∨ st = 1 := by omega
  rcases hst with rfl | rfl <;> decide

theorem scan_keyMid3 : scanCount 0 keyMid3 = 0 ∧ scanEnd 0 keyMid3 = 0 := by decide

/-- The scanner completes its text once in the JSON text of a normalized
option record: at its first three characters. -/
theorem scan_keyRecord (t b w h : JsString) (hw : ∀ u ∈ w, u ≠ 123)
    (hh : ∀ u ∈ h, u ≠ 123) : scanCount 0 (keyRecord t b w h) = 1 := by
  have a1 := scan_quoteBody t.length t 0 (Nat.le_refl _) (by omega)
  have a2 := scan_keyMid1 _ a1.2
  have a3 := scan_quoteBody b.length b 0 (Nat.le_refl _) (by omega)
  have a4 := scan_keyMid2 _ a3.2
  have a5 := scan_plain w hw
  have a6 := scan_plain h hh
  have a7 : scanCount 0 [125] = 0 := by decide
  unfold keyRecord
  rw [scanCount_append, scan_keyOpen.1, scan_keyOpen.2, scanCount_append, a1.1,
    scanCount_append, a2.1, a2.2, scanCount_append, a3.1, scanCount_append, a4.1, a4.2,
    scanCount_append, a5.1, a5.2, scanCount_append, scan_keyMid3.1, scan_keyMid3.2,
    scanCount_append, a6.1, a6.2, a7]

/-- Wherever the scanner stands, it completes its text on a text that
starts with the three characters. -/
theorem scanCount_pos (st : Nat) (r : JsString) :
    1 ≤ scanCount st (123 :: 34 :: 116 :: r) := by
  simp [scanCount, scanStep]

theorem keyRecord_head (t b w h : JsString) :
    ∃ r, keyRecord t b w h = 123 :: 34 :: 116 :: r :=
  ⟨_, rfl⟩

/-- No text of a normalized option record ends in a longer one: a record
`j2` that is the end of a record `j1` is all of it. -/
theorem keyRecord_suffix (x j1 j2 : JsString) (r1 r2 : JsString)
    (h1 : j1 = 123 :: 34 :: 116 :: r1) (h2 : j2 = 123 :: 34 :: 116 :: r2)
    (hc : scanCount 0 j1 = 1) (h : j1 = x ++ j2) : x = [] := by
  match x, h with
  | [], _ => rfl
  | [a], h =>
    exfalso
    rw [h1, h2] at h
    simp at h
  | [a, b], h =>
    exfalso
    rw [h1, h2] at h
    simp at h
  | a :: b :: c :: x, h =>
    exfalso
    rw [h1] at h hc
    simp only [List.cons_append, List.cons.injEq] at h
    simp only [scanCount, scanStep] at hc
    rw [h.2.2.2, scanCount_append, h2] at hc
    have := scanCount_pos (scanEnd 0 x) r2
    simp at hc
    omega

/-- The diagram source and the record text can be read off their
concatenation. -/
theorem source_record_split (s1 s2 j1 j2 r1 r2 : JsString)
    (h1 : j1 = 123 :: 34 :: 116 :: r1) (h2 : j2 = 123 :: 34 :: 116 :: r2)
    (c1 : scanCount 0 j1 = 1) (c2 : scanCount 0 j2 = 1) (h : s1 ++ j1 = s2 ++ j2) :
    s1 = s2 ∧ j1 = j2 := by
  rcases List.append_eq_append_iff.mp h with ⟨x, hx1, hx2⟩ | ⟨x, hx1, hx2⟩
  · have := keyRecord_suffix x j1 j2 r1 r2 h1 h2 c1 hx2
    subst this
    simp at hx1 hx2
    exact ⟨hx1.symm, hx2⟩
  · have := keyRecord_suffix x j2 j1 r2 r1 h2 h1 c2 hx2
    subst this
    simp at hx1 hx2
    exact ⟨hx1, hx2.symm⟩

/-! ### The string escape can be read back -/

theorem readEscaped_escapeUnit (u : Nat) (r : JsString) :
    Raw.readEscaped (Raw.escapeUnit u ++ r) = some ([u], r) := by
  unfold Raw.escapeUnit
  split_ifs with h1 h2 h3 h4 h5 h6 h7 h8
  · subst h1; rfl
  · subst h2; rfl
  · subst h3; rfl
  · subst h4; rfl
  · subst h5; rfl
  · subst h6; rfl
  · subst h7; rfl
  · have a1 := hexUnit_spec (u / 4096 % 16) (Nat.mod_lt _ (by decide))
    have a2 := hexUnit_spec (u / 256 % 16) (Nat.mod_lt _ (by decide))
    have a3 := hexUnit_spec (u / 16 % 16) (Nat.mod_lt _ (by decide))
    have a4 := hexUnit_spec (u % 16) (Nat.mod_lt _ (by decide))
    have hu : u / 4096 % 16 * 4096 + u / 256 % 16 * 256 + u / 16 % 16 * 16 + u % 16 = u := by
      omega
    simp only [List.cons_append, List.nil_append, Raw.readEscaped, a1.2.2, a2.2.2, a3.2.2,
      a4.2.2, hu]
    simp
  · have hl : isLeadSurrogate u = false := by
      simp only [isLeadSurrogate, decide_eq_false_iff_not]
      omega
    simp [Raw.readEscaped, h1, h2, hl]

theorem readEscaped_quote (r : JsString) : Raw.readEscaped (34 :: r) = none := rfl

/-- The escaped body of a non-empty string starts with the escape of its
first code point, which `readEscaped` reads back. -/
theorem readEscaped_quoteBody (s : JsString) (hs : s ≠ []) :
    ∃ item s', item ≠ [] ∧ s = item ++ s' ∧
      ∀ r, Raw.readEscaped (Raw.quoteBody s ++ r) = some (item, Raw.quoteBody s' ++ r) := by
  match s, hs with
  | [u], _ =>
    refine ⟨[u], [], by simp, rfl, fun r => ?_⟩
    simp only [Raw.quoteBody]
    exact readEscaped_escapeUnit u _
  | u :: v :: rest, _ =>
    cases hp : (isLeadSurrogate u && isTrailSurrogate v)
    · refine ⟨[u], v :: rest, by simp, rfl, fun r => ?_⟩
      rw [quoteBody_single u v rest hp, List.append_assoc]
      exact readEscaped_escapeUnit u _
    · refine ⟨[u, v], rest, by simp, rfl, fun r => ?_⟩
      rw [quoteBody_pair u v rest hp]
      simp only [Bool.and_eq_true] at hp
      have hu := hp.1
      simp only [isLeadSurrogate, decide_eq_true_eq] at hu
      have h1 : u ≠ 34 := by omega
      have h2 : u ≠ 92 := by omega
      simp [Raw.readEscaped, h1, h2, hp.1, hp.2]

/-- An escaped string followed by its closing quote determines the string
and what follows the quote. -/
theorem quoteBody_inj (n : Nat) : ∀ (s1 s2 r1 r2 : JsString), s1.length ≤ n →
    Raw.quoteBody s1 ++ 34 :: r1 = Raw.quoteBody s2 ++ 34 :: r2 → s1 = s2 ∧ r1 = r2 := by
  induction n with
  | zero =>
    intro s1 s2 r1 r2 hl h
    have e : s1 = [] := List.length_eq_zero.mp (by omega)
    subst e
    by_cases h2 : s2 = []
    · subst h2
      simpa [Raw.quoteBody] using h
    · exfalso
      obtain ⟨item, s', _, _, hr⟩ := readEscaped_quoteBody s2 h2
      have := congrArg Raw.readEscaped h
      rw [hr] at this
      simp [Raw.quoteBody, readEscaped_quote] at this
  | succ n ih =>
    intro s1 s2 r1 r2 hl h
    by_cases h1 : s1 = []
    · subst h1
      by_cases h2 : s2 = []
      · subst h2
        simpa [Raw.quoteBody] using h
      · exfalso
        obtain ⟨item, s', _, _, hr⟩ := readEscaped_quoteBody s2 h2
        have := congrArg Raw.readEscaped h
        rw [hr] at this
        simp [Raw.quoteBody, readEscaped_quote] at this
    · by_cases h2 : s2 = []
      · exfalso
        subst h2
        obtain ⟨item, s', _, _, hr⟩ := readEscaped_quoteBody s1 h1
        have := congrArg Raw.readEscaped h
        rw [hr] at this
        simp [Raw.quoteBody, readEscaped_quote] at this
      · obtain ⟨i1, t1, n1, e1, hr1⟩ := readEscaped_quoteBody s1 h1
        obtain ⟨i2, t2, _, e2, hr2⟩ := readEscaped_quoteBody s2 h2
        have := congrArg Raw.readEscaped h
        rw [hr1, hr2] at this
        simp only [Option.some.injEq, Prod.mk.injEq] at this
        have hlen : t1.length ≤ n := by
          have : s1.length = i1.length + t1.length := by rw [e1, List.length_append]
          have : 0 < i1.length := List.length_pos.mpr n1
          omega
        obtain ⟨e3, e4⟩ := ih t1 t2 r1 r2 hlen this.2
        exact ⟨by rw [e1, e2, this.1, e3], e4⟩


/-! ### The text of a number can be read back -/

theorem digitChar_toNat (m : Nat) (h : m < 10) : (Nat.digitChar m).toNat = 48 + m := by
  revert m
  decide

theorem digitsValue_snoc (ds : List Char) (d : Char) :
    digitsValue (ds ++ [d]) = 10 * digitsValue ds + (d.toNat - 48) := by
  simp [digitsValue, List.foldl_append]

/-- With enough fuel the digit loop writes a non-empty run of decimal
digits whose value is the number, in front of what it was given. -/
theorem toDigitsCore_digits (fuel : Nat) : ∀ (n : Nat) (acc : List Char), n < fuel →
    ∃ ds, Nat.toDigitsCore 10 fuel n acc = ds ++ acc ∧ ds ≠ [] ∧
      (∀ c ∈ ds, 48 ≤ c.toNat ∧ c.toNat ≤ 57) ∧ digitsValue ds = n := by
  induction fuel with
  | zero => intro n acc h; omega
  | succ fuel ih =>
    intro n acc h
    have hd := digitChar_toNat (n % 10) (Nat.mod_lt _ (by omega))
    unfold Nat.toDigitsCore
    simp only []
    by_cases h0 : n / 10 = 0
    · rw [if_pos h0]
      refine ⟨[Nat.digitChar (n % 10)], rfl, by simp, ?_, ?_⟩
      · intro c hc
        rw [List.mem_singleton.mp hc, hd]
        omega
      · simp only [digitsValue, List.foldl_cons, List.foldl_nil, hd]
        omega
    · rw [if_neg h0]
      obtain ⟨ds, e1, _, e3, e4⟩ := ih (n / 10) (Nat.digitChar (n % 10) :: acc) (by omega)
      refine ⟨ds ++ [Nat.digitChar (n % 10)], by rw [e1]; simp, by simp, ?_, ?_⟩
      · intro c hc
        rcases List.mem_append.mp hc with hc | hc
        · exact e3 c hc
        · rw [List.mem_singleton.mp hc, hd]
          omega
      · rw [digitsValue_snoc, e4, hd]
        omega

theorem natText_digits (n : Nat) :
    (toString n).data ≠ [] ∧ (∀ c ∈ (toString n).data, 48 ≤ c.toNat ∧ c.toNat ≤ 57) ∧
      digitsValue (toString n).data = n := by
  obtain ⟨ds, e1, e2, e3, e4⟩ := toDigitsCore_digits (n + 1) n [] (by omega)
  have e : (toString n).data = ds := by
    rw [List.append_nil] at e1
    exact e1
  rw [e]
  exact ⟨e2, e3, e4⟩

theorem digitsValue_zeros (ds : List Char) (p : Nat) :
    digitsValue (ds ++ List.replicate p (Char.ofNat 48)) = digitsValue ds * 10 ^ p := by
  induction p with
  | zero => simp
  | succ p ih =>
    rw [List.replicate_succ', ← List.append_assoc, digitsValue_snoc, ih, Nat.pow_succ]
    have : (Char.ofNat 48).toNat - 48 = 0 := by decide
    rw [this]
    ring

theorem ne_ofNat_of_toNat (c : Char) (k : Nat) (h : c.toNat ≠ (Char.ofNat k).toNat) :
    c ≠ Char.ofNat k := fun e => h (by rw [e])

/-- A run of decimal digits reads as its value. -/
theorem readDecimal_digits (t : List Char) (h : ∀ c ∈ t, 48 ≤ c.toNat ∧ c.toNat ≤ 57) :
    readDecimal t = digitsValue t := by
  have h1 : ∀ c ∈ t, (decide (c ≠ Char.ofNat 101)) = true := by
    intro c hc
    have := h c hc
    exact decide_eq_true (ne_ofNat_of_toNat c 101 (by
      have e : (Char.ofNat 101).toNat = 101 := by decide
      omega))
  have h2 : ∀ c ∈ t, (decide (c ≠ Char.ofNat 46)) = true := by
    intro c hc
    have := h c hc
    exact decide_eq_true (ne_ofNat_of_toNat c 46 (by
      have e : (Char.ofNat 46).toNat = 46 := by decide
      omega))
  have e1 : t.takeWhile (fun c => decide (c ≠ Char.ofNat 101)) = t := by
    have := @List.takeWhile_append_of_pos _ _ t [] h1
    simpa using this
  have e2 : t.dropWhile (fun c => decide (c ≠ Char.ofNat 101)) = [] := by
    have := @List.dropWhile_append_of_pos _ _ t [] h1
    simpa using this
  have e3 : t.filter (fun c => decide (c ≠ Char.ofNat 46)) = t := List.filter_eq_self.mpr h2
  simp only [readDecimal, e1, e2, e3]

/-- The digits and the power of ten chosen for a double round to it. -/
theorem shortestDigits_round (x : Nat) (hx : roundDouble x = x) : ∀ P,
    roundDouble ((shortestDigits x P).1 * 10 ^ (shortestDigits x P).2) = x := by
  intro P
  induction P with
  | zero => simpa [shortestDigits] using hx
  | succ P ih =>
    simp only [shortestDigits]
    split_ifs
    all_goals first
      | exact ih
      | (simp only [Bool.and_eq_true, beq_iff_eq] at *
         simp_all)


/-- A text in exponent form reads as its digits times the power of ten
that the exponent and the number of digits give. -/
theorem readDecimal_exponent (m e : List Char)
    (hm : ∀ c ∈ m, (decide (c ≠ Char.ofNat 101)) = true) :
    readDecimal (m ++ Char.ofNat 101 :: Char.ofNat 43 :: e) =
      digitsValue (m.filter (fun c => decide (c ≠ Char.ofNat 46))) *
        10 ^ (digitsValue e + 1 - (m.filter (fun c => decide (c ≠ Char.ofNat 46))).length) := by
  have e1 : (m ++ Char.ofNat 101 :: Char.ofNat 43 :: e).takeWhile
      (fun c => decide (c ≠ Char.ofNat 101)) = m := by
    rw [List.takeWhile_append_of_pos hm]
    simp
  have e2 : (m ++ Char.ofNat 101 :: Char.ofNat 43 :: e).dropWhile
      (fun c => decide (c ≠ Char.ofNat 101)) = Char.ofNat 101 :: Char.ofNat 43 :: e := by
    rw [List.dropWhile_append_of_pos hm]
    simp
  simp only [readDecimal, e1, e2]
  rfl

/-- The text of a non-empty run of digits times a power of ten starts with
its first digit, has no brace and no comma, and reads as the product. -/
theorem digitsText_spec (d : Char) (rest : List Char) (p : Nat)
    (hds : ∀ c ∈ d :: rest, 48 ≤ c.toNat ∧ c.toNat ≤ 57) :
    ∃ tail, digitsText (d :: rest) p = d :: tail ∧
      (∀ c ∈ tail, c.toNat < 123 ∧ c.toNat ≠ 44) ∧
      readDecimal (digitsText (d :: rest) p) = digitsValue (d :: rest) * 10 ^ p := by
  obtain ⟨_, b2, b3⟩ := natText_digits ((d :: rest).length + p - 1)
  have hd := hds d (List.mem_cons_self _ _)
  have hrest : ∀ c ∈ rest, 48 ≤ c.toNat ∧ c.toNat ≤ 57 :=
    fun c hc => hds c (List.mem_cons_of_mem _ hc)
  have z : (Char.ofNat 48).toNat = 48 := by decide
  have hde : ∀ c : Char, 48 ≤ c.toNat ∧ c.toNat ≤ 57 →
      (decide (c ≠ Char.ofNat 101)) = true ∧ (decide (c ≠ Char.ofNat 46)) = true := by
    intro c hc
    have e1 : (Char.ofNat 101).toNat = 101 := by decide
    have e2 : (Char.ofNat 46).toNat = 46 := by decide
    exact ⟨decide_eq_true (ne_ofNat_of_toNat c 101 (by omega)),
      decide_eq_true (ne_ofNat_of_toNat c 46 (by omega))⟩
  by_cases hn : (d :: rest).length + p ≤ 21
  · have e : digitsText (d :: rest) p = d :: (rest ++ List.replicate p (Char.ofNat 48)) := by
      simp only [digitsText, hn, if_true, List.cons_append]
    refine ⟨_, e, ?_, ?_⟩
    · intro c hc
      rcases List.mem_append.mp hc with hc | hc
      · have := hrest c hc
        omega
      · rw [(List.mem_replicate.mp hc).2, z]
        omega
    · rw [e, readDecimal_digits, ← List.cons_append, digitsValue_zeros]
      intro c hc
      rcases List.mem_cons.mp hc with rfl | hc
      · exact hd
      · rcases List.mem_append.mp hc with hc | hc
        · exact hrest c hc
        · rw [(List.mem_replicate.mp hc).2, z]
          omega
  · cases hr : rest with
    | nil =>
      subst hr
      have e : digitsText [d] p = [d] ++ Char.ofNat 101 :: Char.ofNat 43 ::
          (toString ([d].length + p - 1)).data := by
        simp only [digitsText, hn, if_false]
      refine ⟨_, e, ?_, ?_⟩
      · intro c hc
        rcases List.mem_cons.mp hc with rfl | hc
        · decide
        · rcases List.mem_cons.mp hc with rfl | hc
          · decide
          · have := b2 c hc
            omega
      · rw [e, readDecimal_exponent _ _ (by
          intro c hc
          rw [List.mem_singleton.mp hc]
          exact (hde d hd).1)]
        have hf : [d].filter (fun c => decide (c ≠ Char.ofNat 46)) = [d] :=
          List.filter_eq_self.mpr (by
            intro c hc
            rw [List.mem_singleton.mp hc]
            exact (hde d hd).2)
        rw [hf, b3]
        have : [d].length + p - 1 + 1 - [d].length = p := by
          simp only [List.length_singleton]
          omega
        rw [this]
    | cons r rest2 =>
      subst hr
      have e : digitsText (d :: r :: rest2) p = (d :: Char.ofNat 46 :: r :: rest2) ++
          Char.ofNat 101 :: Char.ofNat 43 ::
            (toString ((d :: r :: rest2).length + p - 1)).data := by
        simp only [digitsText, hn, if_false]
      refine ⟨_, e, ?_, ?_⟩
      · intro c hc
        rcases List.mem_append.mp hc with hc | hc
        · rcases List.mem_cons.mp hc with rfl | hc
          · decide
          · have := hrest c hc
            omega
        · rcases List.mem_cons.mp hc with rfl | hc
          · decide
          · rcases List.mem_cons.mp hc with rfl | hc
            · decide
            · have := b2 c hc
              omega
      · have hm : ∀ c ∈ d :: Char.ofNat 46 :: r :: rest2,
            (decide (c ≠ Char.ofNat 101)) = true := by
          intro c hc
          rcases List.mem_cons.mp hc with rfl | hc
          · exact (hde _ hd).1
          · rcases List.mem_cons.mp hc with rfl | hc
            · decide
            · exact (hde c (hrest c hc)).1
        have hf : (d :: Char.ofNat 46 :: r :: rest2).filter
            (fun c => decide (c ≠ Char.ofNat 46)) = d :: r :: rest2 := by
          have h1 : (r :: rest2).filter (fun c => decide (c ≠ Char.ofNat 46)) = r :: rest2 :=
            List.filter_eq_self.mpr (by
              intro c hc
              exact (hde c (hrest c hc)).2)
          have hdp := (hde d hd).2
          rw [List.filter_cons, List.filter_cons, h1]
          simp only [hdp, if_true]
          simp
        rw [e, readDecimal_exponent _ _ hm, hf, b3]
        have : (d :: r :: rest2).length + p - 1 + 1 - (d :: r :: rest2).length = p := by
          simp only [List.length_cons]
          omega
        rw [this]

/-- The text of digits times a power of ten starts with a digit, has no
brace and no comma, and reads as the product. -/
theorem numberText_spec (s p : Nat) :
    ∃ d rest, (numberText s p).data = d :: rest ∧ (48 ≤ d.toNat ∧ d.toNat ≤ 57) ∧
      (∀ c ∈ rest, c.toNat < 123 ∧ c.toNat ≠ 44) ∧
      readDecimal (numberText s p).data = s * 10 ^ p := by
  obtain ⟨a1, a2, a3⟩ := natText_digits s
  cases hds : (toString s).data with
  | nil => exact absurd hds a1
  | cons d rest =>
    rw [hds] at a2 a3
    obtain ⟨tail, e1, e2, e3⟩ := digitsText_spec d rest p a2
    have e : (numberText s p).data = digitsText (d :: rest) p := by
      simp only [numberText, hds]
    rw [e, e3, a3]
    exact ⟨d, tail, e1, a2 d (List.mem_cons_self _ _), e2, rfl⟩


/-- The text of a non-negative double starts with a digit, has no brace
and no comma, and reads back as the double. -/
theorem naturalText_spec (x : Nat) (hx : roundDouble x = x) :
    ∃ d rest, (naturalText x).data = d :: rest ∧ (48 ≤ d.toNat ∧ d.toNat ≤ 57) ∧
      (∀ c ∈ rest, c.toNat < 123 ∧ c.toNat ≠ 44) ∧
      roundDouble (readDecimal (naturalText x).data) = x := by
  by_cases h : x < 9007199254740992
  · obtain ⟨a1, a2, a3⟩ := natText_digits x
    have e : naturalText x = toString x := by simp only [naturalText, h, if_true]
    rw [e]
    cases hds : (toString x).data with
    | nil => exact absurd hds a1
    | cons d rest =>
      rw [hds] at a2 a3
      refine ⟨d, rest, rfl, a2 d (List.mem_cons_self _ _), ?_, ?_⟩
      · intro c hc
        have := a2 c (List.mem_cons_of_mem _ hc)
        omega
      · rw [readDecimal_digits _ a2, a3, hx]
  · have e : naturalText x = numberText (shortestDigits x (toString x).length).1
        (shortestDigits x (toString x).length).2 := by
      simp only [naturalText, h, if_false]
    obtain ⟨d, rest, e1, e2, e3, e4⟩ := numberText_spec
      (shortestDigits x (toString x).length).1 (shortestDigits x (toString x).length).2
    rw [e, e4]
    exact ⟨d, rest, e1, e2, e3, shortestDigits_round x hx _⟩

/-- The text of a JavaScript integer has no brace and no comma and reads
back as the integer. -/
theorem numberToString_spec (n : Int) (hn : isNumberValue n = true) :
    (∀ c ∈ (numberToString n).data, c.toNat < 123 ∧ c.toNat ≠ 44) ∧
      readNumber (numberToString n).data = .num n := by
  have hx : roundDouble n.natAbs = n.natAbs := by
    simp only [isNumberValue, Bool.and_eq_true, beq_iff_eq] at hn
    exact hn.1
  obtain ⟨d, rest, e1, e2, e3, e4⟩ := naturalText_spec n.natAbs hx
  by_cases h : n < 0
  · have e : (numberToString n).data = Char.ofNat 45 :: d :: rest := by
      simp only [numberToString, h, if_true, String.data_append, e1]
      rfl
    rw [e]
    constructor
    · intro c hc
      rcases List.mem_cons.mp hc with rfl | hc
      · decide
      · rcases List.mem_cons.mp hc with rfl | hc
        · omega
        · exact e3 c hc
    · have h2 : (Char.ofNat 45).toNat = 45 := by decide
      have h3 : ¬ ((45 : Nat) = 110) := by decide
      simp only [readNumber, h2, h3, if_false, if_true, ← e1, e4]
      congr 1
      omega
  · have e : (numberToString n).data = d :: rest := by
      simp only [numberToString, h, if_false, e1]
    rw [e]
    constructor
    · intro c hc
      rcases List.mem_cons.mp hc with rfl | hc
      · omega
      · exact e3 c hc
    · have h1 : d.toNat ≠ 110 := by omega
      have h2 : d.toNat ≠ 45 := by omega
      simp only [readNumber, h1, h2, if_false, ← e1, e4]
      congr 1
      omega

theorem utf16_small (l : List Char) (h : ∀ c ∈ l, c.toNat < 65536) :
    l.flatMap utf16Units = l.map Char.toNat := by
  induction l with
  | nil => rfl
  | cons c l ih =>
    have hc := h c (List.mem_cons_self _ _)
    rw [List.flatMap_cons, List.map_cons, ih (fun d hd => h d (List.mem_cons_of_mem _ hd))]
    simp [utf16Units, hc]

theorem map_toNat_inj (l1 l2 : List Char) (h : l1.map Char.toNat = l2.map Char.toNat) :
    l1 = l2 := by
  have := congrArg (List.map Char.ofNat) h
  simpa [List.map_map, Function.comp_def] using this

/-- The JSON text of `null` or of a JavaScript integer, as code units: the
codes of its characters, none a brace or a comma, and it reads back as the
value. -/
theorem keyNumber_text (v : Raw.JsVal)
    (hv : v = .null ∨ ∃ n, v = .num n ∧ isNumberValue n = true) :
    ∃ txt : String, Raw.jsonValue v = some (txt.data.map Char.toNat) ∧
      (∀ u ∈ txt.data.map Char.toNat, u ≠ 123 ∧ u ≠ 44) ∧ readNumber txt.data = v := by
  have key : ∀ txt : String, (∀ c ∈ txt.data, c.toNat < 123 ∧ c.toNat ≠ 44) →
      utf16 txt = txt.data.map Char.toNat ∧ ∀ u ∈ txt.data.map Char.toNat, u ≠ 123 ∧ u ≠ 44 := by
    intro txt h
    refine ⟨utf16_small _ (fun c hc => by have := h c hc; omega), ?_⟩
    intro u hu
    obtain ⟨c, hc, rfl⟩ := List.mem_map.mp hu
    have := h c hc
    omega
  rcases hv with rfl | ⟨n, rfl, hn⟩
  · obtain ⟨k1, k2⟩ := key "null" (by decide)
    exact ⟨"null", by simp only [Raw.jsonValue, k1], k2, by decide⟩
  · obtain ⟨a1, a2⟩ := numberToString_spec n hn
    obtain ⟨k1, k2⟩ := key (numberToString n) a1
    exact ⟨numberToString n, by simp only [Raw.jsonValue, k1], k2, a2⟩

/-- A text without a comma, followed by a comma, determines itself and
what follows the comma. -/
theorem comma_split (a : JsString) : ∀ (b x y : JsString),
    (∀ u ∈ a, u ≠ 44) → (∀ u ∈ b, u ≠ 44) →
    a ++ 44 :: x = b ++ 44 :: y → a = b ∧ x = y := by
  induction a with
  | nil =>
    intro b x y _ hb h
    cases b with
    | nil => simpa using h
    | cons d b =>
      exfalso
      simp only [List.nil_append, List.cons_append, List.cons.injEq] at h
      exact hb d (List.mem_cons_self _ _) h.1.symm
  | cons c a ih =>
    intro b x y ha hb h
    cases b with
    | nil =>
      exfalso
      simp only [List.nil_append, List.cons_append, List.cons.injEq] at h
      exact ha c (List.mem_cons_self _ _) h.1
    | cons d b =>
      simp only [List.cons_append, List.cons.injEq] at h
      obtain ⟨e1, e2⟩ := ih b x y (fun c hc => ha c (List.mem_cons_of_mem _ hc))
        (fun c hc => hb c (List.mem_cons_of_mem _ hc)) h.2
      exact ⟨by rw [h.1, e1], e2⟩

/-! ### From the key text to the render call -/

theorem intercalate_four (s a b c d : JsString) :
    List.intercalate s [a, b, c, d] = a ++ (s ++ (b ++ (s ++ (c ++ (s ++ d))))) := by
  simp [List.intercalate, List.intersperse]

theorem jsonStringify_record (t b : JsString) (W H : Raw.JsVal) (w h : JsString)
    (hw : Raw.jsonValue W = some w) (hh : Raw.jsonValue H = some h) :
    Raw.jsonStringify [("theme", .str t), ("backgroundColor", .str b), ("width", W),
      ("height", H)] = keyRecord t b w h := by
  have hm : Raw.jsonMembers [("theme", .str t), ("backgroundColor", .str b), ("width", W),
      ("height", H)]
      = [Raw.jsonQuote (utf16 "theme") ++ [58] ++ Raw.jsonQuote t,
         Raw.jsonQuote (utf16 "backgroundColor") ++ [58] ++ Raw.jsonQuote b,
         Raw.jsonQuote (utf16 "width") ++ [58] ++ w,
         Raw.jsonQuote (utf16 "height") ++ [58] ++ h] := by
    have ht : Raw.jsonValue (.str t) = some (Raw.jsonQuote t) := rfl
    have hb : Raw.jsonValue (.str b) = some (Raw.jsonQuote b) := rfl
    simp only [Raw.jsonMembers, List.filterMap_cons, List.filterMap_nil, ht, hb, hw, hh,
      Option.map_some']
  have qt : Raw.jsonQuote t = [34] ++ Raw.quoteBody t ++ [34] := rfl
  have qb : Raw.jsonQuote b = [34] ++ Raw.quoteBody b ++ [34] := rfl
  unfold Raw.jsonStringify keyRecord keyOpen keyMid1 keyMid2 keyMid3
  rw [hm, intercalate_four, qt, qb]
  simp only [List.append_assoc, List.cons_append, List.nil_append, List.singleton_append]

theorem keyTheme_string (v : Raw.JsVal) (d : JsString) (h : v.isStringOrAbsent = true) :
    ∃ t, (v.orDefault (.str d)).or (.str d) = .str t := by
  cases v with
  | undefined =>
    exact ⟨d, by
      by_cases hd : d = [] <;> simp [Raw.JsVal.orDefault, Raw.JsVal.or, Raw.JsVal.truthy, hd]⟩
  | str s =>
    by_cases hs : s = []
    · exact ⟨d, by simp [Raw.JsVal.orDefault, Raw.JsVal.or, Raw.JsVal.truthy, hs]⟩
    · exact ⟨s, by simp [Raw.JsVal.orDefault, Raw.JsVal.or, Raw.JsVal.truthy, hs]⟩
  | null => cases h
  | bool _ => cases h
  | num _ => cases h

theorem keyNumber_shape (v : Raw.JsVal) (d : Int) (h : v.isIntOrAbsent = true)
    (hd : isNumberValue d = true) :
    (v.orDefault (.num d)).or .null = .null ∨
      ∃ n, (v.orDefault (.num d)).or .null = .num n ∧ isNumberValue n = true := by
  cases v with
  | undefined =>
    by_cases h0 : d = 0
    · exact Or.inl (by simp [Raw.JsVal.orDefault, Raw.JsVal.or, Raw.JsVal.truthy, h0])
    · exact Or.inr ⟨d, by simp [Raw.JsVal.orDefault, Raw.JsVal.or, Raw.JsVal.truthy, h0], hd⟩
  | num n =>
    by_cases hn : n = 0
    · exact Or.inl (by simp [Raw.JsVal.orDefault, Raw.JsVal.or, Raw.JsVal.truthy, hn])
    · exact Or.inr ⟨n, by simp [Raw.JsVal.orDefault, Raw.JsVal.or, Raw.JsVal.truthy, hn], h⟩
  | null => cases h
  | bool _ => cases h
  | str _ => cases h

/-- A value that the key writes as `x || null` determines the value
`x || d` the render call is given. -/
theorem or_null_determines (a b d : Raw.JsVal) (h : a.or .null = b.or .null) :
    a.or d = b.or d := by
  unfold Raw.JsVal.or at h ⊢
  by_cases ha : a.truthy = true <;> by_cases hb : b.truthy = true <;>
    simp only [ha, hb, if_true, if_false, Bool.false_eq_true] at h ⊢
  · exact h
  · rw [h] at ha; cases ha
  · rw [← h] at hb; cases hb


/-! ### The raw embedding extends the embedding over well-formed text -/

theorem utf16_append (a b : String) : utf16 (a ++ b) = utf16 a ++ utf16 b := by
  simp [utf16, String.data_append, List.flatMap_append]

theorem char_range (c : Char) : c.toNat < 55296 ∨ (57343 < c.toNat ∧ c.toNat < 1114112) :=
  c.valid

theorem quoteBody_cons_plain (u : Nat) (rest : JsString) (h : isLeadSurrogate u = false) :
    Raw.quoteBody (u :: rest) = Raw.escapeUnit u ++ Raw.quoteBody rest := by
  cases rest with
  | nil => simp [Raw.quoteBody]
  | cons v rest => exact quoteBody_single u v rest (by simp [h])

theorem hexDigit_unit (k : Nat) (h : k < 16) : (hexDigit k).toNat = hexUnit k := by
  revert k
  decide

/-- The escape of a character of the basic plane is the escape of its
code unit. -/
theorem escapeUnit_char (c : Char) (h : c.toNat < 65536) :
    Raw.escapeUnit c.toNat = (jsonEscapeChar c).flatMap utf16Units := by
  have hr := char_range c
  have small : ∀ k : Nat, k < 128 → utf16Units (Char.ofNat k) = [k] := by decide
  unfold Raw.escapeUnit jsonEscapeChar
  simp only []
  split_ifs with h1 h2 h3 h4 h5 h6 h7 h8 h9 h10
  any_goals rfl
  · have a1 := hexDigit_unit (c.toNat / 16) (by omega)
    have a2 := hexDigit_unit (c.toNat % 16) (by omega)
    have u1 : hexUnit (c.toNat / 16) < 65536 := by unfold hexUnit; split <;> omega
    have u2 : hexUnit (c.toNat % 16) < 65536 := by unfold hexUnit; split <;> omega
    have b1 : utf16Units (hexDigit (c.toNat / 16)) = [hexUnit (c.toNat / 16)] := by
      simp [utf16Units, a1, u1]
    have b2 : utf16Units (hexDigit (c.toNat % 16)) = [hexUnit (c.toNat % 16)] := by
      simp [utf16Units, a2, u2]
    have e1 : c.toNat / 4096 % 16 = 0 := by omega
    have e2 : c.toNat / 256 % 16 = 0 := by omega
    have e3 : c.toNat / 16 % 16 = c.toNat / 16 := by omega
    simp only [List.flatMap_cons, List.flatMap_nil, small 92 (by decide), small 117 (by decide),
      small 48 (by decide), b1, b2, e1, e2, e3]
    rfl
  · omega
  · omega
  · simp [utf16Units, h]

/-- Escaping commutes with the passage to code units. -/
theorem quoteBody_utf16 (l : List Char) :
    Raw.quoteBody (l.flatMap utf16Units) = (l.flatMap jsonEscapeChar).flatMap utf16Units := by
  induction l with
  | nil => rfl
  | cons c l ih =>
    have hr := char_range c
    rw [List.flatMap_cons, List.flatMap_cons, List.flatMap_append, ← ih]
    by_cases h : c.toNat < 65536
    · have hu : utf16Units c = [c.toNat] := by simp [utf16Units, h]
      have hl : isLeadSurrogate c.toNat = false := by
        simp only [isLeadSurrogate, decide_eq_false_iff_not]
        omega
      rw [hu, List.singleton_append, quoteBody_cons_plain _ _ hl, escapeUnit_char c h]
    · have hu : utf16Units c = [55296 + (c.toNat - 65536) / 1024,
          56320 + (c.toNat - 65536) % 1024] := by simp [utf16Units, h]
      have he : jsonEscapeChar c = [c] := by
        unfold jsonEscapeChar
        simp only []
        split_ifs <;> first | omega | rfl
      have hp : (isLeadSurrogate (55296 + (c.toNat - 65536) / 1024) &&
          isTrailSurrogate (56320 + (c.toNat - 65536) % 1024)) = true := by
        simp only [isLeadSurrogate, isTrailSurrogate, Bool.and_eq_true, decide_eq_true_eq]
        omega
      rw [he, List.flatMap_cons, List.flatMap_nil, List.append_nil, hu]
      exact quoteBody_pair _ _ _ hp

theorem jsonQuote_utf16 (s : String) : Raw.jsonQuote (utf16 s) = utf16 (jsonQuote s) := by
  have q : utf16Units (Char.ofNat 34) = [34] := by decide
  simp [Raw.jsonQuote, jsonQuote, utf16, quoteBody_utf16, List.flatMap_append, q]

theorem utf16_eq_nil (s : String) : utf16 s = [] ↔ s = "" := by
  constructor
  · intro h
    cases hs : s.data with
    | nil => exact String.ext hs
    | cons c l =>
      exfalso
      simp only [utf16, hs, List.flatMap_cons] at h
      have : utf16Units c ≠ [] := by
        unfold utf16Units
        split <;> simp
      exact this (List.append_eq_nil.mp h).1
  · rintro rfl
    rfl

theorem raw_truthy (v : JsVal) : v.raw.truthy = v.truthy := by
  cases v with
  | str s =>
    by_cases hs : s = ""
    · simp [JsVal.raw, Raw.JsVal.truthy, JsVal.truthy, hs, (utf16_eq_nil "").mpr rfl]
    · have : utf16 s ≠ [] := fun h => hs ((utf16_eq_nil s).mp h)
      have h1 : (utf16 s != []) = true := by simpa using this
      have h2 : (s != "") = true := by simpa using hs
      simp only [JsVal.raw, Raw.JsVal.truthy, JsVal.truthy, h1, h2]
  | _ => rfl

theorem raw_or (a b : JsVal) : (a.or b).raw = a.raw.or b.raw := by
  unfold JsVal.or Raw.JsVal.or
  rw [raw_truthy]
  split <;> rfl

theorem raw_orDefault (v d : JsVal) : (v.orDefault d).raw = v.raw.orDefault d.raw := by
  cases v <;> simp [JsVal.orDefault, Raw.JsVal.orDefault, JsVal.raw]

theorem raw_get (o : JsObject) (k : String) : (JsObject.raw o).get k = (o.get k).raw := by
  induction o with
  | nil => rfl
  | cons kv o ih =>
    obtain ⟨a, b⟩ := kv
    simp only [JsObject.raw, List.map_cons, Raw.JsObject.get, JsObject.get, List.lookup_cons]
    cases hk : (k == a)
    · simpa only [JsObject.raw, Raw.JsObject.get, JsObject.get] using ih
    · rfl

theorem raw_jsonValue (v : JsVal) : Raw.jsonValue v.raw = (jsonValue v).map utf16 := by
  cases v with
  | str s => simp [JsVal.raw, Raw.jsonValue, jsonValue, jsonQuote_utf16]
  | _ => rfl

theorem raw_jsonMembers (o : JsObject) :
    Raw.jsonMembers (JsObject.raw o) = (jsonMembers o).map utf16 := by
  have c : utf16 ":" = [58] := by decide
  induction o with
  | nil => rfl
  | cons kv o ih =>
    simp only [Raw.jsonMembers, jsonMembers, JsObject.raw, List.map_cons,
      List.filterMap_cons] at ih ⊢
    rw [raw_jsonValue]
    cases hv : jsonValue kv.2 with
    | none => simpa using ih
    | some t =>
      simp only [Option.map_some', List.map_cons, utf16_append, c]
      rw [jsonQuote_utf16, ih]

theorem utf16_intercalate_go (l : List String) : ∀ acc : String,
    utf16 (String.intercalate.go acc "," l)
      = utf16 acc ++ (l.map utf16).flatMap (fun a => [44] ++ a) := by
  have c : utf16 "," = [44] := by decide
  induction l with
  | nil => intro acc; simp [String.intercalate.go]
  | cons a l ih =>
    intro acc
    simp only [String.intercalate.go, ih, utf16_append, c, List.map_cons, List.flatMap_cons,
      List.append_assoc]

theorem intercalate_flatMap (x : JsString) (xs : List JsString) :
    List.intercalate [44] (x :: xs) = x ++ xs.flatMap (fun a => [44] ++ a) := by
  induction xs generalizing x with
  | nil => simp [List.intercalate, List.intersperse]
  | cons y ys ih =>
    have := ih y
    simp only [List.intercalate, List.intersperse, List.flatten_cons, List.flatMap_cons,
      List.append_assoc] at this ⊢
    rw [this]

theorem raw_jsonStringify (o : JsObject) :
    Raw.jsonStringify (JsObject.raw o) = utf16 (jsonStringify o) := by
  have o1 : utf16 "\x7b" = [123] := by decide
  have o2 : utf16 "\x7d" = [125] := by decide
  unfold Raw.jsonStringify jsonStringify
  rw [raw_jsonMembers, utf16_append, utf16_append, o1, o2]
  cases hm : jsonMembers o with
  | nil => rfl
  | cons a l =>
    rw [List.map_cons, intercalate_flatMap]
    simp only [String.intercalate, utf16_intercalate_go]

theorem raw_normalizedOptions (cfg : Config) (o : JsObject) :
    Raw.normalizedOptions cfg (JsObject.raw o) = JsObject.raw (normalizedOptions cfg o) := by
  simp only [Raw.normalizedOptions, normalizedOptions, raw_get]
  simp only [JsObject.raw, List.map_cons, List.map_nil, raw_or]
  rfl

theorem raw_destructureOptions (cfg : Config) (o : JsObject) :
    Raw.destructureOptions cfg (JsObject.raw o) = JsObject.raw (destructureOptions cfg o) := by
  simp only [Raw.destructureOptions, destructureOptions, raw_get]
  simp only [JsObject.raw, List.map_cons, List.map_nil, raw_orDefault]
  rfl

/-- On well-formed text the raw key text is the key text of the embedding
above, as code units. -/
theorem raw_cacheKeyContent (cfg : Config) (code : String) (o : JsObject) :
    Raw.cacheKeyContent cfg (utf16 code) (JsObject.raw o)
      = utf16 (cacheKeyContent cfg code o) := by
  unfold Raw.cacheKeyContent cacheKeyContent
  rw [raw_normalizedOptions, raw_jsonStringify, utf16_append]


/-- The text hashed for a request with plain options: the source followed
by a record text, with the four normalized values readable from it. -/
theorem keyText_shape (cfg : Config) (code : JsString) (o : Raw.JsObject)
    (hw : isNumberValue cfg.DEFAULT_WIDTH = true) (hh : isNumberValue cfg.DEFAULT_HEIGHT = true)
    (hp : Raw.plainOptions o = true) :
    ∃ (t b : JsString) (w h : String),
      Raw.cacheKeyContent cfg code (Raw.destructureOptions cfg o)
        = code ++ keyRecord t b (w.data.map Char.toNat) (h.data.map Char.toNat) ∧
      Raw.normalizedOptions cfg (Raw.destructureOptions cfg o)
        = [("theme", .str t), ("backgroundColor", .str b), ("width", readNumber w.data),
           ("height", readNumber h.data)] ∧
      (∀ u ∈ w.data.map Char.toNat, u ≠ 123 ∧ u ≠ 44) ∧
      (∀ u ∈ h.data.map Char.toNat, u ≠ 123 ∧ u ≠ 44) := by
  simp only [Raw.plainOptions, Bool.and_eq_true] at hp
  obtain ⟨⟨⟨p1, p2⟩, p3⟩, p4⟩ := hp
  obtain ⟨t, ht⟩ := keyTheme_string _ (utf16 cfg.DEFAULT_THEME) p1
  obtain ⟨b, hb⟩ := keyTheme_string _ (utf16 cfg.DEFAULT_BACKGROUND) p2
  obtain ⟨w, w1, w2, w3⟩ := keyNumber_text _ (keyNumber_shape _ cfg.DEFAULT_WIDTH p3 hw)
  obtain ⟨h, h1, h2, h3⟩ := keyNumber_text _ (keyNumber_shape _ cfg.DEFAULT_HEIGHT p4 hh)
  have hn : Raw.normalizedOptions cfg (Raw.destructureOptions cfg o)
      = [("theme", .str t), ("backgroundColor", .str b), ("width", readNumber w.data),
         ("height", readNumber h.data)] := by
    rw [w3, h3, ← ht, ← hb]
    rfl
  refine ⟨t, b, w, h, ?_, hn, w2, h2⟩
  unfold Raw.cacheKeyContent
  rw [hn, jsonStringify_record t b _ _ _ _ (by rw [w3]; exact w1) (by rw [h3]; exact h1)]

/-- Equal record texts have equal themes, background colours and number
texts. -/
theorem keyRecord_inj (t1 b1 t2 b2 w1 h1 w2 h2 : JsString)
    (c1 : ∀ u ∈ w1, u ≠ 44) (c2 : ∀ u ∈ w2, u ≠ 44)
    (h : keyRecord t1 b1 w1 h1 = keyRecord t2 b2 w2 h2) :
    t1 = t2 ∧ b1 = b2 ∧ w1 = w2 ∧ h1 = h2 := by
  unfold keyRecord at h
  have h := List.append_cancel_left h
  have m1 : keyMid1 = 34 :: ([44] ++ Raw.jsonQuote (utf16 "backgroundColor") ++ [58] ++ [34]) :=
    rfl
  have m2 : keyMid2 = 34 :: ([44] ++ Raw.jsonQuote (utf16 "width") ++ [58]) := rfl
  have m3 : keyMid3 = 44 :: (Raw.jsonQuote (utf16 "height") ++ [58]) := rfl
  rw [m1, List.cons_append, List.cons_append] at h
  obtain ⟨e1, h⟩ := quoteBody_inj t1.length _ _ _ _ (Nat.le_refl _) h
  have h := List.append_cancel_left h
  rw [m2, List.cons_append, List.cons_append] at h
  obtain ⟨e2, h⟩ := quoteBody_inj b1.length _ _ _ _ (Nat.le_refl _) h
  have h := List.append_cancel_left h
  rw [m3, List.cons_append, List.cons_append] at h
  obtain ⟨e3, h⟩ := comma_split _ _ _ _ c1 c2 h
  have h := List.append_cancel_right (List.append_cancel_left h)
  exact ⟨e1, e2, e3, h⟩

/-- C24: two requests to `convertMermaid` whose source is any JavaScript
string, whose theme and background colour are JavaScript strings or
absent and whose width and height are integer numbers or absent, and for
which the text hashed for the key (the source followed by the JSON text of
the normalized options) is the same, have the same diagram source, the
same normalized option record, and give `renderWithMermaid` the same call
to pass to the backend: the same definition, theme, background colour and
viewport width and height. Strings are sequences of UTF-16 code units
(a surrogate may stand alone), numbers are integer-valued doubles written
as `JSON.stringify` writes them (exponent form from `1e21`); the configured
default width and height are numbers. -/
theorem cacheKeyContent_sound (cfg : Config) (code1 code2 : JsString) (o1 o2 : Raw.JsObject)
    (hw : isNumberValue cfg.DEFAULT_WIDTH = true) (hh : isNumberValue cfg.DEFAULT_HEIGHT = true)
    (p1 : Raw.plainOptions o1 = true) (p2 : Raw.plainOptions o2 = true)
    (h : Raw.cacheKeyContent cfg code1 (Raw.destructureOptions cfg o1)
      = Raw.cacheKeyContent cfg code2 (Raw.destructureOptions cfg o2)) :
    code1 = code2 ∧
    Raw.normalizedOptions cfg (Raw.destructureOptions cfg o1)
      = Raw.normalizedOptions cfg (Raw.destructureOptions cfg o2) ∧
    ∀ browser format,
      Raw.renderCallOf cfg browser code1 format (Raw.destructureOptions cfg o1)
        = Raw.renderCallOf cfg browser code2 format (Raw.destructureOptions cfg o2) := by
  obtain ⟨t1, b1, w1, h1, d1, n1, cw1, ch1⟩ := keyText_shape cfg code1 o1 hw hh p1
  obtain ⟨t2, b2, w2, h2, d2, n2, cw2, ch2⟩ := keyText_shape cfg code2 o2 hw hh p2
  rw [d1, d2] at h
  obtain ⟨r1, hr1⟩ := keyRecord_head t1 b1 (w1.data.map Char.toNat) (h1.data.map Char.toNat)
  obtain ⟨r2, hr2⟩ := keyRecord_head t2 b2 (w2.data.map Char.toNat) (h2.data.map Char.toNat)
  obtain ⟨hcode, ej⟩ := source_record_split _ _ _ _ r1 r2 hr1 hr2
    (scan_keyRecord _ _ _ _ (fun c hc => (cw1 c hc).1) (fun c hc => (ch1 c hc).1))
    (scan_keyRecord _ _ _ _ (fun c hc => (cw2 c hc).1) (fun c hc => (ch2 c hc).1)) h
  obtain ⟨et, eb, ew, eh⟩ := keyRecord_inj _ _ _ _ _ _ _ _ (fun c hc => (cw1 c hc).2)
    (fun c hc => (cw2 c hc).2) ej
  have hn : Raw.normalizedOptions cfg (Raw.destructureOptions cfg o1)
      = Raw.normalizedOptions cfg (Raw.destructureOptions cfg o2) := by
    rw [n1, n2, et, eb, map_toNat_inj _ _ ew, map_toNat_inj _ _ eh]
  refine ⟨hcode, hn, ?_⟩
  intro browser format
  simp only [Raw.normalizedOptions, List.cons.injEq, Prod.mk.injEq, true_and, and_true] at hn
  obtain ⟨k1, k2, k3, k4⟩ := hn
  simp only [Raw.renderCallOf, hcode, k1, k2,
    or_null_determines _ _ (.num cfg.DEFAULT_WIDTH) k3,
    or_null_determines _ _ (.num cfg.DEFAULT_HEIGHT) k4]

/-- C24 at a source that ends in a lone surrogate, with a lone surrogate
as theme and the width `1e21`, against the same request with the default
background colour and height spelled out: the hashed text is the same,
and so is the render call. -/
theorem cacheKeyContent_sound_witness :
    isNumberValue defaultConfig.DEFAULT_WIDTH = true ∧
    isNumberValue defaultConfig.DEFAULT_HEIGHT = true ∧
    Raw.plainOptions [("theme", .str [55296]), ("width", .num 1000000000000000000000)] = true ∧
    Raw.plainOptions [("width", .num 1000000000000000000000), ("theme", .str [55296]),
      ("backgroundColor", .str (utf16 "white")), ("height", .num 600)] = true ∧
    Raw.cacheKeyContent defaultConfig (utf16 sampleCode ++ [56832])
        (Raw.destructureOptions defaultConfig
          [("theme", .str [55296]), ("width", .num 1000000000000000000000)])
      = Raw.cacheKeyContent defaultConfig (utf16 sampleCode ++ [56832])
          (Raw.destructureOptions defaultConfig
            [("width", .num 1000000000000000000000), ("theme", .str [55296]),
             ("backgroundColor", .str (utf16 "white")), ("height", .num 600)]) ∧
    ∀ browser format,
      Raw.renderCallOf defaultConfig browser (utf16 sampleCode ++ [56832]) format
          (Raw.destructureOptions defaultConfig
            [("theme", .str [55296]), ("width", .num 1000000000000000000000)])
        = Raw.renderCallOf defaultConfig browser (utf16 sampleCode ++ [56832]) format
            (Raw.destructureOptions defaultConfig
              [("width", .num 1000000000000000000000), ("theme", .str [55296]),
               ("backgroundColor", .str (utf16 "white")), ("height", .num 600)]) :=
  ⟨by decide, by decide, by decide, by decide, by decide,
    (cacheKeyContent_sound defaultConfig (utf16 sampleCode ++ [56832])
      (utf16 sampleCode ++ [56832])
      [("theme", .str [55296]), ("width", .num 1000000000000000000000)]
      [("width", .num 1000000000000000000000), ("theme", .str [55296]),
       ("backgroundColor", .str (utf16 "white")), ("height", .num 600)]
      (by decide) (by decide) (by decide) (by decide) (by decide)).2.2⟩

end MermaidServer
